import Mathlib

/-!
# Embedded security showcase

A shallow embedding of the ingress ring buffer (`CRingBuffer.cpp`), of the
UART frame codec and the two handshake state machines
(`appCarStateMachine.cpp`, `appRemoteStateMachine.cpp`), of the cipher,
key-exchange, signature and signature-verification managers
(`encryptMgr.cpp`, `decryptMgr.cpp`, `dhKeyExchangeMgr.cpp`, `signMgr.cpp`,
`signVerifyMgr.cpp`) and of the receive interrupt path (`main.cpp`), followed
by the properties established about them.

Conventions of the embedding:
* a byte (`char`, `unsigned char`, `uint8_t`) is its bit pattern, a `Fin 256`;
* memory reached through a pointer or an array name is a function from the
  index to the byte stored there;
* `uint16_t` and `unsigned int` counters are natural numbers, reduced modulo
  `2^16` resp. `2^32` wherever the source increments them;
* function-local `static` variables and objects passed by reference are
  threaded explicitly: every function returns their new values.
-/

namespace Showcase

/-- A byte, identified with its bit pattern. -/
abbrev Byte := Fin 256

/-- Memory reached through a pointer or array name, indexed from its base. -/
abbrev Mem := Nat → Byte

/-! ## CRingBuffer.h / CRingBuffer.cpp -/

/-- Macro `UART_RB_SIZE` of `CRingBuffer.h`. -/
def UART_RB_SIZE : Nat := 500

/-- Enumeration `RC_RB_t` of `CRingBuffer.h`. -/
inductive RC_RB_t
  | RC_SUCCESS
  | RC_ERROR
  | RC_WRONGPARAM
  | RC_BUFFEROVERFLOW
  | RC_BUFFERUNDERFLOW
  | RC_PERIPHERALOCCUPIED
  | RC_NODATA
  deriving DecidableEq, Repr

/-- Data members of class `CRingBuffer`. -/
structure CRingBuffer where
  m_pBuffer : Mem
  m_readIdx : Nat
  m_writeIdx : Nat
  m_fillLevel : Nat

/-- The loop `for(int i =0;i<UART_RB_SIZE;i++) m_pBuffer[i]='\0';`, run for
its first `k` iterations. -/
def fillNull (buf : Mem) : Nat → Mem
  | 0 => buf
  | k + 1 => Function.update (fillNull buf k) k 0

/-- Constructor `CRingBuffer::CRingBuffer()`; `raw` is the content of the
storage before construction. -/
def CRingBuffer.ctor (raw : Mem) : CRingBuffer :=
  { m_fillLevel := 0
    m_readIdx := 0
    m_writeIdx := 0
    m_pBuffer := fillNull raw UART_RB_SIZE }

/-- Method `CRingBuffer::read(char& data)`: returns the status, the value of
the caller's `data` after the call and the buffer after the call. -/
def CRingBuffer.read (rb : CRingBuffer) (data : Byte) : RC_RB_t × Byte × CRingBuffer :=
  if rb.m_fillLevel > 0 then
    (RC_RB_t.RC_SUCCESS,
     rb.m_pBuffer rb.m_readIdx,
     { rb with
       m_readIdx := ((rb.m_readIdx + 1) % 2 ^ 16) % UART_RB_SIZE
       m_fillLevel := rb.m_fillLevel - 1 })
  else
    (RC_RB_t.RC_BUFFERUNDERFLOW, data, rb)

/-- Method `CRingBuffer::write(char data)`. -/
def CRingBuffer.write (rb : CRingBuffer) (data : Byte) : RC_RB_t × CRingBuffer :=
  if rb.m_fillLevel < UART_RB_SIZE then
    (RC_RB_t.RC_SUCCESS,
     { rb with
       m_pBuffer := Function.update rb.m_pBuffer rb.m_writeIdx data
       m_writeIdx := ((rb.m_writeIdx + 1) % 2 ^ 16) % UART_RB_SIZE
       m_fillLevel := (rb.m_fillLevel + 1) % 2 ^ 16 })
  else
    (RC_RB_t.RC_BUFFERUNDERFLOW, rb)

/-- Method `CRingBuffer::clear()`. -/
def CRingBuffer.clear (rb : CRingBuffer) : RC_RB_t × CRingBuffer :=
  (RC_RB_t.RC_SUCCESS,
   { m_fillLevel := 0
     m_readIdx := 0
     m_writeIdx := 0
     m_pBuffer := fillNull rb.m_pBuffer UART_RB_SIZE })

/-- Method `CRingBuffer::getFillLevelOfBuffer()`. -/
def CRingBuffer.getFillLevelOfBuffer (rb : CRingBuffer) : Nat :=
  rb.m_fillLevel

/-! ### Call sequences on a ring buffer -/

/-- One call of a public method that changes the buffer. -/
inductive RbCall
  | write (data : Byte)
  | read
  | clear
  deriving DecidableEq, Repr

/-- Performs one call; `d` is the caller's variable passed to `read`. The
result is the returned status, the caller's variable and the buffer after the
call. -/
def rbStep (rb : CRingBuffer) (d : Byte) : RbCall → RC_RB_t × Byte × CRingBuffer
  | RbCall.write b => ((rb.write b).1, d, (rb.write b).2)
  | RbCall.read => rb.read d
  | RbCall.clear => (rb.clear.1, d, rb.clear.2)

/-- Performs a sequence of calls and records what each one returned and left
behind. -/
def rbTrace (rb : CRingBuffer) (d : Byte) : List RbCall → List (RC_RB_t × Byte × CRingBuffer)
  | [] => []
  | c :: cs => rbStep rb d c :: rbTrace (rbStep rb d c).2.2 (rbStep rb d c).2.1 cs

/-- The buffer after a sequence of calls. -/
def rbRun (rb : CRingBuffer) : List RbCall → CRingBuffer
  | [] => rb
  | c :: cs => rbRun (rbStep rb 0 c).2.2 cs

/-- The queued bytes, oldest first: `m_fillLevel` cells starting at
`m_readIdx`, wrapping at `UART_RB_SIZE`. -/
def CRingBuffer.toList (rb : CRingBuffer) : List Byte :=
  (List.range rb.m_fillLevel).map (fun k => rb.m_pBuffer ((rb.m_readIdx + k) % UART_RB_SIZE))

/-- The representation invariant of the ring buffer. -/
def CRingBuffer.Inv (rb : CRingBuffer) : Prop :=
  rb.m_fillLevel ≤ 500 ∧ rb.m_readIdx < 500 ∧ rb.m_writeIdx < 500 ∧
    rb.m_writeIdx = (rb.m_readIdx + rb.m_fillLevel) % 500

instance (rb : CRingBuffer) : Decidable rb.Inv := by
  unfold CRingBuffer.Inv; infer_instance

/-- One call on the queue of the specification: a list of at most 500 bytes.
The result is whether the call succeeded, the caller's variable and the list
after the call. -/
def fifoStep (q : List Byte) (d : Byte) : RbCall → Bool × Byte × List Byte
  | RbCall.write b => if q.length < 500 then (true, d, q ++ [b]) else (false, d, q)
  | RbCall.read =>
    match q with
    | [] => (false, d, [])
    | x :: t => (true, x, t)
  | RbCall.clear => (true, d, [])

/-- A sequence of calls on the queue of the specification. -/
def fifoTrace (q : List Byte) (d : Byte) : List RbCall → List (Bool × Byte × List Byte)
  | [] => []
  | c :: cs => fifoStep q d c :: fifoTrace (fifoStep q d c).2.2 (fifoStep q d c).2.1 cs

/-- What the specification observes of a concrete call: success, the caller's
variable, the queued bytes and the reported fill level. -/
def observe (r : RC_RB_t × Byte × CRingBuffer) : Bool × Byte × List Byte × Nat :=
  (decide (r.1 = RC_RB_t.RC_SUCCESS), r.2.1, r.2.2.toList, r.2.2.getFillLevelOfBuffer)

/-- What the specification expects to be observed of a call on its queue. -/
def expect (r : Bool × Byte × List Byte) : Bool × Byte × List Byte × Nat :=
  (r.1, r.2.1, r.2.2, r.2.2.length)

/-! ## Transport -/

/-- Modelled from the spec: the transmit side of the byte-oriented transport
(`RawSerial` of the mbed library, not part of the sources); it is the sequence
of bytes handed to `put_byte` so far. -/
structure RawSerial where
  txd : List Byte

/-- Modelled from the spec: transport call `put_byte(b)` (`RawSerial::putc`). -/
def RawSerial.putc (s : RawSerial) (c : Byte) : RawSerial :=
  { txd := s.txd ++ [c] }

/-! ## appCarStateMachine.h / appCarStateMachine.cpp: frame codec -/

/-- Macro `CAR_PROTOCOL_SOF`, the character `'$'`. -/
def CAR_PROTOCOL_SOF : Byte := 0x24

/-- Macro `CAR_PROTOCOL_EOP1`, the character `'@'`. -/
def CAR_PROTOCOL_EOP1 : Byte := 0x40

/-- Macro `CAR_PROTOCOL_EOP2`, the character `'#'`. -/
def CAR_PROTOCOL_EOP2 : Byte := 0x23

/-- Macro `CAR_POS_ACK_BYTE_1`, the character `'*'`. -/
def CAR_POS_ACK_BYTE_1 : Byte := 0x2A

/-- Macro `CAR_POS_ACK_BYTE_2`, the character `'%'`. -/
def CAR_POS_ACK_BYTE_2 : Byte := 0x25

/-- Enumeration `car_rxStates_t`. -/
inductive car_rxStates_t
  | CAR_RX_SOP
  | CAR_RX_DATA
  | CAR_RX_EOP1
  | CAR_RX_EOP2
  deriving DecidableEq, Repr

/-- Enumeration `car_rxAckStates_t`. -/
inductive car_rxAckStates_t
  | CAR_RX_ACK_SOP
  | CAR_RX_ACK_BYTE1
  | CAR_RX_ACK_BYTE2
  deriving DecidableEq, Repr

/-- The function-local `static` variables of `car_rxData`. -/
structure CarRxStatics where
  dataIdx : Nat
  ch : Byte
  state : car_rxStates_t

/-- The initial values of the `static` variables of `car_rxData`. -/
def CarRxStatics.init : CarRxStatics :=
  { dataIdx := 0, ch := 0, state := car_rxStates_t.CAR_RX_SOP }

/-- The `switch (state)` statement of `car_rxData` together with the `return`
that follows it; `s.ch` is the byte just read. The result is the returned
flag, the `static` variables and the caller's buffer `myData`. The `default`
label is unreachable: `state` only takes the four enumerators. -/
def car_rxData_switch (s : CarRxStatics) (myData : Mem) (dataLength : Nat) :
    Bool × CarRxStatics × Mem :=
  match s.state with
  | car_rxStates_t.CAR_RX_SOP =>
    if s.ch = CAR_PROTOCOL_SOF then
      (false, { s with state := car_rxStates_t.CAR_RX_DATA }, myData)
    else
      (false, s, myData)
  | car_rxStates_t.CAR_RX_DATA =>
    if (s.dataIdx + 1) % 2 ^ 32 = dataLength then
      (false, { s with dataIdx := 0, state := car_rxStates_t.CAR_RX_EOP1 },
        Function.update myData s.dataIdx s.ch)
    else
      (false, { s with dataIdx := (s.dataIdx + 1) % 2 ^ 32 },
        Function.update myData s.dataIdx s.ch)
  | car_rxStates_t.CAR_RX_EOP1 =>
    if s.ch = CAR_PROTOCOL_EOP1 then
      (false, { s with state := car_rxStates_t.CAR_RX_EOP2 }, myData)
    else
      (false, { s with state := car_rxStates_t.CAR_RX_SOP }, myData)
  | car_rxStates_t.CAR_RX_EOP2 =>
    if s.ch = CAR_PROTOCOL_EOP2 then
      (true, { s with state := car_rxStates_t.CAR_RX_SOP }, myData)
    else
      (false, { s with state := car_rxStates_t.CAR_RX_SOP }, myData)

/-- Function `car_rxData(myData, dataLength, uartRxBuf)`. The result is the
returned flag, the `static` variables, the caller's buffer and the ring
buffer after the call. -/
def car_rxData (s : CarRxStatics) (myData : Mem) (dataLength : Nat) (uartRxBuf : CRingBuffer) :
    Bool × CarRxStatics × Mem × CRingBuffer :=
  let r := uartRxBuf.read s.ch
  if r.1 = RC_RB_t.RC_SUCCESS then
    let t := car_rxData_switch { s with ch := r.2.1 } myData dataLength
    (t.1, t.2.1, t.2.2, r.2.2)
  else
    (false, { s with ch := r.2.1 }, myData, r.2.2)

/-- The payload loop of `car_createtxPacket`,
`for (outputIdx = 1; outputIdx <= length ; outputIdx++)`, run for its first
`k` iterations. -/
def car_copyPayload (inputBuffer outputBuffer : Mem) : Nat → Mem
  | 0 => outputBuffer
  | k + 1 => Function.update (car_copyPayload inputBuffer outputBuffer k) (k + 1) (inputBuffer k)

/-- Function `car_createtxPacket(inputBuffer, outputBuffer, length)`; the
result is the output buffer after the call. The two buffers are distinct
objects. The loop runs `length` times (not at all for a negative `length`);
`int` arithmetic is exact, which covers every execution without signed
overflow. -/
def car_createtxPacket (inputBuffer outputBuffer : Mem) (length : Int) : Mem :=
  let out0 := Function.update outputBuffer 0 CAR_PROTOCOL_SOF
  let out1 := car_copyPayload inputBuffer out0 length.toNat
  let outputIdx := length.toNat + 1
  let out2 := Function.update out1 outputIdx CAR_PROTOCOL_EOP1
  Function.update out2 (outputIdx + 1) CAR_PROTOCOL_EOP2

/-- The function-local `static` variables of `car_CheckAckRxd`. -/
structure CarAckStatics where
  ch : Byte
  state : car_rxAckStates_t

/-- The initial values of the `static` variables of `car_CheckAckRxd`. -/
def CarAckStatics.init : CarAckStatics :=
  { ch := 0, state := car_rxAckStates_t.CAR_RX_ACK_SOP }

/-- Function `car_CheckAckRxd(uartRxBuf)`. The result is the returned flag,
the `static` variables and the ring buffer after the call. -/
def car_CheckAckRxd (s : CarAckStatics) (uartRxBuf : CRingBuffer) :
    Bool × CarAckStatics × CRingBuffer :=
  let r := uartRxBuf.read s.ch
  let ch := r.2.1
  if r.1 = RC_RB_t.RC_SUCCESS then
    match s.state with
    | car_rxAckStates_t.CAR_RX_ACK_SOP =>
      if ch = CAR_PROTOCOL_SOF then
        (false, { ch := ch, state := car_rxAckStates_t.CAR_RX_ACK_BYTE1 }, r.2.2)
      else
        (false, { ch := ch, state := car_rxAckStates_t.CAR_RX_ACK_SOP }, r.2.2)
    | car_rxAckStates_t.CAR_RX_ACK_BYTE1 =>
      if ch = CAR_POS_ACK_BYTE_1 then
        (false, { ch := ch, state := car_rxAckStates_t.CAR_RX_ACK_BYTE2 }, r.2.2)
      else
        (false, { ch := ch, state := car_rxAckStates_t.CAR_RX_ACK_SOP }, r.2.2)
    | car_rxAckStates_t.CAR_RX_ACK_BYTE2 =>
      if ch = CAR_POS_ACK_BYTE_2 then
        (true, { ch := ch, state := car_rxAckStates_t.CAR_RX_ACK_SOP }, r.2.2)
      else
        (false, { ch := ch, state := car_rxAckStates_t.CAR_RX_ACK_SOP }, r.2.2)
  else
    (false, { ch := ch, state := s.state }, r.2.2)

/-- Function `car_SendAck(car)`: the transport after the call. -/
def car_SendAck (car : RawSerial) : RawSerial :=
  let remoteAck : List Byte := [CAR_PROTOCOL_SOF, CAR_POS_ACK_BYTE_1, CAR_POS_ACK_BYTE_2]
  remoteAck.foldl RawSerial.putc car

/-! ## appRemoteStateMachine.cpp: frame codec

The header `appRemoteStateMachine.h` that defines the `REMOTE_` macros is not
part of the sources. -/

/-- Modelled from the spec: macro `REMOTE_PROTOCOL_SOF` of the missing header
`appRemoteStateMachine.h`; the wire format fixes the start marker `0x24`. -/
def REMOTE_PROTOCOL_SOF : Byte := 0x24

/-- Modelled from the spec: macro `REMOTE_PROTOCOL_EOP1` of the missing header;
the wire format fixes the first end marker `0x40`. -/
def REMOTE_PROTOCOL_EOP1 : Byte := 0x40

/-- Modelled from the spec: macro `REMOTE_PROTOCOL_EOP2` of the missing header;
the wire format fixes the second end marker `0x23`. -/
def REMOTE_PROTOCOL_EOP2 : Byte := 0x23

/-- Modelled from the spec: macro `REMOTE_POS_ACK_BYTE_1` of the missing
header; the ack frame fixes the first ack byte `0x2A`. -/
def REMOTE_POS_ACK_BYTE_1 : Byte := 0x2A

/-- Modelled from the spec: macro `REMOTE_POS_ACK_BYTE_2` of the missing
header; the ack frame fixes the second ack byte `0x25`. -/
def REMOTE_POS_ACK_BYTE_2 : Byte := 0x25

/-- Enumeration `remote_rxStates_t`. -/
inductive remote_rxStates_t
  | REMOTE_RX_SOP
  | REMOTE_RX_DATA
  | REMOTE_RX_EOP1
  | REMOTE_RX_EOP2
  deriving DecidableEq, Repr

/-- Enumeration `remote_rxAckStates_t`. -/
inductive remote_rxAckStates_t
  | REMOTE_RX_ACK_SOP
  | REMOTE_RX_ACK_BYTE1
  | REMOTE_RX_ACK_BYTE2
  deriving DecidableEq, Repr

/-- The payload loop of `remote_createtxPacket`, run for its first `k`
iterations. -/
def remote_copyPayload (inputBuffer outputBuffer : Mem) : Nat → Mem
  | 0 => outputBuffer
  | k + 1 =>
    Function.update (remote_copyPayload inputBuffer outputBuffer k) (k + 1) (inputBuffer k)

/-- Function `remote_createtxPacket(inputBuffer, outputBuffer, length)`, under
the conventions of `car_createtxPacket`. -/
def remote_createtxPacket (inputBuffer outputBuffer : Mem) (length : Int) : Mem :=
  let out0 := Function.update outputBuffer 0 REMOTE_PROTOCOL_SOF
  let out1 := remote_copyPayload inputBuffer out0 length.toNat
  let outputIdx := length.toNat + 1
  let out2 := Function.update out1 outputIdx REMOTE_PROTOCOL_EOP1
  Function.update out2 (outputIdx + 1) REMOTE_PROTOCOL_EOP2

/-- The function-local `static` variables of `remote_checkAckRxd`. -/
structure RemoteAckStatics where
  ch : Byte
  state : remote_rxAckStates_t

/-- The initial values of the `static` variables of `remote_checkAckRxd`. -/
def RemoteAckStatics.init : RemoteAckStatics :=
  { ch := 0, state := remote_rxAckStates_t.REMOTE_RX_ACK_SOP }

/-- Function `remote_checkAckRxd(uartRxBuf)`. -/
def remote_checkAckRxd (s : RemoteAckStatics) (uartRxBuf : CRingBuffer) :
    Bool × RemoteAckStatics × CRingBuffer :=
  let r := uartRxBuf.read s.ch
  let ch := r.2.1
  if r.1 = RC_RB_t.RC_SUCCESS then
    match s.state with
    | remote_rxAckStates_t.REMOTE_RX_ACK_SOP =>
      if ch = REMOTE_PROTOCOL_SOF then
        (false, { ch := ch, state := remote_rxAckStates_t.REMOTE_RX_ACK_BYTE1 }, r.2.2)
      else
        (false, { ch := ch, state := remote_rxAckStates_t.REMOTE_RX_ACK_SOP }, r.2.2)
    | remote_rxAckStates_t.REMOTE_RX_ACK_BYTE1 =>
      if ch = REMOTE_POS_ACK_BYTE_1 then
        (false, { ch := ch, state := remote_rxAckStates_t.REMOTE_RX_ACK_BYTE2 }, r.2.2)
      else
        (false, { ch := ch, state := remote_rxAckStates_t.REMOTE_RX_ACK_SOP }, r.2.2)
    | remote_rxAckStates_t.REMOTE_RX_ACK_BYTE2 =>
      if ch = REMOTE_POS_ACK_BYTE_2 then
        (true, { ch := ch, state := remote_rxAckStates_t.REMOTE_RX_ACK_SOP }, r.2.2)
      else
        (false, { ch := ch, state := remote_rxAckStates_t.REMOTE_RX_ACK_SOP }, r.2.2)
  else
    (false, { ch := ch, state := s.state }, r.2.2)

/-- The function-local `static` variables of `remote_rxDataByte`. -/
structure RemoteRxStatics where
  dataIdx : Nat
  ch : Byte
  state : remote_rxStates_t

/-- The initial values of the `static` variables of `remote_rxDataByte`. -/
def RemoteRxStatics.init : RemoteRxStatics :=
  { dataIdx := 0, ch := 0, state := remote_rxStates_t.REMOTE_RX_SOP }

/-- The `switch (state)` statement of `remote_rxDataByte` together with the
`return` that follows it; `s.ch` is the byte just read. -/
def remote_rxDataByte_switch (s : RemoteRxStatics) (rxdData : Mem) (dataLength : Nat) :
    Bool × RemoteRxStatics × Mem :=
  match s.state with
  | remote_rxStates_t.REMOTE_RX_SOP =>
    if s.ch = REMOTE_PROTOCOL_SOF then
      (false, { s with state := remote_rxStates_t.REMOTE_RX_DATA }, rxdData)
    else
      (false, s, rxdData)
  | remote_rxStates_t.REMOTE_RX_DATA =>
    if (s.dataIdx + 1) % 2 ^ 32 = dataLength then
      (false, { s with dataIdx := 0, state := remote_rxStates_t.REMOTE_RX_EOP1 },
        Function.update rxdData s.dataIdx s.ch)
    else
      (false, { s with dataIdx := (s.dataIdx + 1) % 2 ^ 32 },
        Function.update rxdData s.dataIdx s.ch)
  | remote_rxStates_t.REMOTE_RX_EOP1 =>
    if s.ch = REMOTE_PROTOCOL_EOP1 then
      (false, { s with state := remote_rxStates_t.REMOTE_RX_EOP2 }, rxdData)
    else
      (false, { s with state := remote_rxStates_t.REMOTE_RX_SOP }, rxdData)
  | remote_rxStates_t.REMOTE_RX_EOP2 =>
    if s.ch = REMOTE_PROTOCOL_EOP2 then
      (true, { s with state := remote_rxStates_t.REMOTE_RX_SOP }, rxdData)
    else
      (false, { s with state := remote_rxStates_t.REMOTE_RX_SOP }, rxdData)

/-- Function `remote_rxDataByte(rxdData, dataLength, uartRxBuf)`. -/
def remote_rxDataByte (s : RemoteRxStatics) (rxdData : Mem) (dataLength : Nat)
    (uartRxBuf : CRingBuffer) : Bool × RemoteRxStatics × Mem × CRingBuffer :=
  let r := uartRxBuf.read s.ch
  if r.1 = RC_RB_t.RC_SUCCESS then
    let t := remote_rxDataByte_switch { s with ch := r.2.1 } rxdData dataLength
    (t.1, t.2.1, t.2.2, r.2.2)
  else
    (false, { s with ch := r.2.1 }, rxdData, r.2.2)

/-- Function `remote_sendAck(remote)`: the transport after the call. -/
def remote_sendAck (remote : RawSerial) : RawSerial :=
  let remoteAck : List Byte :=
    [REMOTE_PROTOCOL_SOF, REMOTE_POS_ACK_BYTE_1, REMOTE_POS_ACK_BYTE_2]
  remoteAck.foldl RawSerial.putc remote

/-! ## Runs of the receiving side -/

/-- What happens on the receiving side: the interrupt path stores a received
byte (`uartRxBuf.write` in `myCallback`), or the application calls the frame
parser once. -/
inductive LinkEvent
  | rx (b : Byte)
  | poll
  deriving DecidableEq, Repr

/-- The receiving side of the car: the ring buffer, the `static` variables of
`car_rxData` and the caller's buffer. -/
structure CarRxSys where
  uartRxBuf : CRingBuffer
  statics : CarRxStatics
  myData : Mem

/-- What one call of the parser did: the byte it took from the ring buffer,
if any, and the flag it returned. -/
structure PollLog where
  consumed : Option Byte
  result : Bool
  deriving DecidableEq, Repr

/-- The byte a call of the parser takes from the ring buffer, if any. -/
def nextByte (rb : CRingBuffer) : Option Byte :=
  if (rb.read 0).1 = RC_RB_t.RC_SUCCESS then some (rb.read 0).2.1 else none

/-- One event on the car side, with expected payload length `N`. -/
def carRxStep (N : Nat) (sys : CarRxSys) : LinkEvent → CarRxSys × List PollLog
  | LinkEvent.rx b => ({ sys with uartRxBuf := (sys.uartRxBuf.write b).2 }, [])
  | LinkEvent.poll =>
    let r := car_rxData sys.statics sys.myData N sys.uartRxBuf
    ({ uartRxBuf := r.2.2.2, statics := r.2.1, myData := r.2.2.1 },
      [{ consumed := nextByte sys.uartRxBuf, result := r.1 }])

/-- A sequence of events on the car side; the log lists the calls of the
parser in order. -/
def carRxRun (N : Nat) (sys : CarRxSys) : List LinkEvent → CarRxSys × List PollLog
  | [] => (sys, [])
  | e :: es =>
    let r := carRxStep N sys e
    let rest := carRxRun N r.1 es
    (rest.1, r.2 ++ rest.2)

/-- The bytes the parser took from the ring buffer, in order. -/
def consumedBytes (log : List PollLog) : List Byte :=
  log.filterMap PollLog.consumed

/-- The flags returned by the calls that took a byte, in order. -/
def consumingResults (log : List PollLog) : List Bool :=
  (log.filter (fun e => e.consumed.isSome)).map PollLog.result

/-- The car side with the parser in its initial state, for a ring buffer `rb`
and a caller's buffer with content `buf`. -/
def CarRxSys.init (rb : CRingBuffer) (buf : Mem) : CarRxSys :=
  { uartRxBuf := rb, statics := CarRxStatics.init, myData := buf }

/-- The car side after `k` successive calls of `car_rxData`, no byte arriving
in between, and the log of these calls. -/
def car_rxData_calls (N : Nat) (sys : CarRxSys) (k : Nat) : CarRxSys × List PollLog :=
  carRxRun N sys (List.replicate k LinkEvent.poll)

/-- A rejected candidate frame for expected payload length `N`: the start
marker and `N` payload bytes, followed either by a byte that is not the first
end marker, or by the first end marker and a byte that is not the second. -/
def isRejectedCandidate (N : Nat) (cand : List Byte) : Prop :=
  ∃ Q : List Byte, Q.length = N ∧
    ((∃ x, x ≠ CAR_PROTOCOL_EOP1 ∧ cand = [CAR_PROTOCOL_SOF] ++ Q ++ [x]) ∨
      (∃ y, y ≠ CAR_PROTOCOL_EOP2 ∧
        cand = [CAR_PROTOCOL_SOF] ++ Q ++ [CAR_PROTOCOL_EOP1, y]))

/-- A ring buffer holding the five bytes of the frame with payload
`0x24 0x40`, written one by one to a newly constructed buffer. -/
def frameBuffer : CRingBuffer :=
  rbRun (CRingBuffer.ctor (fun _ => 0))
    [RbCall.write 0x24, RbCall.write 0x24, RbCall.write 0x40, RbCall.write 0x40,
      RbCall.write 0x23]

/-- A ring buffer holding the three bytes of an ack frame, written one by one
to a newly constructed buffer. -/
def ackBuffer : CRingBuffer :=
  rbRun (CRingBuffer.ctor (fun _ => 0))
    [RbCall.write 0x24, RbCall.write 0x2A, RbCall.write 0x25]

/-- The parser of the car applied to a sequence of bytes, one call of the
`switch` per byte. -/
def carRxFeed (N : Nat) (s : CarRxStatics) (myData : Mem) : List Byte → List Bool × CarRxStatics × Mem
  | [] => ([], s, myData)
  | b :: bs =>
    let t := car_rxData_switch { s with ch := b } myData N
    let rest := carRxFeed N t.2.1 t.2.2 bs
    (t.1 :: rest.1, rest.2.1, rest.2.2)

/-- The wire bytes of a frame with payload `P`. -/
def frameBytes (P : List Byte) : List Byte :=
  [CAR_PROTOCOL_SOF] ++ P ++ [CAR_PROTOCOL_EOP1, CAR_PROTOCOL_EOP2]

/-- A sequence of writes and reads (no `clear`) in which no write is made to a
full buffer and no read to an empty one, starting from the buffer `rb`. -/
def noRejected (rb : CRingBuffer) : List RbCall → Prop
  | [] => True
  | RbCall.write b :: cs =>
    rb.getFillLevelOfBuffer < UART_RB_SIZE ∧ noRejected (rb.write b).2 cs
  | RbCall.read :: cs => 0 < rb.getFillLevelOfBuffer ∧ noRejected (rb.read 0).2.2 cs
  | RbCall.clear :: _ => False

/-- The number of `write` calls in a sequence. -/
def countWrites (cs : List RbCall) : Nat :=
  cs.countP (fun c => match c with | RbCall.write _ => true | _ => false)

/-- The number of `read` calls in a sequence. -/
def countReads (cs : List RbCall) : Nat :=
  cs.countP (fun c => match c with | RbCall.read => true | _ => false)

/-- A ring buffer with no queued byte. -/
def emptyBuffer : CRingBuffer :=
  CRingBuffer.ctor (fun _ => 0)

/-- A ring buffer filled to capacity: 500 bytes were written to a newly
constructed buffer. -/
def fullBuffer : CRingBuffer :=
  rbRun (CRingBuffer.ctor (fun _ => 0)) (List.replicate 500 (RbCall.write 0x41))

/-- What the bytes `l` taken so far tell about a parser of the car in state
`s` with caller's buffer `m`, for expected payload length `N`: the start
marker and the payload bytes since it are the most recent bytes, and the
payload bytes are in the caller's buffer. -/
def rxInv (N : Nat) (s : CarRxStatics) (m : Mem) (l : List Byte) : Prop :=
  match s.state with
  | car_rxStates_t.CAR_RX_SOP => s.dataIdx = 0
  | car_rxStates_t.CAR_RX_DATA =>
    s.dataIdx < N ∧ ∃ pre, l = pre ++ [CAR_PROTOCOL_SOF] ++ (List.range s.dataIdx).map m
  | car_rxStates_t.CAR_RX_EOP1 =>
    s.dataIdx = 0 ∧ ∃ pre, l = pre ++ [CAR_PROTOCOL_SOF] ++ (List.range N).map m
  | car_rxStates_t.CAR_RX_EOP2 =>
    s.dataIdx = 0 ∧
      ∃ pre, l = pre ++ [CAR_PROTOCOL_SOF] ++ (List.range N).map m ++ [CAR_PROTOCOL_EOP1]

/-- The events by which the bytes `bs` reach the parser one at a time: each
byte is stored in the ring buffer and the parser is called once. -/
def feedEvents (bs : List Byte) : List LinkEvent :=
  bs.flatMap (fun b => [LinkEvent.rx b, LinkEvent.poll])

/-- The flags returned by `k` successive calls of `car_CheckAckRxd`, and the
`static` variables and ring buffer after them. -/
def car_CheckAckRxd_calls (s : CarAckStatics) (rb : CRingBuffer) :
    Nat → List Bool × CarAckStatics × CRingBuffer
  | 0 => ([], s, rb)
  | k + 1 =>
    ((car_CheckAckRxd s rb).1 ::
        (car_CheckAckRxd_calls (car_CheckAckRxd s rb).2.1 (car_CheckAckRxd s rb).2.2 k).1,
      (car_CheckAckRxd_calls (car_CheckAckRxd s rb).2.1 (car_CheckAckRxd s rb).2.2 k).2)

/-- The flags returned by `k` successive calls of `remote_checkAckRxd`, and
the `static` variables and ring buffer after them. -/
def remote_checkAckRxd_calls (s : RemoteAckStatics) (rb : CRingBuffer) :
    Nat → List Bool × RemoteAckStatics × CRingBuffer
  | 0 => ([], s, rb)
  | k + 1 =>
    ((remote_checkAckRxd s rb).1 ::
        (remote_checkAckRxd_calls (remote_checkAckRxd s rb).2.1
          (remote_checkAckRxd s rb).2.2 k).1,
      (remote_checkAckRxd_calls (remote_checkAckRxd s rb).2.1
        (remote_checkAckRxd s rb).2.2 k).2)

/-! ## Send-side byte pump -/

/-- Function `car_SendDataByte(buffer, length, car)`. `bufIdx` is the
function-local `static int`; `writeable` tells whether `car.writeable()`
returned a nonzero value in this call. The result is the returned flag, the
`static` variable and the transport after the call. -/
def car_SendDataByte (bufIdx : Int) (buffer : Mem) (length : Nat) (writeable : Bool)
    (car : RawSerial) : Bool × Int × RawSerial :=
  if writeable then
    if bufIdx + 1 = (length : Int) then
      (true, 0, car.putc (buffer bufIdx.toNat))
    else
      (false, bufIdx + 1, car.putc (buffer bufIdx.toNat))
  else
    (false, bufIdx, car)

/-- Function `remote_sendDataByte(buffer, length, remote)`, under the
conventions of `car_SendDataByte`. -/
def remote_sendDataByte (bufIdx : Int) (buffer : Mem) (length : Nat) (writeable : Bool)
    (remote : RawSerial) : Bool × Int × RawSerial :=
  if writeable then
    if bufIdx + 1 = (length : Int) then
      (true, 0, remote.putc (buffer bufIdx.toNat))
    else
      (false, bufIdx + 1, remote.putc (buffer bufIdx.toNat))
  else
    (false, bufIdx, remote)

/-- Successive calls of `car_SendDataByte` with the same buffer and length,
one call per readiness value: the returned flags in order, then the `static`
variable and the transport after the last call. -/
def car_SendDataByte_calls (buffer : Mem) (length : Nat) (bufIdx : Int) (car : RawSerial) :
    List Bool → List Bool × Int × RawSerial
  | [] => ([], bufIdx, car)
  | w :: ws =>
    ((car_SendDataByte bufIdx buffer length w car).1 ::
        (car_SendDataByte_calls buffer length (car_SendDataByte bufIdx buffer length w car).2.1
          (car_SendDataByte bufIdx buffer length w car).2.2 ws).1,
      (car_SendDataByte_calls buffer length (car_SendDataByte bufIdx buffer length w car).2.1
        (car_SendDataByte bufIdx buffer length w car).2.2 ws).2)

/-! ## Crypto provider (PSA) interface

The provider is outside the repository. Its answers are inputs of the
embedded methods, and every method returns the list of provider operations it
invoked, in order. The `psa_set_key_*` and `psa_reset_key_attributes` calls
only edit the attribute structure of the caller and are not listed. -/

/-- Provider status code `psa_status_t`. -/
abbrev psa_status_t := Int

/-- Provider status `PSA_SUCCESS`. -/
def PSA_SUCCESS : psa_status_t := 0

/-- The cipher algorithms of `psa_algorithm_t` named by the managers. -/
inductive psa_algorithm_t
  | PSA_ALG_CBC_NO_PADDING
  | PSA_ALG_CBC_PKCS7
  deriving DecidableEq, Repr

/-- Macro `PSA_BLOCK_CIPHER_BLOCK_SIZE(PSA_KEY_TYPE_AES)` of the provider: the
block size of AES, 16 bytes. -/
def PSA_BLOCK_CIPHER_BLOCK_SIZE_AES : Nat := 16

/-- What `psa_import_key` answers: its status and the value it leaves in the
handle passed by address. -/
structure ImportAnswer where
  status : psa_status_t
  handle : Nat
  deriving DecidableEq, Repr

/-- What the four provider steps of one cipher operation answer: set-up, IV
generation (encryption) or set-IV (decryption), update, finish. -/
structure CipherAnswers where
  setup : psa_status_t
  iv : psa_status_t
  update : psa_status_t
  finish : psa_status_t
  deriving DecidableEq, Repr

/-- A provider operation invoked by a manager. -/
inductive PsaCall
  | psa_import_key (handle : Nat)
  | psa_cipher_encrypt_setup
  | psa_cipher_decrypt_setup
  | psa_cipher_generate_iv
  | psa_cipher_set_iv
  | psa_cipher_update
  | psa_cipher_finish
  | psa_cipher_abort
  | psa_destroy_key (handle : Nat)
  | mbedtls_psa_crypto_free
  | psa_crypto_init
  | psa_generate_key (handle : Nat)
  | psa_asymmetric_sign
  | psa_export_public_key
  | psa_asymmetric_verify
  deriving DecidableEq, Repr

/-! ## encryptMgr.h / encryptMgr.cpp -/

/-- Macro `AES_BLOCK_SIZE_SUPPORTED_BY_HW` (value as in
`decryptServicesCfg.h`). -/
def AES_BLOCK_SIZE_SUPPORTED_BY_HW : Nat := 16

/-- Modelled from the spec: enumeration `typeOfEncryptAlgo_t` of the missing
header `encryptServicesCfg.h`, with the two modes (no-padding, PKCS7) named in
`encryptMgr.cpp`. -/
inductive typeOfEncryptAlgo_t
  | ENCRYPT_CBC_NO_PADDING
  | ENCRYPT_CBC_WITH_PADDING
  deriving DecidableEq, Repr

/-- Modelled from the spec: enumeration `errorTypeEncrypt_t` of the missing
header `encryptServicesCfg.h`, with the enumerators used in `encryptMgr.cpp`
(the mirror of `errorTypeDecrypt_e`). -/
inductive errorTypeEncrypt_t
  | ENCRYPT_INIT_FAIL
  | ENCRYPT_PADDING_FAIL
  | ENCRYPT_HANDLE_FAIL
  | ENCYPT_INVALID_BLOCK_SIZE
  | ENCRYPT_INVALID_ALGO
  | ENCRYPT_CIPHER_SETUP_FAIL
  | ENCRYPT_IV_GENERATE_FAIL
  | ENCRYPT_CIPHER_UPDATE_FAIL
  | ENCRYPT_CIPHER_NOT_FINISHED
  | ENCRYPT_VALID_BLOCK_SIZE
  | ENCRYPT_VALID_ALGO
  | ENCRYPT_HANDLE_SUCCESS
  | ENCRYPT_PADDING_SUCCESS
  | ENCRYPT_INIT_SUCCESS
  | ENCRYPT_SUCCESS
  deriving DecidableEq, Repr

/-- Data members of class `encryptMgr` that the methods below read or write.
`m_cipherText` is the size of the array allocated for the cipher text, if one
was allocated. -/
structure encryptMgr where
  m_cipherText : Option Nat
  m_sizeOfPlainText : Nat
  m_sizeOfCipherText : Nat
  m_blockSize : Nat
  m_algoType : typeOfEncryptAlgo_t
  m_errorStatus : errorTypeEncrypt_t
  m_algSupportedByPSA : psa_algorithm_t
  m_handle : Nat
  deriving DecidableEq, Repr

/-- Method `encryptMgr::calculateBlockSize()`. -/
def encryptMgr.calculateBlockSize (m : encryptMgr) : errorTypeEncrypt_t × encryptMgr :=
  let m1 := { m with m_blockSize := PSA_BLOCK_CIPHER_BLOCK_SIZE_AES % 2 ^ 8 }
  if m1.m_blockSize ≠ AES_BLOCK_SIZE_SUPPORTED_BY_HW then
    (errorTypeEncrypt_t.ENCYPT_INVALID_BLOCK_SIZE, m1)
  else
    (errorTypeEncrypt_t.ENCRYPT_VALID_BLOCK_SIZE, m1)

/-- Method `encryptMgr::setEncryptionAlgo()`. The `default` label is
unreachable: `m_algoType` only takes the two enumerators. -/
def encryptMgr.setEncryptionAlgo (m : encryptMgr) : errorTypeEncrypt_t × encryptMgr :=
  match m.m_algoType with
  | typeOfEncryptAlgo_t.ENCRYPT_CBC_NO_PADDING =>
    (errorTypeEncrypt_t.ENCRYPT_VALID_ALGO,
      { m with m_algSupportedByPSA := psa_algorithm_t.PSA_ALG_CBC_NO_PADDING })
  | typeOfEncryptAlgo_t.ENCRYPT_CBC_WITH_PADDING =>
    (errorTypeEncrypt_t.ENCRYPT_VALID_ALGO,
      { m with m_algSupportedByPSA := psa_algorithm_t.PSA_ALG_CBC_PKCS7 })

/-- Method `encryptMgr::calculateSizeOfCipherText()`. The sum is computed in
`int` and stored in the `uint16_t` member. The final `else` is unreachable:
`m_algoType` only takes the two enumerators. -/
def encryptMgr.calculateSizeOfCipherText (m : encryptMgr) : errorTypeEncrypt_t × encryptMgr :=
  match m.m_algoType with
  | typeOfEncryptAlgo_t.ENCRYPT_CBC_NO_PADDING =>
    if m.m_sizeOfPlainText % AES_BLOCK_SIZE_SUPPORTED_BY_HW = 0 then
      (errorTypeEncrypt_t.ENCRYPT_PADDING_SUCCESS,
        { m with m_sizeOfCipherText := m.m_sizeOfPlainText })
    else
      (errorTypeEncrypt_t.ENCRYPT_PADDING_FAIL, { m with m_sizeOfCipherText := 0 })
  | typeOfEncryptAlgo_t.ENCRYPT_CBC_WITH_PADDING =>
    (errorTypeEncrypt_t.ENCRYPT_PADDING_SUCCESS,
      { m with
        m_sizeOfCipherText :=
          (m.m_sizeOfPlainText + m.m_blockSize - m.m_sizeOfPlainText % 16) % 2 ^ 16 })

/-- Method `encryptMgr::createKeyHandleForEncryption(encryptionKey)`; `imp` is
the answer of `psa_import_key`. -/
def encryptMgr.createKeyHandleForEncryption (m : encryptMgr) (imp : ImportAnswer) :
    errorTypeEncrypt_t × encryptMgr × List PsaCall :=
  if PSA_SUCCESS ≠ imp.status then
    (errorTypeEncrypt_t.ENCRYPT_HANDLE_FAIL, { m with m_handle := imp.handle },
      [PsaCall.psa_import_key imp.handle])
  else
    (errorTypeEncrypt_t.ENCRYPT_HANDLE_SUCCESS, { m with m_handle := imp.handle },
      [PsaCall.psa_import_key imp.handle])

/-- Method `encryptMgr::encryptionDhKeyHandle(dhKey)`. -/
def encryptMgr.encryptionDhKeyHandle (m : encryptMgr) (imp : ImportAnswer) :
    Bool × encryptMgr × List PsaCall :=
  if errorTypeEncrypt_t.ENCRYPT_HANDLE_SUCCESS = (m.createKeyHandleForEncryption imp).1 then
    (true, (m.createKeyHandleForEncryption imp).2)
  else
    (false, (m.createKeyHandleForEncryption imp).2)

/-- Method `encryptMgr::initializeEncryptionServices()`; `imp` is the answer of
`psa_import_key` for the default key, if it is asked. -/
def encryptMgr.initializeEncryptionServices (m : encryptMgr) (imp : ImportAnswer) :
    encryptMgr × List PsaCall :=
  let b := m.calculateBlockSize
  let m1 := { b.2 with m_errorStatus := b.1 }
  if errorTypeEncrypt_t.ENCRYPT_VALID_BLOCK_SIZE = m1.m_errorStatus then
    let a := m1.setEncryptionAlgo
    let m2 := { a.2 with m_errorStatus := a.1 }
    if errorTypeEncrypt_t.ENCRYPT_VALID_ALGO = m2.m_errorStatus then
      let s := m2.calculateSizeOfCipherText
      let m3 := { s.2 with m_errorStatus := s.1 }
      if errorTypeEncrypt_t.ENCRYPT_PADDING_SUCCESS = m3.m_errorStatus then
        let k := m3.createKeyHandleForEncryption imp
        ({ k.2.1 with m_errorStatus := k.1 }, k.2.2)
      else
        (m3, [])
    else
      (m2, [])
  else
    (m1, [])

/-- Constructor `encryptMgr::encryptMgr(plainText, sizeOfPlainText, algoType)`;
`raw` is the content of the object's storage before construction. -/
def encryptMgr.ctor (raw : encryptMgr) (sizeOfPlainText : Nat) (algoType : typeOfEncryptAlgo_t)
    (imp : ImportAnswer) : encryptMgr × List PsaCall :=
  let m0 := { raw with m_sizeOfPlainText := sizeOfPlainText, m_algoType := algoType }
  let i := m0.initializeEncryptionServices imp
  if errorTypeEncrypt_t.ENCRYPT_HANDLE_SUCCESS = i.1.m_errorStatus then
    ({ i.1 with
        m_cipherText := some i.1.m_sizeOfCipherText
        m_errorStatus := errorTypeEncrypt_t.ENCRYPT_INIT_SUCCESS }, i.2)
  else
    i

/-- Method `encryptMgr::encryptUsingSymmetricCiphers()`; `ans` holds the
answers of the provider steps. The result is the returned status, the object
and the provider operations invoked. -/
def encryptMgr.encryptUsingSymmetricCiphers (m : encryptMgr) (ans : CipherAnswers) :
    errorTypeEncrypt_t × encryptMgr × List PsaCall :=
  if errorTypeEncrypt_t.ENCRYPT_INIT_SUCCESS = m.m_errorStatus then
    let m1 := if PSA_SUCCESS ≠ ans.setup then
        { m with m_errorStatus := errorTypeEncrypt_t.ENCRYPT_CIPHER_SETUP_FAIL }
      else m
    let m2 := if PSA_SUCCESS ≠ ans.iv then
        { m1 with m_errorStatus := errorTypeEncrypt_t.ENCRYPT_IV_GENERATE_FAIL }
      else m1
    let m3 := if PSA_SUCCESS ≠ ans.update then
        { m2 with m_errorStatus := errorTypeEncrypt_t.ENCRYPT_CIPHER_UPDATE_FAIL }
      else m2
    let m4 := if PSA_SUCCESS = ans.finish then
        { m3 with m_errorStatus := errorTypeEncrypt_t.ENCRYPT_SUCCESS }
      else
        { m3 with m_errorStatus := errorTypeEncrypt_t.ENCRYPT_CIPHER_NOT_FINISHED }
    (m4.m_errorStatus, m4,
      [PsaCall.psa_cipher_encrypt_setup, PsaCall.psa_cipher_generate_iv,
        PsaCall.psa_cipher_update, PsaCall.psa_cipher_finish])
  else
    (errorTypeEncrypt_t.ENCRYPT_INIT_FAIL,
      { m with m_errorStatus := errorTypeEncrypt_t.ENCRYPT_INIT_FAIL }, [])

/-- Method `encryptMgr::sizeofEncryption()`, which returns the `uint16_t`
member as `uint8_t`. -/
def encryptMgr.sizeofEncryption (m : encryptMgr) : Nat :=
  m.m_sizeOfCipherText % 2 ^ 8

/-- Destructor `encryptMgr::~encryptMgr()`. -/
def encryptMgr.dtor (m : encryptMgr) : encryptMgr × List PsaCall :=
  ({ m with m_handle := 0, m_cipherText := none },
    [PsaCall.psa_cipher_abort, PsaCall.psa_destroy_key m.m_handle,
      PsaCall.mbedtls_psa_crypto_free])

/-- Some content of the storage of an `encryptMgr` before construction. -/
def encryptMgr.raw0 : encryptMgr :=
  { m_cipherText := none
    m_sizeOfPlainText := 0xCDCD
    m_sizeOfCipherText := 0xCDCD
    m_blockSize := 0xCD
    m_algoType := typeOfEncryptAlgo_t.ENCRYPT_CBC_NO_PADDING
    m_errorStatus := errorTypeEncrypt_t.ENCRYPT_INIT_FAIL
    m_algSupportedByPSA := psa_algorithm_t.PSA_ALG_CBC_NO_PADDING
    m_handle := 0xCDCD }

/-- A provider error status (`PSA_ERROR_BAD_STATE`). -/
def PSA_ERROR_BAD_STATE : psa_status_t := -137

/-! ## decryptServicesCfg.h / decryptMgr.h / decryptMgr.cpp -/

/-- Enumeration `typeOfDecryptAlgo_t` of `decryptServicesCfg.h`. -/
inductive typeOfDecryptAlgo_t
  | DECRYPT_CBC_NO_PADDING
  | DECRYPT_CBC_WITH_PADDING
  deriving DecidableEq, Repr

/-- Enumeration `errorTypeDecrypt_t` of `decryptServicesCfg.h`. -/
inductive errorTypeDecrypt_t
  | DECRYPT_INIT_FAIL
  | DECRYPT_PADDING_FAIL
  | DECRYPT_HANDLE_FAIL
  | DECRYPT_INVALID_BLOCK_SIZE
  | DECRYPT_INVALID_ALGO
  | DECRYPT_CIPHER_SETUP_FAIL
  | DECRYPT_IV_GENERATE_FAIL
  | DECRYPT_CIPHER_UPDATE_FAIL
  | DECRYPT_CIPHER_NOT_FINISHED
  | DECRYPT_VALID_BLOCK_SIZE
  | DECRYPT_VALID_ALGO
  | DECRYPT_HANDLE_SUCCESS
  | DECRYPT_PADDING_SUCCESS
  | DECRYPT_INIT_SUCCESS
  | DECRYPT_SUCCESS
  deriving DecidableEq, Repr

/-- Data members of class `decryptMgr` that the methods below read or write.
`m_DecryptedText` is the size of the array allocated for the decrypted text,
if one was allocated. -/
structure decryptMgr where
  m_sizeOfDecryptedText : Nat
  m_sizeOfEncryptedData : Nat
  m_blockSize : Nat
  m_DecryptedText : Option Nat
  m_algoType : typeOfDecryptAlgo_t
  m_errorStatus : errorTypeDecrypt_t
  m_algSupportedByPSA : psa_algorithm_t
  m_handle : Nat
  deriving DecidableEq, Repr

/-- Method `decryptMgr::setDecryptionAlgo()`. The `default` label is
unreachable: `m_algoType` only takes the two enumerators. -/
def decryptMgr.setDecryptionAlgo (m : decryptMgr) : errorTypeDecrypt_t × decryptMgr :=
  match m.m_algoType with
  | typeOfDecryptAlgo_t.DECRYPT_CBC_NO_PADDING =>
    (errorTypeDecrypt_t.DECRYPT_VALID_ALGO,
      { m with m_algSupportedByPSA := psa_algorithm_t.PSA_ALG_CBC_NO_PADDING })
  | typeOfDecryptAlgo_t.DECRYPT_CBC_WITH_PADDING =>
    (errorTypeDecrypt_t.DECRYPT_VALID_ALGO,
      { m with m_algSupportedByPSA := psa_algorithm_t.PSA_ALG_CBC_PKCS7 })

/-- Method `decryptMgr::calculateBlockSize()`. -/
def decryptMgr.calculateBlockSize (m : decryptMgr) : errorTypeDecrypt_t × decryptMgr :=
  let m1 := { m with m_blockSize := PSA_BLOCK_CIPHER_BLOCK_SIZE_AES % 2 ^ 8 }
  if m1.m_blockSize ≠ AES_BLOCK_SIZE_SUPPORTED_BY_HW then
    (errorTypeDecrypt_t.DECRYPT_INVALID_BLOCK_SIZE, m1)
  else
    (errorTypeDecrypt_t.DECRYPT_VALID_BLOCK_SIZE, m1)

/-- Method `decryptMgr::calculateSizeOfDecryptedText()`. The final `else` is
unreachable: `m_algoType` only takes the two enumerators. -/
def decryptMgr.calculateSizeOfDecryptedText (m : decryptMgr) : errorTypeDecrypt_t × decryptMgr :=
  match m.m_algoType with
  | typeOfDecryptAlgo_t.DECRYPT_CBC_NO_PADDING =>
    if m.m_sizeOfEncryptedData % AES_BLOCK_SIZE_SUPPORTED_BY_HW = 0 then
      (errorTypeDecrypt_t.DECRYPT_PADDING_SUCCESS,
        { m with m_sizeOfDecryptedText := m.m_sizeOfEncryptedData })
    else
      (errorTypeDecrypt_t.DECRYPT_PADDING_SUCCESS, m)
  | typeOfDecryptAlgo_t.DECRYPT_CBC_WITH_PADDING =>
    (errorTypeDecrypt_t.DECRYPT_PADDING_SUCCESS,
      { m with m_sizeOfDecryptedText := m.m_sizeOfEncryptedData })

/-- Method `decryptMgr::createKeyHandleForDecryption(decryptionKey)`; `imp` is
the answer of `psa_import_key`. -/
def decryptMgr.createKeyHandleForDecryption (m : decryptMgr) (imp : ImportAnswer) :
    errorTypeDecrypt_t × decryptMgr × List PsaCall :=
  if imp.status ≠ PSA_SUCCESS then
    (errorTypeDecrypt_t.DECRYPT_HANDLE_FAIL, { m with m_handle := imp.handle },
      [PsaCall.psa_import_key imp.handle])
  else
    (errorTypeDecrypt_t.DECRYPT_HANDLE_SUCCESS, { m with m_handle := imp.handle },
      [PsaCall.psa_import_key imp.handle])

/-- Method `decryptMgr::decryptionDhKeyHandle(dhKey)`. -/
def decryptMgr.decryptionDhKeyHandle (m : decryptMgr) (imp : ImportAnswer) :
    Bool × decryptMgr × List PsaCall :=
  if errorTypeDecrypt_t.DECRYPT_HANDLE_SUCCESS = (m.createKeyHandleForDecryption imp).1 then
    (true, (m.createKeyHandleForDecryption imp).2)
  else
    (false, (m.createKeyHandleForDecryption imp).2)

/-- Method `decryptMgr::initializeDecryptionServices()`; `imp` is the answer of
`psa_import_key` for the default key, if it is asked. -/
def decryptMgr.initializeDecryptionServices (m : decryptMgr) (imp : ImportAnswer) :
    decryptMgr × List PsaCall :=
  let b := m.calculateBlockSize
  let m1 := { b.2 with m_errorStatus := b.1 }
  if errorTypeDecrypt_t.DECRYPT_VALID_BLOCK_SIZE = m1.m_errorStatus then
    let a := m1.setDecryptionAlgo
    let m2 := { a.2 with m_errorStatus := a.1 }
    if errorTypeDecrypt_t.DECRYPT_VALID_ALGO = m2.m_errorStatus then
      let s := m2.calculateSizeOfDecryptedText
      let m3 := { s.2 with m_errorStatus := s.1 }
      if errorTypeDecrypt_t.DECRYPT_PADDING_SUCCESS = m3.m_errorStatus then
        let k := m3.createKeyHandleForDecryption imp
        ({ k.2.1 with m_errorStatus := k.1 }, k.2.2)
      else
        (m3, [])
    else
      (m2, [])
  else
    (m1, [])

/-- Constructor `decryptMgr::decryptMgr(m_cipherencryptedData, m_Iv,
sizeOfEncryptedData, algoType)`; `raw` is the content of the object's storage
before construction. -/
def decryptMgr.ctor (raw : decryptMgr) (sizeOfEncryptedData : Nat)
    (algoType : typeOfDecryptAlgo_t) (imp : ImportAnswer) : decryptMgr × List PsaCall :=
  let m0 := { raw with m_algoType := algoType, m_sizeOfEncryptedData := sizeOfEncryptedData }
  let i := m0.initializeDecryptionServices imp
  if errorTypeDecrypt_t.DECRYPT_HANDLE_SUCCESS = i.1.m_errorStatus then
    ({ i.1 with
        m_DecryptedText := some i.1.m_sizeOfDecryptedText
        m_errorStatus := errorTypeDecrypt_t.DECRYPT_INIT_SUCCESS }, i.2)
  else
    i

/-- Method `decryptMgr::DecryptUsingSymmetricCiphers()`; `ans` holds the
answers of the provider steps. The result is the returned status, the object
and the provider operations invoked. -/
def decryptMgr.DecryptUsingSymmetricCiphers (m : decryptMgr) (ans : CipherAnswers) :
    errorTypeDecrypt_t × decryptMgr × List PsaCall :=
  if errorTypeDecrypt_t.DECRYPT_INIT_SUCCESS = m.m_errorStatus then
    let m1 := if ans.setup ≠ PSA_SUCCESS then
        { m with m_errorStatus := errorTypeDecrypt_t.DECRYPT_CIPHER_SETUP_FAIL }
      else m
    let m2 := if ans.iv ≠ PSA_SUCCESS then
        { m1 with m_errorStatus := errorTypeDecrypt_t.DECRYPT_IV_GENERATE_FAIL }
      else m1
    let m3 := if ans.update ≠ PSA_SUCCESS then
        { m2 with m_errorStatus := errorTypeDecrypt_t.DECRYPT_CIPHER_UPDATE_FAIL }
      else m2
    let m4 := if ans.finish ≠ PSA_SUCCESS then
        { m3 with m_errorStatus := errorTypeDecrypt_t.DECRYPT_CIPHER_NOT_FINISHED }
      else
        { m3 with m_errorStatus := errorTypeDecrypt_t.DECRYPT_SUCCESS }
    (m4.m_errorStatus, m4,
      [PsaCall.psa_cipher_decrypt_setup, PsaCall.psa_cipher_set_iv,
        PsaCall.psa_cipher_update, PsaCall.psa_cipher_finish])
  else
    (errorTypeDecrypt_t.DECRYPT_INIT_FAIL,
      { m with m_errorStatus := errorTypeDecrypt_t.DECRYPT_INIT_FAIL }, [])

/-- Destructor `decryptMgr::~decryptMgr()`. -/
def decryptMgr.dtor (m : decryptMgr) : decryptMgr × List PsaCall :=
  ({ m with m_handle := 0, m_DecryptedText := none },
    [PsaCall.psa_cipher_abort, PsaCall.psa_destroy_key m.m_handle,
      PsaCall.mbedtls_psa_crypto_free])

/-- Some content of the storage of a `decryptMgr` before construction. -/
def decryptMgr.raw0 : decryptMgr :=
  { m_sizeOfDecryptedText := 0xCDCDCDCD
    m_sizeOfEncryptedData := 0xCDCD
    m_blockSize := 0xCD
    m_DecryptedText := none
    m_algoType := typeOfDecryptAlgo_t.DECRYPT_CBC_NO_PADDING
    m_errorStatus := errorTypeDecrypt_t.DECRYPT_INIT_FAIL
    m_algSupportedByPSA := psa_algorithm_t.PSA_ALG_CBC_NO_PADDING
    m_handle := 0xCDCD }

/-- The answer of `psa_import_key` when it succeeds and leaves key handle 1. -/
def importOk : ImportAnswer :=
  { status := PSA_SUCCESS, handle := 1 }

/-! ## Handshake state machines: what a pass of the loop calls

`car_application` and `remote_application` are embedded one pass of their
`while(true)` loop at a time. A pass is a function of the local variables that
steer it and of the answers of the functions it calls; it returns the local
variables after the pass and the calls it made, in order, with the arguments
that name a buffer or a length. What the called functions do with the bytes is
the subject of the codec and manager sections. -/

/-- Enumeration `errorTypeKeyExchange_T` of `dhKeyExchangeServiceCfg.h`. -/
inductive errorTypeKeyExchange_T
  | KEYEXCHANGE_INIT_FAIL
  | KEYEXCHANGE_INIT_SUCCESS
  | KEYEXCHANGE_EC_NOT_FOUND
  | KEYEXCHANGE_PUBLIC_KEY_GEN_FAIL
  | KEYEXCHANGE_WRITE_FAIL
  | KEYEXCHANGE_DH_KEYGEN_FAIL
  | KEYEXCHANGE_ERROR_SECRET_GEN
  | KEYEXCHANGE_READ_FAIL
  | KEYEXCHANGE_COMPUTE_SECRET_GEN
  | KEYEXCHANGE_SUCCESS
  deriving DecidableEq, Repr

/-- The answers of the functions called in one pass of a handshake loop. A
pass calls each of them at most once.
* `rxData`: the flag returned by `car_rxData` / `remote_rxDataByte`;
* `rxLengthByte`: the content of the one-byte length variable after a call
  that receives into it;
* `sendDataByte`: the flag returned by `car_SendDataByte` /
  `remote_sendDataByte`;
* `checkAckRxd`: the flag returned by `car_CheckAckRxd` / `remote_checkAckRxd`;
* `verifySignature`: the flag returned by `signVerifyMgr::verifySignature`;
* `computeSharedSecretDhKey`: the status returned by
  `dhKeyExchangeMgr::computeSharedSecretDhKey`;
* `DecryptUsingSymmetricCiphers`: the status returned by
  `decryptMgr::DecryptUsingSymmetricCiphers` inside
  `decryptMgrTest_TestCase_EncryptedData`;
* `encryptionDhKeyHandle`, `encryptUsingSymmetricCiphers`, `sizeofEncryption`:
  what these methods of `encryptObj` return. -/
structure CallAnswers where
  rxData : Bool
  rxLengthByte : Byte
  sendDataByte : Bool
  checkAckRxd : Bool
  verifySignature : Bool
  computeSharedSecretDhKey : errorTypeKeyExchange_T
  DecryptUsingSymmetricCiphers : errorTypeDecrypt_t
  encryptionDhKeyHandle : Bool
  encryptUsingSymmetricCiphers : errorTypeEncrypt_t
  sizeofEncryption : Nat
  deriving DecidableEq, Repr

/-! ### appCarStateMachine.cpp: car_application -/

/-- Enumeration `carStates_t`. -/
inductive carStates_t
  | CAR_RX_SIGNATURE
  | CAR_RX_PUBLICKEY
  | CAR_VERIFY_AUTHENTICITY
  | CAR_SEND_SIGNED_CREDENTIAL
  | CAR_CHECK_SIGN_RXD_ACK
  | CAR_SEND_PUB_KEY
  | CAR_PUB_KEY_RXD_ACK
  | CAR_CRED_VERIFIED_BY_REMOTE
  | CAR_RX_REMOTE_DH_KEY
  | CAR_DH_KEY_SEND
  | CAR_RX_DH_KEY_ACK
  | CAR_RX_IV
  | CAR_RX_LEN
  | CAR_RX_ENCDATA
  | CAR_TEST
  | CAR_ENCRYPT_MESSAGE
  | CAR_SEND_ENCRYPT_IV
  | CAR_RX_IV_ACK
  | CAR_SEND_ENCRYPT_LEN
  | CAR_RX_ENCRYPT_LEN_ACK
  | CAR_SEND_CIPHER_TEXT
  | CAR_RX_ACK_CIPHER_TEXT
  | CAR_DEFAULT
  deriving DecidableEq, Repr

/-- Macro `CAR_PROT_ID_LENGTH`. -/
def CAR_PROT_ID_LENGTH : Nat := 3

/-- Macro `CAR_SIGNATURE_LENGTH`. -/
def CAR_SIGNATURE_LENGTH : Nat := 64

/-- Macro `CAR_PUB_KEY_LENGTH`. -/
def CAR_PUB_KEY_LENGTH : Nat := 65

/-- Macro `CAR_SIGNATURE_PUB_KEY_BUF_LEN`. -/
def CAR_SIGNATURE_PUB_KEY_BUF_LEN : Nat := CAR_PUB_KEY_LENGTH + CAR_PROT_ID_LENGTH

/-- Macro `CAR_SIGNATURE_BUFFER_LENGTH`. -/
def CAR_SIGNATURE_BUFFER_LENGTH : Nat := CAR_SIGNATURE_LENGTH + CAR_PROT_ID_LENGTH

/-- Macro `CAR_DH_PUB_KEY_SIZE`. -/
def CAR_DH_PUB_KEY_SIZE : Nat := 32

/-- Macro `CAR_DH_PUB_KEY_BUF_LEN`. -/
def CAR_DH_PUB_KEY_BUF_LEN : Nat := CAR_DH_PUB_KEY_SIZE + CAR_PROT_ID_LENGTH

/-- Macro `CAR_IV_BUFFER_LEN`. -/
def CAR_IV_BUFFER_LEN : Nat := AES_BLOCK_SIZE_SUPPORTED_BY_HW + CAR_PROT_ID_LENGTH

/-- Macro `CAR_CIPHER_TEXT_BUFFER_LEN`. -/
def CAR_CIPHER_TEXT_BUFFER_LEN : Nat := 1 + CAR_PROT_ID_LENGTH

/-- Modelled from the spec: the member `signature_length` of a newly declared
`uartData` (the type is declared in the missing header `encryptServicesCfg.h`);
the identity signature has 64 bytes. -/
def uartData_signature_length : Nat := 64

/-- Modelled from the spec: the member `publiKey_length` of a newly declared
`uartData` (missing header `encryptServicesCfg.h`); the identity public key has
65 bytes. -/
def uartData_publiKey_length : Nat := 65

/-- The buffers of `car_application` handed to the codec. -/
inductive CarBuffer
  | carVerifyRemoteSign_signature
  | carVerifyRemoteSign_publicKey
  | dhBufRemotetoCar
  | car_IV
  | lengthbuffer
  | decryptBuffer
  | signatureBuffer
  | signPubKeyBuffer
  | carDhPubKeyBuffer
  | remoteIvTxBuf
  | lenCipherTextBuf
  | cipherTextBuffer
  deriving DecidableEq, Repr

/-- The calls made by `car_application`. -/
inductive CarCall
  | car_generateSignAndPubKey
  | car_GenerateDhPubKey
  | encryptMgr_ctor
  | car_rxData (myData : CarBuffer) (dataLength : Nat)
  | car_SendAck
  | car_SendDataByte (buffer : CarBuffer) (length : Nat)
  | car_CheckAckRxd
  | verifySignature
  | car_computeSharedSecretKey
  | decryptMgrTest_TestCase_EncryptedData (SizeofEncryptedText : Nat)
  | psa_crypto_init
  | encryptionDhKeyHandle
  | encryptUsingSymmetricCiphers
  | car_createtxPacket (outputBuffer : CarBuffer) (length : Nat)
  deriving DecidableEq, Repr

/-- The local variables of `car_application` that steer the loop. -/
structure CarApp where
  state : carStates_t
  lengthbuffer : Byte
  cipherTextlen : Nat
  cipherTextBuflen : Nat
  deriving DecidableEq, Repr

/-- The calls `car_application` makes before it enters the loop. -/
def car_application_start : List CarCall :=
  [CarCall.car_generateSignAndPubKey, CarCall.car_GenerateDhPubKey, CarCall.encryptMgr_ctor]

/-- The local variables of `car_application` when it enters the loop;
`lengthbuffer` is not initialised by the source. -/
def CarApp.init (lengthbuffer : Byte) : CarApp :=
  { state := carStates_t.CAR_RX_SIGNATURE
    lengthbuffer := lengthbuffer
    cipherTextlen := 0
    cipherTextBuflen := 0 }

/-- One pass of the `while(true)` loop of `car_application`: the `switch(state)`
statement. -/
def car_application_pass (v : CarApp) (a : CallAnswers) : CarApp × List CarCall :=
  match v.state with
  | carStates_t.CAR_RX_SIGNATURE =>
    if a.rxData then
      ({ v with state := carStates_t.CAR_RX_PUBLICKEY },
        [CarCall.car_rxData CarBuffer.carVerifyRemoteSign_signature uartData_signature_length,
          CarCall.car_SendAck])
    else
      (v, [CarCall.car_rxData CarBuffer.carVerifyRemoteSign_signature uartData_signature_length])
  | carStates_t.CAR_RX_PUBLICKEY =>
    if a.rxData then
      ({ v with state := carStates_t.CAR_VERIFY_AUTHENTICITY },
        [CarCall.car_rxData CarBuffer.carVerifyRemoteSign_publicKey uartData_publiKey_length,
          CarCall.car_SendAck])
    else
      (v, [CarCall.car_rxData CarBuffer.carVerifyRemoteSign_publicKey uartData_publiKey_length])
  | carStates_t.CAR_VERIFY_AUTHENTICITY =>
    if a.verifySignature then
      ({ v with state := carStates_t.CAR_SEND_SIGNED_CREDENTIAL },
        [CarCall.verifySignature, CarCall.car_SendAck])
    else
      (v, [CarCall.verifySignature])
  | carStates_t.CAR_SEND_SIGNED_CREDENTIAL =>
    if a.sendDataByte then
      ({ v with state := carStates_t.CAR_CHECK_SIGN_RXD_ACK },
        [CarCall.car_SendDataByte CarBuffer.signatureBuffer CAR_SIGNATURE_BUFFER_LENGTH])
    else
      (v, [CarCall.car_SendDataByte CarBuffer.signatureBuffer CAR_SIGNATURE_BUFFER_LENGTH])
  | carStates_t.CAR_CHECK_SIGN_RXD_ACK =>
    if a.checkAckRxd then
      ({ v with state := carStates_t.CAR_SEND_PUB_KEY }, [CarCall.car_CheckAckRxd])
    else
      (v, [CarCall.car_CheckAckRxd])
  | carStates_t.CAR_SEND_PUB_KEY =>
    if a.sendDataByte then
      ({ v with state := carStates_t.CAR_PUB_KEY_RXD_ACK },
        [CarCall.car_SendDataByte CarBuffer.signPubKeyBuffer CAR_SIGNATURE_PUB_KEY_BUF_LEN])
    else
      (v, [CarCall.car_SendDataByte CarBuffer.signPubKeyBuffer CAR_SIGNATURE_PUB_KEY_BUF_LEN])
  | carStates_t.CAR_PUB_KEY_RXD_ACK =>
    if a.checkAckRxd then
      ({ v with state := carStates_t.CAR_CRED_VERIFIED_BY_REMOTE }, [CarCall.car_CheckAckRxd])
    else
      (v, [CarCall.car_CheckAckRxd])
  | carStates_t.CAR_CRED_VERIFIED_BY_REMOTE =>
    if a.checkAckRxd then
      ({ v with state := carStates_t.CAR_RX_REMOTE_DH_KEY }, [CarCall.car_CheckAckRxd])
    else
      (v, [CarCall.car_CheckAckRxd])
  | carStates_t.CAR_RX_REMOTE_DH_KEY =>
    if a.rxData then
      ({ v with state := carStates_t.CAR_DH_KEY_SEND },
        [CarCall.car_rxData CarBuffer.dhBufRemotetoCar 32, CarCall.car_SendAck,
          CarCall.car_computeSharedSecretKey])
    else
      (v, [CarCall.car_rxData CarBuffer.dhBufRemotetoCar 32])
  | carStates_t.CAR_DH_KEY_SEND =>
    if a.sendDataByte then
      ({ v with state := carStates_t.CAR_RX_DH_KEY_ACK },
        [CarCall.car_SendDataByte CarBuffer.carDhPubKeyBuffer CAR_DH_PUB_KEY_BUF_LEN])
    else
      (v, [CarCall.car_SendDataByte CarBuffer.carDhPubKeyBuffer CAR_DH_PUB_KEY_BUF_LEN])
  | carStates_t.CAR_RX_DH_KEY_ACK =>
    if a.checkAckRxd then
      ({ v with state := carStates_t.CAR_RX_IV }, [CarCall.car_CheckAckRxd])
    else
      (v, [CarCall.car_CheckAckRxd])
  | carStates_t.CAR_RX_IV =>
    if a.rxData then
      ({ v with state := carStates_t.CAR_RX_LEN },
        [CarCall.car_rxData CarBuffer.car_IV 16, CarCall.car_SendAck])
    else
      (v, [CarCall.car_rxData CarBuffer.car_IV 16])
  | carStates_t.CAR_RX_LEN =>
    if a.rxData then
      ({ v with lengthbuffer := a.rxLengthByte, state := carStates_t.CAR_RX_ENCDATA },
        [CarCall.car_rxData CarBuffer.lengthbuffer 1, CarCall.car_SendAck])
    else
      ({ v with lengthbuffer := a.rxLengthByte }, [CarCall.car_rxData CarBuffer.lengthbuffer 1])
  | carStates_t.CAR_RX_ENCDATA =>
    if a.rxData then
      ({ v with state := carStates_t.CAR_TEST },
        [CarCall.car_rxData CarBuffer.decryptBuffer v.lengthbuffer.val, CarCall.car_SendAck])
    else
      (v, [CarCall.car_rxData CarBuffer.decryptBuffer v.lengthbuffer.val])
  | carStates_t.CAR_TEST =>
    ({ v with state := carStates_t.CAR_ENCRYPT_MESSAGE },
      [CarCall.decryptMgrTest_TestCase_EncryptedData v.lengthbuffer.val, CarCall.car_SendAck])
  | carStates_t.CAR_ENCRYPT_MESSAGE =>
    if a.encryptionDhKeyHandle then
      if errorTypeEncrypt_t.ENCRYPT_SUCCESS = a.encryptUsingSymmetricCiphers then
        ({ v with
            cipherTextlen := a.sizeofEncryption % 2 ^ 8
            cipherTextBuflen := (a.sizeofEncryption % 2 ^ 8 + CAR_PROT_ID_LENGTH) % 2 ^ 8
            state := carStates_t.CAR_SEND_ENCRYPT_IV },
          [CarCall.psa_crypto_init, CarCall.encryptionDhKeyHandle,
            CarCall.encryptUsingSymmetricCiphers,
            CarCall.car_createtxPacket CarBuffer.cipherTextBuffer a.sizeofEncryption,
            CarCall.car_createtxPacket CarBuffer.remoteIvTxBuf AES_BLOCK_SIZE_SUPPORTED_BY_HW,
            CarCall.car_createtxPacket CarBuffer.lenCipherTextBuf 1])
      else
        (v, [CarCall.psa_crypto_init, CarCall.encryptionDhKeyHandle,
          CarCall.encryptUsingSymmetricCiphers])
    else
      (v, [CarCall.psa_crypto_init, CarCall.encryptionDhKeyHandle])
  | carStates_t.CAR_SEND_ENCRYPT_IV =>
    if a.sendDataByte then
      ({ v with state := carStates_t.CAR_RX_IV_ACK },
        [CarCall.car_SendDataByte CarBuffer.remoteIvTxBuf CAR_IV_BUFFER_LEN])
    else
      (v, [CarCall.car_SendDataByte CarBuffer.remoteIvTxBuf CAR_IV_BUFFER_LEN])
  | carStates_t.CAR_RX_IV_ACK =>
    if a.checkAckRxd then
      ({ v with state := carStates_t.CAR_SEND_ENCRYPT_LEN }, [CarCall.car_CheckAckRxd])
    else
      (v, [CarCall.car_CheckAckRxd])
  | carStates_t.CAR_SEND_ENCRYPT_LEN =>
    if a.sendDataByte then
      ({ v with state := carStates_t.CAR_RX_ENCRYPT_LEN_ACK },
        [CarCall.car_SendDataByte CarBuffer.lenCipherTextBuf CAR_CIPHER_TEXT_BUFFER_LEN])
    else
      (v, [CarCall.car_SendDataByte CarBuffer.lenCipherTextBuf CAR_CIPHER_TEXT_BUFFER_LEN])
  | carStates_t.CAR_RX_ENCRYPT_LEN_ACK =>
    if a.checkAckRxd then
      ({ v with state := carStates_t.CAR_SEND_CIPHER_TEXT }, [CarCall.car_CheckAckRxd])
    else
      (v, [CarCall.car_CheckAckRxd])
  | carStates_t.CAR_SEND_CIPHER_TEXT =>
    if a.sendDataByte then
      ({ v with state := carStates_t.CAR_RX_ACK_CIPHER_TEXT },
        [CarCall.car_SendDataByte CarBuffer.cipherTextBuffer v.cipherTextBuflen])
    else
      (v, [CarCall.car_SendDataByte CarBuffer.cipherTextBuffer v.cipherTextBuflen])
  | carStates_t.CAR_RX_ACK_CIPHER_TEXT =>
    if a.checkAckRxd then
      ({ v with state := carStates_t.CAR_DEFAULT }, [CarCall.car_CheckAckRxd])
    else
      (v, [CarCall.car_CheckAckRxd])
  | carStates_t.CAR_DEFAULT => (v, [])

/-- Successive passes of the loop of `car_application`, one per element of the
list of answers. The log pairs every call with the state in which it was
made. -/
def car_application_run (v : CarApp) : List CallAnswers → CarApp × List (carStates_t × CarCall)
  | [] => (v, [])
  | a :: as =>
    ((car_application_run (car_application_pass v a).1 as).1,
      (car_application_pass v a).2.map (fun c => (v.state, c)) ++
        (car_application_run (car_application_pass v a).1 as).2)

/-- The position of a state of the car in the order of the handshake; it is
the position of the enumerator in `carStates_t`. -/
def carPhase : carStates_t → Nat
  | carStates_t.CAR_RX_SIGNATURE => 0
  | carStates_t.CAR_RX_PUBLICKEY => 1
  | carStates_t.CAR_VERIFY_AUTHENTICITY => 2
  | carStates_t.CAR_SEND_SIGNED_CREDENTIAL => 3
  | carStates_t.CAR_CHECK_SIGN_RXD_ACK => 4
  | carStates_t.CAR_SEND_PUB_KEY => 5
  | carStates_t.CAR_PUB_KEY_RXD_ACK => 6
  | carStates_t.CAR_CRED_VERIFIED_BY_REMOTE => 7
  | carStates_t.CAR_RX_REMOTE_DH_KEY => 8
  | carStates_t.CAR_DH_KEY_SEND => 9
  | carStates_t.CAR_RX_DH_KEY_ACK => 10
  | carStates_t.CAR_RX_IV => 11
  | carStates_t.CAR_RX_LEN => 12
  | carStates_t.CAR_RX_ENCDATA => 13
  | carStates_t.CAR_TEST => 14
  | carStates_t.CAR_ENCRYPT_MESSAGE => 15
  | carStates_t.CAR_SEND_ENCRYPT_IV => 16
  | carStates_t.CAR_RX_IV_ACK => 17
  | carStates_t.CAR_SEND_ENCRYPT_LEN => 18
  | carStates_t.CAR_RX_ENCRYPT_LEN_ACK => 19
  | carStates_t.CAR_SEND_CIPHER_TEXT => 20
  | carStates_t.CAR_RX_ACK_CIPHER_TEXT => 21
  | carStates_t.CAR_DEFAULT => 22

/-! ### appRemoteStateMachine.cpp: remote_application -/

/-- Enumeration `remoteStates_t`. -/
inductive remoteStates_t
  | REMOTE_STATE_SEND_SIGNED_CREDENTIAL
  | REMOTE_CHECK_SIGN_RXD_ACK
  | REMOTE_SEND_PUB_KEY
  | REMOTE_PUB_KEY_RXD_ACK
  | REMOTE_CRED_VERIFIED_BY_CAR
  | REMOTE_RX_CAR_CRED
  | REMOTE_RX_CAR_PUB_KEY
  | REMOTE_VERIFY_CAR_AUTHENTICITY
  | REMOTE_DH_KEY_SEND
  | REMOTE_RX_DH_KEY_ACK
  | REMOTE_RX_CAR_DH_KEY
  | REMOTE_ENCRYPT_MESSAGE
  | REMOTE_ENCRYPT_FAIL
  | REMOTE_SEND_ENCRYPT_IV
  | REMOTE_RX_IV_ACK
  | REMOTE_SEND_ENCRYPT_LEN
  | REMOTE_RX_ENCRYPT_LEN_ACK
  | REMOTE_SEND_CIPHER_TEXT
  | REMOTE_RX_ACK_CIPHER_TEXT
  | REMOTE_RX_CAR_IV
  | REMOTE_RX_CAR_CIPHER_LEN
  | REMOTE_RX_CAR_CIPHER_DATA
  | REMOTE_DECRYPT_CAR_CIPHER_TEXT
  | REMOTE_CHECK_CAR_DECRYPTED_CIPHER
  | REMOTE_DEFAULT
  deriving DecidableEq, Repr

/-- Modelled from the spec: macro `PROT_ID_LENGTH` of the missing header
`appRemoteStateMachine.h`; a frame adds the start marker and two end markers
to its payload. -/
def PROT_ID_LENGTH : Nat := 3

/-- Modelled from the spec: macro `SIGNATURE_BUFFER_LENGTH` of the missing
header; the frame of the 64-byte identity signature. -/
def SIGNATURE_BUFFER_LENGTH : Nat := 64 + PROT_ID_LENGTH

/-- Modelled from the spec: macro `SIGNATURE_PUB_KEY_BUF_LEN` of the missing
header; the frame of the 65-byte identity public key. -/
def SIGNATURE_PUB_KEY_BUF_LEN : Nat := 65 + PROT_ID_LENGTH

/-- Modelled from the spec: macro `REMOTE_DH_PUB_KEY_SIZE` of the missing
header; the key-exchange public key has 32 bytes. -/
def REMOTE_DH_PUB_KEY_SIZE : Nat := 32

/-- Modelled from the spec: macro `REMOTE_DH_PUB_KEY_BUF_LEN` of the missing
header; the frame of the key-exchange public key. -/
def REMOTE_DH_PUB_KEY_BUF_LEN : Nat := REMOTE_DH_PUB_KEY_SIZE + PROT_ID_LENGTH

/-- Modelled from the spec: macro `REMOTE_IV_BUFFER_LEN` of the missing header;
the frame of the 16-byte IV. -/
def REMOTE_IV_BUFFER_LEN : Nat := AES_BLOCK_SIZE_SUPPORTED_BY_HW + PROT_ID_LENGTH

/-- Modelled from the spec: macro `REMOTE_CIPHER_TEXT_BUFFER_LEN` of the
missing header; the frame of the one-byte ciphertext length. -/
def REMOTE_CIPHER_TEXT_BUFFER_LEN : Nat := 1 + PROT_ID_LENGTH

/-- The buffers of `remote_application` handed to the codec. -/
inductive RemoteBuffer
  | remoteVerifyCarSign_signature
  | remoteVerifyCarSign_publicKey
  | signatureBuffer
  | signPubKeyBuffer
  | remoteDhPubKeyBuffer
  | remoteRxdDhPubKeyBuf
  | remoteIvTxBuf
  | lenCipherTextBuf
  | cipherTextBuffer
  | remoteRxdCarIvBuf
  | remoteRxdCarCipherLenBuf
  | remoteRxdCipherTextOfCar
  deriving DecidableEq, Repr

/-- The calls made by `remote_application`. -/
inductive RemoteCall
  | psa_crypto_init
  | encryptMgr_ctor
  | remote_generateSignAndPubKey
  | remote_generateDhPubKey
  | remote_sendDataByte (buffer : RemoteBuffer) (length : Nat)
  | remote_checkAckRxd
  | remote_rxDataByte (rxdData : RemoteBuffer) (dataLength : Nat)
  | remote_sendAck
  | verifySignature
  | remote_computeSharedSecretKey
  | encryptionDhKeyHandle
  | encryptUsingSymmetricCiphers
  | remote_createtxPacket (outputBuffer : RemoteBuffer) (length : Nat)
  | decryptMgrTest_TestCase_EncryptedData (SizeofEncryptedText : Nat)
  deriving DecidableEq, Repr

/-- The local variables of `remote_application` that steer the loop. -/
structure RemoteApp where
  state : remoteStates_t
  remoteRxdCarCipherLenBuf : Byte
  cipherTextlen : Nat
  cipherTextBuflen : Nat
  deriving DecidableEq, Repr

/-- The calls `remote_application` makes before it enters the loop. -/
def remote_application_start : List RemoteCall :=
  [RemoteCall.psa_crypto_init, RemoteCall.encryptMgr_ctor,
    RemoteCall.remote_generateSignAndPubKey, RemoteCall.remote_generateDhPubKey]

/-- The local variables of `remote_application` when it enters the loop;
`remoteRxdCarCipherLenBuf` is not initialised by the source. -/
def RemoteApp.init (remoteRxdCarCipherLenBuf : Byte) : RemoteApp :=
  { state := remoteStates_t.REMOTE_STATE_SEND_SIGNED_CREDENTIAL
    remoteRxdCarCipherLenBuf := remoteRxdCarCipherLenBuf
    cipherTextlen := 0
    cipherTextBuflen := 0 }

/-- Function `remote_computeSharedSecretKey`, as a function of the status
returned by `computeSharedSecretDhKey`. -/
def remote_computeSharedSecretKey (status : errorTypeKeyExchange_T) : Bool :=
  if errorTypeKeyExchange_T.KEYEXCHANGE_INIT_SUCCESS = status then true else false

/-- One pass of the `while(true)` loop of `remote_application`: the
`switch(state)` statement. -/
def remote_application_pass (v : RemoteApp) (a : CallAnswers) : RemoteApp × List RemoteCall :=
  match v.state with
  | remoteStates_t.REMOTE_STATE_SEND_SIGNED_CREDENTIAL =>
    if a.sendDataByte then
      ({ v with state := remoteStates_t.REMOTE_CHECK_SIGN_RXD_ACK },
        [RemoteCall.remote_sendDataByte RemoteBuffer.signatureBuffer SIGNATURE_BUFFER_LENGTH])
    else
      (v, [RemoteCall.remote_sendDataByte RemoteBuffer.signatureBuffer SIGNATURE_BUFFER_LENGTH])
  | remoteStates_t.REMOTE_CHECK_SIGN_RXD_ACK =>
    if a.checkAckRxd then
      ({ v with state := remoteStates_t.REMOTE_SEND_PUB_KEY }, [RemoteCall.remote_checkAckRxd])
    else
      (v, [RemoteCall.remote_checkAckRxd])
  | remoteStates_t.REMOTE_SEND_PUB_KEY =>
    if a.sendDataByte then
      ({ v with state := remoteStates_t.REMOTE_PUB_KEY_RXD_ACK },
        [RemoteCall.remote_sendDataByte RemoteBuffer.signPubKeyBuffer SIGNATURE_PUB_KEY_BUF_LEN])
    else
      (v, [RemoteCall.remote_sendDataByte RemoteBuffer.signPubKeyBuffer
        SIGNATURE_PUB_KEY_BUF_LEN])
  | remoteStates_t.REMOTE_PUB_KEY_RXD_ACK =>
    if a.checkAckRxd then
      ({ v with state := remoteStates_t.REMOTE_CRED_VERIFIED_BY_CAR },
        [RemoteCall.remote_checkAckRxd])
    else
      (v, [RemoteCall.remote_checkAckRxd])
  | remoteStates_t.REMOTE_CRED_VERIFIED_BY_CAR =>
    if a.checkAckRxd then
      ({ v with state := remoteStates_t.REMOTE_RX_CAR_CRED }, [RemoteCall.remote_checkAckRxd])
    else
      (v, [RemoteCall.remote_checkAckRxd])
  | remoteStates_t.REMOTE_RX_CAR_CRED =>
    if a.rxData then
      ({ v with state := remoteStates_t.REMOTE_RX_CAR_PUB_KEY },
        [RemoteCall.remote_rxDataByte RemoteBuffer.remoteVerifyCarSign_signature
            uartData_signature_length,
          RemoteCall.remote_sendAck])
    else
      (v, [RemoteCall.remote_rxDataByte RemoteBuffer.remoteVerifyCarSign_signature
        uartData_signature_length])
  | remoteStates_t.REMOTE_RX_CAR_PUB_KEY =>
    if a.rxData then
      ({ v with state := remoteStates_t.REMOTE_VERIFY_CAR_AUTHENTICITY },
        [RemoteCall.remote_rxDataByte RemoteBuffer.remoteVerifyCarSign_publicKey
            uartData_publiKey_length,
          RemoteCall.remote_sendAck])
    else
      (v, [RemoteCall.remote_rxDataByte RemoteBuffer.remoteVerifyCarSign_publicKey
        uartData_publiKey_length])
  | remoteStates_t.REMOTE_VERIFY_CAR_AUTHENTICITY =>
    if a.verifySignature then
      ({ v with state := remoteStates_t.REMOTE_DH_KEY_SEND },
        [RemoteCall.verifySignature, RemoteCall.remote_sendAck])
    else
      (v, [RemoteCall.verifySignature])
  | remoteStates_t.REMOTE_DH_KEY_SEND =>
    if a.sendDataByte then
      ({ v with state := remoteStates_t.REMOTE_RX_DH_KEY_ACK },
        [RemoteCall.remote_sendDataByte RemoteBuffer.remoteDhPubKeyBuffer
          REMOTE_DH_PUB_KEY_BUF_LEN])
    else
      (v, [RemoteCall.remote_sendDataByte RemoteBuffer.remoteDhPubKeyBuffer
        REMOTE_DH_PUB_KEY_BUF_LEN])
  | remoteStates_t.REMOTE_RX_DH_KEY_ACK =>
    if a.checkAckRxd then
      ({ v with state := remoteStates_t.REMOTE_RX_CAR_DH_KEY }, [RemoteCall.remote_checkAckRxd])
    else
      (v, [RemoteCall.remote_checkAckRxd])
  | remoteStates_t.REMOTE_RX_CAR_DH_KEY =>
    if a.rxData then
      ({ v with state := remoteStates_t.REMOTE_ENCRYPT_MESSAGE },
        [RemoteCall.remote_rxDataByte RemoteBuffer.remoteRxdDhPubKeyBuf REMOTE_DH_PUB_KEY_SIZE,
          RemoteCall.remote_sendAck])
    else
      (v, [RemoteCall.remote_rxDataByte RemoteBuffer.remoteRxdDhPubKeyBuf
        REMOTE_DH_PUB_KEY_SIZE])
  | remoteStates_t.REMOTE_ENCRYPT_MESSAGE =>
    if remote_computeSharedSecretKey a.computeSharedSecretDhKey then
      if a.encryptionDhKeyHandle then
        if errorTypeEncrypt_t.ENCRYPT_SUCCESS = a.encryptUsingSymmetricCiphers then
          ({ v with
              cipherTextlen := a.sizeofEncryption % 2 ^ 8
              cipherTextBuflen := (a.sizeofEncryption % 2 ^ 8 + PROT_ID_LENGTH) % 2 ^ 8
              state := remoteStates_t.REMOTE_SEND_ENCRYPT_IV },
            [RemoteCall.remote_computeSharedSecretKey, RemoteCall.encryptionDhKeyHandle,
              RemoteCall.encryptUsingSymmetricCiphers,
              RemoteCall.remote_createtxPacket RemoteBuffer.cipherTextBuffer a.sizeofEncryption,
              RemoteCall.remote_createtxPacket RemoteBuffer.remoteIvTxBuf
                AES_BLOCK_SIZE_SUPPORTED_BY_HW,
              RemoteCall.remote_createtxPacket RemoteBuffer.lenCipherTextBuf 1])
        else
          ({ v with state := remoteStates_t.REMOTE_ENCRYPT_FAIL },
            [RemoteCall.remote_computeSharedSecretKey, RemoteCall.encryptionDhKeyHandle,
              RemoteCall.encryptUsingSymmetricCiphers])
      else
        (v, [RemoteCall.remote_computeSharedSecretKey, RemoteCall.encryptionDhKeyHandle])
    else
      (v, [RemoteCall.remote_computeSharedSecretKey])
  | remoteStates_t.REMOTE_ENCRYPT_FAIL => (v, [])
  | remoteStates_t.REMOTE_SEND_ENCRYPT_IV =>
    if a.sendDataByte then
      ({ v with state := remoteStates_t.REMOTE_RX_IV_ACK },
        [RemoteCall.remote_sendDataByte RemoteBuffer.remoteIvTxBuf REMOTE_IV_BUFFER_LEN])
    else
      (v, [RemoteCall.remote_sendDataByte RemoteBuffer.remoteIvTxBuf REMOTE_IV_BUFFER_LEN])
  | remoteStates_t.REMOTE_RX_IV_ACK =>
    if a.checkAckRxd then
      ({ v with state := remoteStates_t.REMOTE_SEND_ENCRYPT_LEN },
        [RemoteCall.remote_checkAckRxd])
    else
      (v, [RemoteCall.remote_checkAckRxd])
  | remoteStates_t.REMOTE_SEND_ENCRYPT_LEN =>
    if a.sendDataByte then
      ({ v with state := remoteStates_t.REMOTE_RX_ENCRYPT_LEN_ACK },
        [RemoteCall.remote_sendDataByte RemoteBuffer.lenCipherTextBuf
          REMOTE_CIPHER_TEXT_BUFFER_LEN])
    else
      (v, [RemoteCall.remote_sendDataByte RemoteBuffer.lenCipherTextBuf
        REMOTE_CIPHER_TEXT_BUFFER_LEN])
  | remoteStates_t.REMOTE_RX_ENCRYPT_LEN_ACK =>
    if a.checkAckRxd then
      ({ v with state := remoteStates_t.REMOTE_SEND_CIPHER_TEXT },
        [RemoteCall.remote_checkAckRxd])
    else
      (v, [RemoteCall.remote_checkAckRxd])
  | remoteStates_t.REMOTE_SEND_CIPHER_TEXT =>
    if a.sendDataByte then
      ({ v with state := remoteStates_t.REMOTE_RX_ACK_CIPHER_TEXT },
        [RemoteCall.remote_sendDataByte RemoteBuffer.cipherTextBuffer v.cipherTextBuflen])
    else
      (v, [RemoteCall.remote_sendDataByte RemoteBuffer.cipherTextBuffer v.cipherTextBuflen])
  | remoteStates_t.REMOTE_RX_ACK_CIPHER_TEXT =>
    if a.checkAckRxd then
      ({ v with state := remoteStates_t.REMOTE_CHECK_CAR_DECRYPTED_CIPHER },
        [RemoteCall.remote_checkAckRxd])
    else
      (v, [RemoteCall.remote_checkAckRxd])
  | remoteStates_t.REMOTE_CHECK_CAR_DECRYPTED_CIPHER =>
    if a.checkAckRxd then
      ({ v with state := remoteStates_t.REMOTE_RX_CAR_IV }, [RemoteCall.remote_checkAckRxd])
    else
      (v, [RemoteCall.remote_checkAckRxd])
  | remoteStates_t.REMOTE_RX_CAR_IV =>
    if a.rxData then
      ({ v with state := remoteStates_t.REMOTE_RX_CAR_CIPHER_LEN },
        [RemoteCall.remote_rxDataByte RemoteBuffer.remoteRxdCarIvBuf 16,
          RemoteCall.remote_sendAck])
    else
      (v, [RemoteCall.remote_rxDataByte RemoteBuffer.remoteRxdCarIvBuf 16])
  | remoteStates_t.REMOTE_RX_CAR_CIPHER_LEN =>
    if a.rxData then
      ({ v with
          remoteRxdCarCipherLenBuf := a.rxLengthByte
          state := remoteStates_t.REMOTE_RX_CAR_CIPHER_DATA },
        [RemoteCall.remote_rxDataByte RemoteBuffer.remoteRxdCarCipherLenBuf 1,
          RemoteCall.remote_sendAck])
    else
      ({ v with remoteRxdCarCipherLenBuf := a.rxLengthByte },
        [RemoteCall.remote_rxDataByte RemoteBuffer.remoteRxdCarCipherLenBuf 1])
  | remoteStates_t.REMOTE_RX_CAR_CIPHER_DATA =>
    if a.rxData then
      ({ v with state := remoteStates_t.REMOTE_DECRYPT_CAR_CIPHER_TEXT },
        [RemoteCall.remote_rxDataByte RemoteBuffer.remoteRxdCipherTextOfCar
            v.remoteRxdCarCipherLenBuf.val,
          RemoteCall.remote_sendAck])
    else
      (v, [RemoteCall.remote_rxDataByte RemoteBuffer.remoteRxdCipherTextOfCar
        v.remoteRxdCarCipherLenBuf.val])
  | remoteStates_t.REMOTE_DECRYPT_CAR_CIPHER_TEXT =>
    ({ v with state := remoteStates_t.REMOTE_DEFAULT },
      [RemoteCall.psa_crypto_init,
        RemoteCall.decryptMgrTest_TestCase_EncryptedData v.remoteRxdCarCipherLenBuf.val,
        RemoteCall.remote_sendAck])
  | remoteStates_t.REMOTE_DEFAULT => (v, [])

/-- Successive passes of the loop of `remote_application`, one per element of
the list of answers. The log pairs every call with the state in which it was
made. -/
def remote_application_run (v : RemoteApp) :
    List CallAnswers → RemoteApp × List (remoteStates_t × RemoteCall)
  | [] => (v, [])
  | a :: as =>
    ((remote_application_run (remote_application_pass v a).1 as).1,
      (remote_application_pass v a).2.map (fun c => (v.state, c)) ++
        (remote_application_run (remote_application_pass v a).1 as).2)

/-- The position of a state of the remote in the order of the handshake, the
order in which the all-success run visits the states. It differs from the
order of the enumerators of `remoteStates_t` in one place:
`REMOTE_CHECK_CAR_DECRYPTED_CIPHER`, declared second to last, is visited
between `REMOTE_RX_ACK_CIPHER_TEXT` and `REMOTE_RX_CAR_IV`. -/
def remotePhase : remoteStates_t → Nat
  | remoteStates_t.REMOTE_STATE_SEND_SIGNED_CREDENTIAL => 0
  | remoteStates_t.REMOTE_CHECK_SIGN_RXD_ACK => 1
  | remoteStates_t.REMOTE_SEND_PUB_KEY => 2
  | remoteStates_t.REMOTE_PUB_KEY_RXD_ACK => 3
  | remoteStates_t.REMOTE_CRED_VERIFIED_BY_CAR => 4
  | remoteStates_t.REMOTE_RX_CAR_CRED => 5
  | remoteStates_t.REMOTE_RX_CAR_PUB_KEY => 6
  | remoteStates_t.REMOTE_VERIFY_CAR_AUTHENTICITY => 7
  | remoteStates_t.REMOTE_DH_KEY_SEND => 8
  | remoteStates_t.REMOTE_RX_DH_KEY_ACK => 9
  | remoteStates_t.REMOTE_RX_CAR_DH_KEY => 10
  | remoteStates_t.REMOTE_ENCRYPT_MESSAGE => 11
  | remoteStates_t.REMOTE_ENCRYPT_FAIL => 12
  | remoteStates_t.REMOTE_SEND_ENCRYPT_IV => 13
  | remoteStates_t.REMOTE_RX_IV_ACK => 14
  | remoteStates_t.REMOTE_SEND_ENCRYPT_LEN => 15
  | remoteStates_t.REMOTE_RX_ENCRYPT_LEN_ACK => 16
  | remoteStates_t.REMOTE_SEND_CIPHER_TEXT => 17
  | remoteStates_t.REMOTE_RX_ACK_CIPHER_TEXT => 18
  | remoteStates_t.REMOTE_CHECK_CAR_DECRYPTED_CIPHER => 19
  | remoteStates_t.REMOTE_RX_CAR_IV => 20
  | remoteStates_t.REMOTE_RX_CAR_CIPHER_LEN => 21
  | remoteStates_t.REMOTE_RX_CAR_CIPHER_DATA => 22
  | remoteStates_t.REMOTE_DECRYPT_CAR_CIPHER_TEXT => 23
  | remoteStates_t.REMOTE_DEFAULT => 24

/-! ### Conditions, logs and wire events of the handshake -/

/-- The condition under which a pass of `car_application` leaves a state: the
frame was fully parsed in the receiving states, the frame was fully sent in
the sending states, the ack was recognized in the ack states, the signature
was verified, the key handle was created and the message encrypted. `CAR_TEST`
is left by every pass and `CAR_DEFAULT` by none. -/
def carPassCondition (s : carStates_t) (a : CallAnswers) : Prop :=
  match s with
  | carStates_t.CAR_RX_SIGNATURE => a.rxData = true
  | carStates_t.CAR_RX_PUBLICKEY => a.rxData = true
  | carStates_t.CAR_VERIFY_AUTHENTICITY => a.verifySignature = true
  | carStates_t.CAR_SEND_SIGNED_CREDENTIAL => a.sendDataByte = true
  | carStates_t.CAR_CHECK_SIGN_RXD_ACK => a.checkAckRxd = true
  | carStates_t.CAR_SEND_PUB_KEY => a.sendDataByte = true
  | carStates_t.CAR_PUB_KEY_RXD_ACK => a.checkAckRxd = true
  | carStates_t.CAR_CRED_VERIFIED_BY_REMOTE => a.checkAckRxd = true
  | carStates_t.CAR_RX_REMOTE_DH_KEY => a.rxData = true
  | carStates_t.CAR_DH_KEY_SEND => a.sendDataByte = true
  | carStates_t.CAR_RX_DH_KEY_ACK => a.checkAckRxd = true
  | carStates_t.CAR_RX_IV => a.rxData = true
  | carStates_t.CAR_RX_LEN => a.rxData = true
  | carStates_t.CAR_RX_ENCDATA => a.rxData = true
  | carStates_t.CAR_TEST => True
  | carStates_t.CAR_ENCRYPT_MESSAGE =>
    a.encryptionDhKeyHandle = true ∧
      a.encryptUsingSymmetricCiphers = errorTypeEncrypt_t.ENCRYPT_SUCCESS
  | carStates_t.CAR_SEND_ENCRYPT_IV => a.sendDataByte = true
  | carStates_t.CAR_RX_IV_ACK => a.checkAckRxd = true
  | carStates_t.CAR_SEND_ENCRYPT_LEN => a.sendDataByte = true
  | carStates_t.CAR_RX_ENCRYPT_LEN_ACK => a.checkAckRxd = true
  | carStates_t.CAR_SEND_CIPHER_TEXT => a.sendDataByte = true
  | carStates_t.CAR_RX_ACK_CIPHER_TEXT => a.checkAckRxd = true
  | carStates_t.CAR_DEFAULT => False

/-- The condition under which a pass of `remote_application` leaves a state.
`REMOTE_ENCRYPT_MESSAGE` is left once the shared secret was computed and the
key handle created (for `REMOTE_SEND_ENCRYPT_IV` if the encryption succeeded,
for `REMOTE_ENCRYPT_FAIL` otherwise); `REMOTE_DECRYPT_CAR_CIPHER_TEXT` is left
by every pass, `REMOTE_ENCRYPT_FAIL` and `REMOTE_DEFAULT` by none. -/
def remotePassCondition (s : remoteStates_t) (a : CallAnswers) : Prop :=
  match s with
  | remoteStates_t.REMOTE_STATE_SEND_SIGNED_CREDENTIAL => a.sendDataByte = true
  | remoteStates_t.REMOTE_CHECK_SIGN_RXD_ACK => a.checkAckRxd = true
  | remoteStates_t.REMOTE_SEND_PUB_KEY => a.sendDataByte = true
  | remoteStates_t.REMOTE_PUB_KEY_RXD_ACK => a.checkAckRxd = true
  | remoteStates_t.REMOTE_CRED_VERIFIED_BY_CAR => a.checkAckRxd = true
  | remoteStates_t.REMOTE_RX_CAR_CRED => a.rxData = true
  | remoteStates_t.REMOTE_RX_CAR_PUB_KEY => a.rxData = true
  | remoteStates_t.REMOTE_VERIFY_CAR_AUTHENTICITY => a.verifySignature = true
  | remoteStates_t.REMOTE_DH_KEY_SEND => a.sendDataByte = true
  | remoteStates_t.REMOTE_RX_DH_KEY_ACK => a.checkAckRxd = true
  | remoteStates_t.REMOTE_RX_CAR_DH_KEY => a.rxData = true
  | remoteStates_t.REMOTE_ENCRYPT_MESSAGE =>
    a.computeSharedSecretDhKey = errorTypeKeyExchange_T.KEYEXCHANGE_INIT_SUCCESS ∧
      a.encryptionDhKeyHandle = true
  | remoteStates_t.REMOTE_ENCRYPT_FAIL => False
  | remoteStates_t.REMOTE_SEND_ENCRYPT_IV => a.sendDataByte = true
  | remoteStates_t.REMOTE_RX_IV_ACK => a.checkAckRxd = true
  | remoteStates_t.REMOTE_SEND_ENCRYPT_LEN => a.sendDataByte = true
  | remoteStates_t.REMOTE_RX_ENCRYPT_LEN_ACK => a.checkAckRxd = true
  | remoteStates_t.REMOTE_SEND_CIPHER_TEXT => a.sendDataByte = true
  | remoteStates_t.REMOTE_RX_ACK_CIPHER_TEXT => a.checkAckRxd = true
  | remoteStates_t.REMOTE_RX_CAR_IV => a.rxData = true
  | remoteStates_t.REMOTE_RX_CAR_CIPHER_LEN => a.rxData = true
  | remoteStates_t.REMOTE_RX_CAR_CIPHER_DATA => a.rxData = true
  | remoteStates_t.REMOTE_DECRYPT_CAR_CIPHER_TEXT => True
  | remoteStates_t.REMOTE_CHECK_CAR_DECRYPTED_CIPHER => a.checkAckRxd = true
  | remoteStates_t.REMOTE_DEFAULT => False

/-- The answers of a pass in which every called function reports success; the
ciphertext has 32 bytes. -/
def allSucceed : CallAnswers :=
  { rxData := true
    rxLengthByte := 32
    sendDataByte := true
    checkAckRxd := true
    verifySignature := true
    computeSharedSecretDhKey := errorTypeKeyExchange_T.KEYEXCHANGE_INIT_SUCCESS
    DecryptUsingSymmetricCiphers := errorTypeDecrypt_t.DECRYPT_SUCCESS
    encryptionDhKeyHandle := true
    encryptUsingSymmetricCiphers := errorTypeEncrypt_t.ENCRYPT_SUCCESS
    sizeofEncryption := 32 }

/-- The answers of a pass in which every called function reports success,
except that the decryption fails at its last step. -/
def decryptFails : CallAnswers :=
  { allSucceed with
    DecryptUsingSymmetricCiphers := errorTypeDecrypt_t.DECRYPT_CIPHER_NOT_FINISHED }

/-- The calls, with the state that makes them, that the car makes up to the
verification of the remote's credential. -/
def carUpToVerification : List (carStates_t × CarCall) :=
  [(carStates_t.CAR_RX_SIGNATURE,
      CarCall.car_rxData CarBuffer.carVerifyRemoteSign_signature uartData_signature_length),
    (carStates_t.CAR_RX_SIGNATURE, CarCall.car_SendAck),
    (carStates_t.CAR_RX_PUBLICKEY,
      CarCall.car_rxData CarBuffer.carVerifyRemoteSign_publicKey uartData_publiKey_length),
    (carStates_t.CAR_RX_PUBLICKEY, CarCall.car_SendAck),
    (carStates_t.CAR_VERIFY_AUTHENTICITY, CarCall.verifySignature)]

/-- The calls, with the state that makes them, that the remote makes up to the
verification of the car's credential. -/
def remoteUpToVerification : List (remoteStates_t × RemoteCall) :=
  [(remoteStates_t.REMOTE_STATE_SEND_SIGNED_CREDENTIAL,
      RemoteCall.remote_sendDataByte RemoteBuffer.signatureBuffer SIGNATURE_BUFFER_LENGTH),
    (remoteStates_t.REMOTE_CHECK_SIGN_RXD_ACK, RemoteCall.remote_checkAckRxd),
    (remoteStates_t.REMOTE_SEND_PUB_KEY,
      RemoteCall.remote_sendDataByte RemoteBuffer.signPubKeyBuffer SIGNATURE_PUB_KEY_BUF_LEN),
    (remoteStates_t.REMOTE_PUB_KEY_RXD_ACK, RemoteCall.remote_checkAckRxd),
    (remoteStates_t.REMOTE_CRED_VERIFIED_BY_CAR, RemoteCall.remote_checkAckRxd),
    (remoteStates_t.REMOTE_RX_CAR_CRED,
      RemoteCall.remote_rxDataByte RemoteBuffer.remoteVerifyCarSign_signature
        uartData_signature_length),
    (remoteStates_t.REMOTE_RX_CAR_CRED, RemoteCall.remote_sendAck),
    (remoteStates_t.REMOTE_RX_CAR_PUB_KEY,
      RemoteCall.remote_rxDataByte RemoteBuffer.remoteVerifyCarSign_publicKey
        uartData_publiKey_length),
    (remoteStates_t.REMOTE_RX_CAR_PUB_KEY, RemoteCall.remote_sendAck),
    (remoteStates_t.REMOTE_VERIFY_CAR_AUTHENTICITY, RemoteCall.verifySignature)]

/-- What a peer does on the wire: it receives a frame with a payload of `n`
bytes, sends such a frame, sends an ack frame or awaits one. -/
inductive WireEvent
  | receiveFrame (n : Nat)
  | sendFrame (n : Nat)
  | sendAck
  | awaitAck
  deriving DecidableEq, Repr

/-- The event of the other peer that matches an event. -/
def WireEvent.dual : WireEvent → WireEvent
  | WireEvent.receiveFrame n => WireEvent.sendFrame n
  | WireEvent.sendFrame n => WireEvent.receiveFrame n
  | WireEvent.sendAck => WireEvent.awaitAck
  | WireEvent.awaitAck => WireEvent.sendAck

/-- The wire event of a call of the car, if it has one; a buffer of `length`
bytes handed to `car_SendDataByte` is a frame with `length - 3` payload
bytes. -/
def carWireEvent : CarCall → Option WireEvent
  | CarCall.car_rxData _ n => some (WireEvent.receiveFrame n)
  | CarCall.car_SendDataByte _ n => some (WireEvent.sendFrame (n - CAR_PROT_ID_LENGTH))
  | CarCall.car_SendAck => some WireEvent.sendAck
  | CarCall.car_CheckAckRxd => some WireEvent.awaitAck
  | _ => none

/-- The wire event of a call of the remote, if it has one. -/
def remoteWireEvent : RemoteCall → Option WireEvent
  | RemoteCall.remote_rxDataByte _ n => some (WireEvent.receiveFrame n)
  | RemoteCall.remote_sendDataByte _ n => some (WireEvent.sendFrame (n - PROT_ID_LENGTH))
  | RemoteCall.remote_sendAck => some WireEvent.sendAck
  | RemoteCall.remote_checkAckRxd => some WireEvent.awaitAck
  | _ => none

/-- The wire events of the car on the all-success path: every pass succeeds,
so that each state is left after one pass, until `CAR_DEFAULT`. -/
def carWireEvents : List WireEvent :=
  (car_application_run (CarApp.init 0) (List.replicate 22 allSucceed)).2.filterMap
    (fun e => carWireEvent e.2)

/-- The wire events of the remote on the all-success path, until
`REMOTE_DEFAULT`. -/
def remoteWireEvents : List WireEvent :=
  (remote_application_run (RemoteApp.init 0) (List.replicate 23 allSucceed)).2.filterMap
    (fun e => remoteWireEvent e.2)

/-! ## Life of a cipher manager: the provider operations from construction to
teardown -/

/-- The effect of one provider operation on the key store of the provider,
given as the list of the key handles that are live. The provider is an
external library, and the effect is the one that its documentation gives:
`psa_import_key` and `psa_generate_key` create a key and leave its handle,
`psa_destroy_key` removes the key of the handle that it is given,
`mbedtls_psa_crypto_free` clears the whole key store, and the other operations
leave the key store as it is. A creating call is taken to have succeeded: the
list is exact when the creating calls succeed, and an upper bound of the live
handles otherwise. -/
def keyStoreStep (live : List Nat) : PsaCall → List Nat
  | PsaCall.psa_import_key h => live ++ [h]
  | PsaCall.psa_generate_key h => live ++ [h]
  | PsaCall.psa_destroy_key h => live.filter (fun k => k ≠ h)
  | PsaCall.mbedtls_psa_crypto_free => []
  | _ => live

/-- The key handles that are live in the provider after a sequence of provider
operations that starts on an empty key store. -/
def liveKeys (log : List PsaCall) : List Nat :=
  log.foldl keyStoreStep []

/-- Successive calls of `encryptMgr::encryptionDhKeyHandle`, one per answer of
`psa_import_key`: the object after them and the provider operations invoked. -/
def encryptMgr.dhKeyHandles (m : encryptMgr) : List ImportAnswer → encryptMgr × List PsaCall
  | [] => (m, [])
  | i :: is =>
    (((m.encryptionDhKeyHandle i).2.1.dhKeyHandles is).1,
      (m.encryptionDhKeyHandle i).2.2 ++ ((m.encryptionDhKeyHandle i).2.1.dhKeyHandles is).2)

/-- The provider operations invoked over the life of an `encryptMgr`: the
constructor, the calls of `encryptionDhKeyHandle` (one per element of `dh`),
`encryptUsingSymmetricCiphers` if `op` gives the answers for it, and the
destructor. -/
def encryptMgr.lifecycle (raw : encryptMgr) (sizeOfPlainText : Nat)
    (algoType : typeOfEncryptAlgo_t) (imp : ImportAnswer) (dh : List ImportAnswer)
    (op : Option CipherAnswers) : List PsaCall :=
  let c := encryptMgr.ctor raw sizeOfPlainText algoType imp
  let k := c.1.dhKeyHandles dh
  match op with
  | none => c.2 ++ k.2 ++ k.1.dtor.2
  | some ans =>
    c.2 ++ k.2 ++ (k.1.encryptUsingSymmetricCiphers ans).2.2 ++
      (k.1.encryptUsingSymmetricCiphers ans).2.1.dtor.2

/-- Function `decryptMgrTest_TestCase_EncryptedData(EncryptedText,
SizeofEncryptedText, IV, stubDhDecryptAesKeyBuf)`: the provider operations it
invokes, in order, up to and including the destructor of `obj` that runs when
the function returns. `raw` is the content of the storage of `obj` before
construction, `imp` and `dh` are the answers of `psa_import_key` in the
constructor and in `decryptionDhKeyHandle`, `ans` the answers of the cipher
steps. -/
def decryptMgrTest_TestCase_EncryptedData (raw : decryptMgr) (SizeofEncryptedText : Nat)
    (imp dh : ImportAnswer) (ans : CipherAnswers) : List PsaCall :=
  let c := decryptMgr.ctor raw SizeofEncryptedText typeOfDecryptAlgo_t.DECRYPT_CBC_NO_PADDING imp
  let k := c.1.decryptionDhKeyHandle dh
  let d := k.2.1.DecryptUsingSymmetricCiphers ans
  c.2 ++ k.2.2 ++ d.2.2 ++ d.2.1.dtor.2

/-! ## signVerifyMgr.h / signVerifyMgr.cpp -/

/-- Data members of class `signVerifyMgr` that `verifySignature` writes. -/
structure signVerifyMgr where
  status : psa_status_t
  m_handle : Nat
  deriving DecidableEq, Repr

/-- Method `signVerifyMgr::verifySignature()`. `imp` is the answer of
`psa_import_key` for the received public key: the call leaves its handle in
`m_handle`, and the status it returns is neither stored nor examined. `verify`
is the status that `psa_asymmetric_verify` returns, as a function of the key
handle it is called with. The result is the returned flag and the object. -/
def signVerifyMgr.verifySignature (m : signVerifyMgr) (imp : ImportAnswer)
    (verify : Nat → psa_status_t) : Bool × signVerifyMgr :=
  let m1 := { m with m_handle := imp.handle }
  let m2 := { m1 with status := verify m1.m_handle }
  if m2.status ≠ PSA_SUCCESS then
    (false, m2)
  else
    (true, m2)

/-! ## main.cpp: receive interrupt and drain task -/

/-- Modelled from the spec: the state of the transport and of the event queue
(mbed library, not part of the sources) on which `main.cpp` acts, with the
ring buffer `uartRxBuf`: whether `onDataReceived` is attached to
`Serial::RxIrq`, how many `myCallback` events wait in the event queue, and the
bytes the UART has received and `getc` has not yet fetched. -/
structure RxPath where
  attached : Bool
  pending : Nat
  rxd : List Byte
  uartRxBuf : CRingBuffer

/-- The loop `while (remote.readable())` of `myCallback`: every received byte
is fetched with `getc` and written to the ring buffer; a rejected write only
prints a message. -/
def drainLoop (rb : CRingBuffer) : List Byte → CRingBuffer
  | [] => rb
  | b :: bs => drainLoop (rb.write b).2 bs

/-- Function `myCallback()`, the drain task: it empties the receive side of
the UART into the ring buffer and attaches `onDataReceived` again. -/
def myCallback (p : RxPath) : RxPath :=
  { p with uartRxBuf := drainLoop p.uartRxBuf p.rxd, rxd := [], attached := true }

/-- Function `onDataReceived()`, the interrupt handler: it detaches itself and
posts `myCallback` to the event queue. `cap` is the number of events the queue
has room for; `queue->call` posts nothing when there is no room. -/
def onDataReceived (cap : Nat) (p : RxPath) : RxPath :=
  { p with
    attached := false
    pending := if p.pending < cap then p.pending + 1 else p.pending }

/-- The receive path when `main()` has attached `onDataReceived` and enters
the application. -/
def RxPath.init (rb : CRingBuffer) : RxPath :=
  { attached := true, pending := 0, rxd := [], uartRxBuf := rb }

/-- What can happen on the receive path: a byte arrives at the UART, the
receive interrupt fires, or the event queue dispatches a waiting event. -/
inductive RxEvent
  | byteArrives (b : Byte)
  | rxInterrupt
  | dispatch
  deriving DecidableEq, Repr

/-- One event on the receive path. The interrupt runs the handler only while
it is attached, and a dispatch runs the drain task only if one is waiting;
otherwise the event changes nothing. -/
def rxPathStep (cap : Nat) (p : RxPath) : RxEvent → RxPath
  | RxEvent.byteArrives b => { p with rxd := p.rxd ++ [b] }
  | RxEvent.rxInterrupt => if p.attached then onDataReceived cap p else p
  | RxEvent.dispatch =>
    if 0 < p.pending then myCallback { p with pending := p.pending - 1 } else p

/-- A sequence of events on the receive path. -/
def rxPathRun (cap : Nat) (p : RxPath) : List RxEvent → RxPath
  | [] => p
  | e :: es => rxPathRun cap (rxPathStep cap p e) es

/-! ## Runs of the ack recognizer -/

/-- The `switch (state)` statement of `car_CheckAckRxd` together with the
`return` that follows it, for the byte `ch` just read: the returned flag and
the `static` state after the call. -/
def car_CheckAckRxd_switch (state : car_rxAckStates_t) (ch : Byte) :
    Bool × car_rxAckStates_t :=
  match state with
  | car_rxAckStates_t.CAR_RX_ACK_SOP =>
    if ch = CAR_PROTOCOL_SOF then
      (false, car_rxAckStates_t.CAR_RX_ACK_BYTE1)
    else
      (false, car_rxAckStates_t.CAR_RX_ACK_SOP)
  | car_rxAckStates_t.CAR_RX_ACK_BYTE1 =>
    if ch = CAR_POS_ACK_BYTE_1 then
      (false, car_rxAckStates_t.CAR_RX_ACK_BYTE2)
    else
      (false, car_rxAckStates_t.CAR_RX_ACK_SOP)
  | car_rxAckStates_t.CAR_RX_ACK_BYTE2 =>
    if ch = CAR_POS_ACK_BYTE_2 then
      (true, car_rxAckStates_t.CAR_RX_ACK_SOP)
    else
      (false, car_rxAckStates_t.CAR_RX_ACK_SOP)

/-- The ack recognizer of the car applied to a sequence of bytes, one call of
the `switch` per byte. -/
def carAckFeed (s : car_rxAckStates_t) : List Byte → List Bool × car_rxAckStates_t
  | [] => ([], s)
  | b :: bs =>
    ((car_CheckAckRxd_switch s b).1 :: (carAckFeed (car_CheckAckRxd_switch s b).2 bs).1,
      (carAckFeed (car_CheckAckRxd_switch s b).2 bs).2)

/-- The receiving side of the car while it waits for an ack: the ring buffer
and the `static` variables of `car_CheckAckRxd`. -/
structure CarAckSys where
  uartRxBuf : CRingBuffer
  statics : CarAckStatics

/-- The car side with the ack recognizer in its initial state, for a ring
buffer `rb`. -/
def CarAckSys.init (rb : CRingBuffer) : CarAckSys :=
  { uartRxBuf := rb, statics := CarAckStatics.init }

/-- The state of the recognizer of the car that corresponds to a state of the
recognizer of the remote. -/
def remote_rxAckStates_t.toCar : remote_rxAckStates_t → car_rxAckStates_t
  | remote_rxAckStates_t.REMOTE_RX_ACK_SOP => car_rxAckStates_t.CAR_RX_ACK_SOP
  | remote_rxAckStates_t.REMOTE_RX_ACK_BYTE1 => car_rxAckStates_t.CAR_RX_ACK_BYTE1
  | remote_rxAckStates_t.REMOTE_RX_ACK_BYTE2 => car_rxAckStates_t.CAR_RX_ACK_BYTE2

/-- What the bytes `l` taken so far tell about an ack recognizer in state `s`:
the bytes of the ack frame matched so far are the most recent bytes. -/
def ackInv (s : car_rxAckStates_t) (l : List Byte) : Prop :=
  match s with
  | car_rxAckStates_t.CAR_RX_ACK_SOP => True
  | car_rxAckStates_t.CAR_RX_ACK_BYTE1 => ∃ pre, l = pre ++ [CAR_PROTOCOL_SOF]
  | car_rxAckStates_t.CAR_RX_ACK_BYTE2 =>
    ∃ pre, l = pre ++ [CAR_PROTOCOL_SOF, CAR_POS_ACK_BYTE_1]

/-- Macro `DEFFIE_HELMANN_KEY_SIZE`. -/
def DEFFIE_HELMANN_KEY_SIZE : Nat := 32

/-- The byte with the low eight bits of a number: the conversion to
`uint8_t`. -/
def byteOf (n : Nat) : Byte :=
  ⟨n % 256, Nat.mod_lt n (by decide)⟩

/-- What the group operations of the library compute:
`mbedtls_ecdh_gen_public` leaves in `Q.X` the coordinate of the public point
of the private scalar `d`, `mbedtls_ecdh_compute_shared` leaves in `z` the
shared secret of the peer's coordinate `Qp.X` and the own private scalar
`d`. -/
structure EcdhLibrary where
  mbedtls_ecdh_gen_public : Nat → Nat
  mbedtls_ecdh_compute_shared : Nat → Nat → Nat

/-- What the library calls of one manager answer: the code each call returns
and the private scalar drawn by `mbedtls_ecdh_gen_public`. -/
structure EcdhAnswers where
  mbedtls_ctr_drbg_seed : Int
  mbedtls_ecp_group_load : Int
  mbedtls_ecdh_gen_public : Int
  d : Nat
  mbedtls_mpi_lset : Int
  mbedtls_mpi_read_binary : Int
  mbedtls_ecdh_compute_shared : Int
  deriving DecidableEq, Repr

/-- Library function `mbedtls_mpi_write_binary(X, buf, buflen)`: the value is
written big-endian over the whole buffer; a value that does not fit is
refused with `MBEDTLS_ERR_MPI_BUFFER_TOO_SMALL` (-8). The result is the code
returned and the buffer. -/
def mbedtls_mpi_write_binary (X : Nat) (buf : Mem) (buflen : Nat) : Int × Mem :=
  if X < 256 ^ buflen then
    (0, fun i => if i < buflen then byteOf (X / 256 ^ (buflen - 1 - i)) else buf i)
  else
    (-8, buf)

/-- Library function `mbedtls_mpi_read_binary(X, buf, buflen)`: the value of
the first `buflen` bytes read big-endian. -/
def mbedtls_mpi_read_binary (buf : Mem) : Nat → Nat
  | 0 => 0
  | k + 1 => mbedtls_mpi_read_binary buf k * 256 + (buf k).val

/-- The limb `p[j]` of a multi-precision integer with value `z`. -/
def mpiLimb (z : Nat) (j : Nat) : Nat :=
  z / 2 ^ (32 * j) % 2 ^ 32

/-- Data members of class `dhKeyExchangeMgr` that the methods below read or
write: the status and, of the context `m_ctx`, the private scalar `d`, the
coordinates `Q.X` and `Qp.X` and the shared secret `z`. -/
structure dhKeyExchangeMgr where
  m_errorStatus : errorTypeKeyExchange_T
  d : Nat
  Q_X : Nat
  Qp_X : Nat
  z : Nat
  deriving DecidableEq, Repr

/-- Method `dhKeyExchangeMgr::intializeDhKeyExchangeServices()`;
`mbedtls_ecdh_init` clears the context. -/
def dhKeyExchangeMgr.intializeDhKeyExchangeServices (_m : dhKeyExchangeMgr)
    (ans : EcdhAnswers) : errorTypeKeyExchange_T × dhKeyExchangeMgr :=
  let m1 : dhKeyExchangeMgr :=
    { m_errorStatus := errorTypeKeyExchange_T.KEYEXCHANGE_INIT_SUCCESS
      d := 0, Q_X := 0, Qp_X := 0, z := 0 }
  if ans.mbedtls_ctr_drbg_seed ≠ 0 then
    (errorTypeKeyExchange_T.KEYEXCHANGE_INIT_FAIL,
      { m1 with m_errorStatus := errorTypeKeyExchange_T.KEYEXCHANGE_INIT_FAIL })
  else
    (m1.m_errorStatus, m1)

/-- Constructor `dhKeyExchangeMgr::dhKeyExchangeMgr()`; `raw` is the content
of the object's storage before construction. -/
def dhKeyExchangeMgr.ctor (raw : dhKeyExchangeMgr) (ans : EcdhAnswers) : dhKeyExchangeMgr :=
  { (raw.intializeDhKeyExchangeServices ans).2 with
    m_errorStatus := (raw.intializeDhKeyExchangeServices ans).1 }

/-- Method `dhKeyExchangeMgr::generateDhKey(publicKeyForExchange)`. The result
is the returned status, the object and the caller's buffer. -/
def dhKeyExchangeMgr.generateDhKey (lib : EcdhLibrary) (ans : EcdhAnswers)
    (m : dhKeyExchangeMgr) (publicKeyForExchange : Mem) :
    errorTypeKeyExchange_T × dhKeyExchangeMgr × Mem :=
  if errorTypeKeyExchange_T.KEYEXCHANGE_INIT_SUCCESS = m.m_errorStatus then
    let m1 := if ans.mbedtls_ecp_group_load ≠ 0 then
        { m with m_errorStatus := errorTypeKeyExchange_T.KEYEXCHANGE_EC_NOT_FOUND }
      else m
    let m2 := if ans.mbedtls_ecdh_gen_public ≠ 0 then
        { m1 with m_errorStatus := errorTypeKeyExchange_T.KEYEXCHANGE_PUBLIC_KEY_GEN_FAIL }
      else
        { m1 with d := ans.d, Q_X := lib.mbedtls_ecdh_gen_public ans.d }
    let w := mbedtls_mpi_write_binary m2.Q_X publicKeyForExchange DEFFIE_HELMANN_KEY_SIZE
    let m3 := if w.1 ≠ 0 then
        { m2 with m_errorStatus := errorTypeKeyExchange_T.KEYEXCHANGE_WRITE_FAIL }
      else m2
    (m3.m_errorStatus, m3, w.2)
  else
    (errorTypeKeyExchange_T.KEYEXCHANGE_DH_KEYGEN_FAIL,
      { m with m_errorStatus := errorTypeKeyExchange_T.KEYEXCHANGE_DH_KEYGEN_FAIL },
      publicKeyForExchange)

/-- The loop `while(i < 16)` of `computeSharedSecretDhKey`, run for its first
`k` iterations: iteration `j` stores the four bytes of the limb `z.p[j]`, most
significant first, at `encryptionKey[4j .. 4j+3]`. -/
def dhKeyLoop (z : Nat) (encryptionKey : Mem) : Nat → Mem
  | 0 => encryptionKey
  | j + 1 =>
    Function.update
      (Function.update
        (Function.update
          (Function.update (dhKeyLoop z encryptionKey j) (4 * j) (byteOf (mpiLimb z j / 2 ^ 24)))
          (4 * j + 1) (byteOf (mpiLimb z j / 2 ^ 16)))
        (4 * j + 2) (byteOf (mpiLimb z j / 2 ^ 8)))
      (4 * j + 3) (byteOf (mpiLimb z j))

/-- Method `dhKeyExchangeMgr::computeSharedSecretDhKey(exchangedPublicKey,
encryptionKey)`. The result is the returned status, the object and the
caller's key buffer; the loop runs four times. -/
def dhKeyExchangeMgr.computeSharedSecretDhKey (lib : EcdhLibrary) (ans : EcdhAnswers)
    (m : dhKeyExchangeMgr) (exchangedPublicKey encryptionKey : Mem) :
    errorTypeKeyExchange_T × dhKeyExchangeMgr × Mem :=
  let m1 := if ans.mbedtls_mpi_lset ≠ 0 then
      { m with m_errorStatus := errorTypeKeyExchange_T.KEYEXCHANGE_ERROR_SECRET_GEN }
    else m
  let m2 := if ans.mbedtls_mpi_read_binary ≠ 0 then
      { m1 with m_errorStatus := errorTypeKeyExchange_T.KEYEXCHANGE_READ_FAIL }
    else
      { m1 with Qp_X := mbedtls_mpi_read_binary exchangedPublicKey DEFFIE_HELMANN_KEY_SIZE }
  let m3 := if ans.mbedtls_ecdh_compute_shared ≠ 0 then
      { m2 with m_errorStatus := errorTypeKeyExchange_T.KEYEXCHANGE_COMPUTE_SECRET_GEN }
    else
      { m2 with z := lib.mbedtls_ecdh_compute_shared m2.Qp_X m2.d }
  (m3.m_errorStatus, m3, dhKeyLoop m3.z encryptionKey 4)

/-- Function `dhKeyExchange_matchEncryptionKeys()` of
`dhKeyExchangeMgrTest.cpp`. `ansCli` and `ansSrv` are the answers of the
library to the two managers; the remaining arguments are the contents of the
storage of the local objects and arrays before the function runs. -/
def dhKeyExchange_matchEncryptionKeys (lib : EcdhLibrary) (ansCli ansSrv : EcdhAnswers)
    (rawCli rawSrv : dhKeyExchangeMgr) (cli_to_srv srv_to_cli encryptionKey1 encryptionKey2 : Mem) :
    Bool :=
  let ctx_cli := dhKeyExchangeMgr.ctor rawCli ansCli
  let ctx_srv := dhKeyExchangeMgr.ctor rawSrv ansSrv
  let g1 := ctx_cli.generateDhKey lib ansCli cli_to_srv
  let g2 := ctx_srv.generateDhKey lib ansSrv srv_to_cli
  let c1 := g2.2.1.computeSharedSecretDhKey lib ansSrv g1.2.2 encryptionKey1
  let c2 := g1.2.1.computeSharedSecretDhKey lib ansCli g2.2.2 encryptionKey2
  (List.range 16).foldl (fun flag i => if c1.2.2 i ≠ c2.2.2 i then false else flag) true

/-- Every library call of a manager returns 0. -/
def EcdhAnswers.succeed (ans : EcdhAnswers) : Prop :=
  ans.mbedtls_ctr_drbg_seed = 0 ∧ ans.mbedtls_ecp_group_load = 0 ∧
    ans.mbedtls_ecdh_gen_public = 0 ∧ ans.mbedtls_mpi_lset = 0 ∧
    ans.mbedtls_mpi_read_binary = 0 ∧ ans.mbedtls_ecdh_compute_shared = 0

instance (ans : EcdhAnswers) : Decidable ans.succeed := by
  unfold EcdhAnswers.succeed; infer_instance

/-- A library for evaluation: the group of the powers of 5 modulo 1009 in the
place of the elliptic curve. -/
def toyEcdh : EcdhLibrary :=
  { mbedtls_ecdh_gen_public := fun d => 5 ^ d % 1009
    mbedtls_ecdh_compute_shared := fun q d => q ^ d % 1009 }

/-! ## Data path of the cipher managers

The cipher of the provider (AES in CBC mode) is outside the repository. What
its multipart operation writes is a parameter of the embedded data paths
(`CipherProvider`); the key the operation runs under is the one the key store
holds for the handle given at set-up. A call that finds the manager in another
status than `ENCRYPT_INIT_SUCCESS` resp. `DECRYPT_INIT_SUCCESS` invokes no
provider step and writes nothing. What the provider writes when one of its
steps fails is not described: the data paths give `none` then. -/

/-- The key store of the provider: the key each handle stands for. -/
abbrev KeyStore := Nat → List Byte

/-- Provider function `psa_import_key`, as seen in the key store: when it
succeeds, the handle it leaves stands for the imported key. -/
def psa_import_key (store : KeyStore) (imp : ImportAnswer) (key : List Byte) : KeyStore :=
  if imp.status = PSA_SUCCESS then Function.update store imp.handle key else store

/-- Every provider step of a cipher operation answers `PSA_SUCCESS`. -/
def CipherAnswers.succeed (ans : CipherAnswers) : Prop :=
  ans.setup = PSA_SUCCESS ∧ ans.iv = PSA_SUCCESS ∧ ans.update = PSA_SUCCESS ∧
    ans.finish = PSA_SUCCESS

instance (ans : CipherAnswers) : Decidable ans.succeed := by
  unfold CipherAnswers.succeed; infer_instance

/-- The state of the frame parser of the car that corresponds to a state of
the frame parser of the remote: the enumerator at the same position. -/
def remote_rxStates_t.toCar : remote_rxStates_t → car_rxStates_t
  | remote_rxStates_t.REMOTE_RX_SOP => car_rxStates_t.CAR_RX_SOP
  | remote_rxStates_t.REMOTE_RX_DATA => car_rxStates_t.CAR_RX_DATA
  | remote_rxStates_t.REMOTE_RX_EOP1 => car_rxStates_t.CAR_RX_EOP1
  | remote_rxStates_t.REMOTE_RX_EOP2 => car_rxStates_t.CAR_RX_EOP2

/-- The `static` variables of `car_rxData` that correspond to `static`
variables of `remote_rxDataByte`. -/
def RemoteRxStatics.toCar (s : RemoteRxStatics) : CarRxStatics :=
  { dataIdx := s.dataIdx, ch := s.ch, state := s.state.toCar }

/-- The `static` variables of `car_CheckAckRxd` that correspond to `static`
variables of `remote_checkAckRxd`. -/
def RemoteAckStatics.toCar (s : RemoteAckStatics) : CarAckStatics :=
  { ch := s.ch, state := s.state.toCar }

/-- The receiving side of the remote: the ring buffer, the `static` variables
of `remote_rxDataByte` and the caller's buffer. -/
structure RemoteRxSys where
  uartRxBuf : CRingBuffer
  statics : RemoteRxStatics
  rxdData : Mem

/-- The receiving side of the car that corresponds to a receiving side of the
remote. -/
def RemoteRxSys.toCar (sys : RemoteRxSys) : CarRxSys :=
  { uartRxBuf := sys.uartRxBuf, statics := sys.statics.toCar, myData := sys.rxdData }

/-- One event on the remote side, with expected payload length `N`: the
interrupt path stores a received byte, or the application calls
`remote_rxDataByte` once. -/
def remoteRxStep (N : Nat) (sys : RemoteRxSys) : LinkEvent → RemoteRxSys × List PollLog
  | LinkEvent.rx b => ({ sys with uartRxBuf := (sys.uartRxBuf.write b).2 }, [])
  | LinkEvent.poll =>
    let r := remote_rxDataByte sys.statics sys.rxdData N sys.uartRxBuf
    ({ uartRxBuf := r.2.2.2, statics := r.2.1, rxdData := r.2.2.1 },
      [{ consumed := nextByte sys.uartRxBuf, result := r.1 }])

/-- A sequence of events on the remote side; the log lists the calls of the
parser in order. -/
def remoteRxRun (N : Nat) (sys : RemoteRxSys) : List LinkEvent → RemoteRxSys × List PollLog
  | [] => (sys, [])
  | e :: es =>
    let r := remoteRxStep N sys e
    let rest := remoteRxRun N r.1 es
    (rest.1, r.2 ++ rest.2)

/-- The remote side with the parser in its initial state, for a ring buffer
`rb` and a caller's buffer with content `buf`. -/
def RemoteRxSys.init (rb : CRingBuffer) (buf : Mem) : RemoteRxSys :=
  { uartRxBuf := rb, statics := RemoteRxStatics.init, rxdData := buf }

/-- The remote side after `k` successive calls of `remote_rxDataByte`, no byte
arriving in between, and the log of these calls. -/
def remote_rxDataByte_calls (N : Nat) (sys : RemoteRxSys) (k : Nat) :
    RemoteRxSys × List PollLog :=
  remoteRxRun N sys (List.replicate k LinkEvent.poll)

/-! ## Successive calls on one encryptMgr -/

/-- A call of a public method of `encryptMgr` that changes the object, with
the answers of the provider. The other public methods (`GetEncryptedData`,
`GetIvData`, `sizeofEncryption`, `displayEncryptedMessage`) leave the object
as it is. -/
inductive EncryptMgrCall
  | encryptionDhKeyHandle (imp : ImportAnswer)
  | encryptUsingSymmetricCiphers (ans : CipherAnswers)
  deriving DecidableEq, Repr

/-- One call on an `encryptMgr`: the status returned when the call is
`encryptUsingSymmetricCiphers`, the object after the call and the provider
operations invoked. -/
def encryptMgr.call (m : encryptMgr) :
    EncryptMgrCall → Option errorTypeEncrypt_t × encryptMgr × List PsaCall
  | EncryptMgrCall.encryptionDhKeyHandle imp =>
    (none, (m.encryptionDhKeyHandle imp).2.1, (m.encryptionDhKeyHandle imp).2.2)
  | EncryptMgrCall.encryptUsingSymmetricCiphers ans =>
    (some (m.encryptUsingSymmetricCiphers ans).1, (m.encryptUsingSymmetricCiphers ans).2.1,
      (m.encryptUsingSymmetricCiphers ans).2.2)

/-- Successive calls on one `encryptMgr`: the object after them and, for every
call in order, the status it returned (for `encryptUsingSymmetricCiphers`)
and the provider operations it invoked. -/
def encryptMgr.calls (m : encryptMgr) :
    List EncryptMgrCall → encryptMgr × List (Option errorTypeEncrypt_t × List PsaCall)
  | [] => (m, [])
  | c :: cs =>
    (((m.call c).2.1.calls cs).1, ((m.call c).1, (m.call c).2.2) :: ((m.call c).2.1.calls cs).2)

/-- One pass of the loop of `car_application` with the object `encryptObj`
that the function constructs before the loop: in `CAR_ENCRYPT_MESSAGE` the
answers of `encryptionDhKeyHandle`, `encryptUsingSymmetricCiphers` and
`sizeofEncryption` are what these methods of `encryptObj` return when the
provider answers `dh` to the key import and `ans` to the cipher steps; in the
other states the object is not touched. The result is the local variables,
the object and the calls made. -/
def car_application_pass_encryptObj (v : CarApp) (encryptObj : encryptMgr) (a : CallAnswers)
    (dh : ImportAnswer) (ans : CipherAnswers) : CarApp × encryptMgr × List CarCall :=
  match v.state with
  | carStates_t.CAR_ENCRYPT_MESSAGE =>
    let k := encryptObj.encryptionDhKeyHandle dh
    if k.1 then
      let e := k.2.1.encryptUsingSymmetricCiphers ans
      let r := car_application_pass v
        { a with
          encryptionDhKeyHandle := true
          encryptUsingSymmetricCiphers := e.1
          sizeofEncryption := e.2.1.sizeofEncryption }
      (r.1, e.2.1, r.2)
    else
      let r := car_application_pass v { a with encryptionDhKeyHandle := false }
      (r.1, k.2.1, r.2)
  | _ => ((car_application_pass v a).1, encryptObj, (car_application_pass v a).2)

/-- Successive passes of the loop of `car_application` with the object
`encryptObj`, one per element of the list of answers. -/
def car_application_run_encryptObj (v : CarApp) (encryptObj : encryptMgr) :
    List (CallAnswers × ImportAnswer × CipherAnswers) → CarApp × encryptMgr
  | [] => (v, encryptObj)
  | t :: ts =>
    car_application_run_encryptObj (car_application_pass_encryptObj v encryptObj t.1 t.2.1 t.2.2).1
      (car_application_pass_encryptObj v encryptObj t.1 t.2.1 t.2.2).2.1 ts

/-- The answers of the cipher steps when the last one, `psa_cipher_finish`,
fails. -/
def finishFails : CipherAnswers :=
  { setup := PSA_SUCCESS, iv := PSA_SUCCESS, update := PSA_SUCCESS, finish := PSA_ERROR_BAD_STATE }

/-- The answers of the cipher steps when every step succeeds. -/
def cipherOk : CipherAnswers :=
  { setup := PSA_SUCCESS, iv := PSA_SUCCESS, update := PSA_SUCCESS, finish := PSA_SUCCESS }

/-! ## signMgr.h / signMgr.cpp: what is handed to the provider to sign and to verify

`psa_asymmetric_sign` and `psa_asymmetric_verify` take their input as a
pointer `hash` and a length `hash_length`, and read the `hash_length` bytes at
`hash`. -/

/-- The arguments `hash` and `hash_length` of a call of `psa_asymmetric_sign`
or `psa_asymmetric_verify`. -/
structure HashArgument where
  hash : Mem
  hash_length : Nat

/-- The bytes the provider reads as its input: the first `hash_length` bytes
at `hash`. -/
def HashArgument.input (a : HashArgument) : List Byte :=
  (List.range a.hash_length).map a.hash

/-- The array `remoteId[] = {"I am 01234567891"}` of
`car_generateSignAndPubKey` and `remote_generateSignAndPubKey`, which is also
the string literal of the constructor of `signVerifyMgr`: 16 characters and
the terminator. -/
def remoteId : List Byte :=
  [0x49, 0x20, 0x61, 0x6D, 0x20, 0x30, 0x31, 0x32, 0x33, 0x34, 0x35, 0x36, 0x37, 0x38, 0x39,
    0x31, 0x00]

/-- The array `plainText[] = {"I am plaintext."}` that `main()` of the
signature test case hands to `signMgr`: 15 characters and the terminator. -/
def signatureTestPlainText : List Byte :=
  [0x49, 0x20, 0x61, 0x6D, 0x20, 0x70, 0x6C, 0x61, 0x69, 0x6E, 0x74, 0x65, 0x78, 0x74, 0x2E,
    0x00]

/-- The memory behind a pointer to the first element of an array with the
given content. -/
def arrayMem (content : List Byte) : Mem :=
  fun i => content.getD i 0

/-- Data member `m_encryptedData` of class `signMgr`, of type `uint8_t*`: the
memory it points to. -/
structure signMgr where
  m_encryptedData : Mem

/-- Constructor `signMgr::signMgr(encryptedData)`, as far as
`m_encryptedData` goes. -/
def signMgr.ctor (encryptedData : Mem) : signMgr :=
  { m_encryptedData := encryptedData }

/-- Method `signMgr::signhash()`: the arguments `hash`, `hash_length` of its
call of `psa_asymmetric_sign`, which are `m_encryptedData` and
`sizeof(m_encryptedData)`. The operand of `sizeof` has the type `uint8_t*`,
so the length is the size of an object pointer on the target,
`sizeofPointer`. -/
def signMgr.signhash (sizeofPointer : Nat) (m : signMgr) : HashArgument :=
  { hash := m.m_encryptedData, hash_length := sizeofPointer }

/-- Method `signVerifyMgr::verifySignature()`: the arguments `hash`,
`hash_length` of its call of `psa_asymmetric_verify`, which are
`encryptedData` and `sizeof(encryptedData)`. The constructor has set the
member `encryptedData`, of type `const uint8_t*`, to the string literal
`"I am 01234567891"`. -/
def signVerifyMgr.verifySignature_hash (sizeofPointer : Nat) : HashArgument :=
  { hash := arrayMem remoteId, hash_length := sizeofPointer }

/-- Function `car_generateSignAndPubKey(signBuf, pubKeyBuf)`, and
`remote_generateSignAndPubKey` alike: the arguments `hash`, `hash_length` of
the call of `psa_asymmetric_sign` made by `remoteSignDataToTxd.signhash()`
for the `signMgr` constructed with `remoteId`. -/
def car_generateSignAndPubKey_hash (sizeofPointer : Nat) : HashArgument :=
  (signMgr.ctor (arrayMem remoteId)).signhash sizeofPointer

/-! ## Successive calls on one dhKeyExchangeMgr -/

/-- A call of a public method of `dhKeyExchangeMgr` after construction, with
the answers of the library to it and the contents of the caller's buffers. -/
inductive DhCall
  | generateDhKey (ans : EcdhAnswers) (publicKeyForExchange : Mem)
  | computeSharedSecretDhKey (ans : EcdhAnswers) (exchangedPublicKey encryptionKey : Mem)

/-- The codes returned by the library calls that
`generateDhKey(publicKeyForExchange)` makes, in order: none when the status is
not `KEYEXCHANGE_INIT_SUCCESS`, otherwise those of `mbedtls_ecp_group_load`,
`mbedtls_ecdh_gen_public` and `mbedtls_mpi_write_binary`. -/
def dhKeyExchangeMgr.generateDhKey_codes (lib : EcdhLibrary) (ans : EcdhAnswers)
    (m : dhKeyExchangeMgr) (publicKeyForExchange : Mem) : List Int :=
  if errorTypeKeyExchange_T.KEYEXCHANGE_INIT_SUCCESS = m.m_errorStatus then
    [ans.mbedtls_ecp_group_load, ans.mbedtls_ecdh_gen_public,
      (mbedtls_mpi_write_binary (m.generateDhKey lib ans publicKeyForExchange).2.1.Q_X
        publicKeyForExchange DEFFIE_HELMANN_KEY_SIZE).1]
  else
    []

/-- The codes returned by the library calls that `computeSharedSecretDhKey`
makes, in order: those of `mbedtls_mpi_lset`, `mbedtls_mpi_read_binary` and
`mbedtls_ecdh_compute_shared`. -/
def dhKeyExchangeMgr.computeSharedSecretDhKey_codes (ans : EcdhAnswers) : List Int :=
  [ans.mbedtls_mpi_lset, ans.mbedtls_mpi_read_binary, ans.mbedtls_ecdh_compute_shared]

/-- One call on a `dhKeyExchangeMgr`: the status returned, the object after
the call and the codes returned by the library calls made. -/
def dhKeyExchangeMgr.call (lib : EcdhLibrary) (m : dhKeyExchangeMgr) :
    DhCall → errorTypeKeyExchange_T × dhKeyExchangeMgr × List Int
  | DhCall.generateDhKey ans pub =>
    ((m.generateDhKey lib ans pub).1, (m.generateDhKey lib ans pub).2.1,
      m.generateDhKey_codes lib ans pub)
  | DhCall.computeSharedSecretDhKey ans peer key =>
    ((m.computeSharedSecretDhKey lib ans peer key).1,
      (m.computeSharedSecretDhKey lib ans peer key).2.1,
      dhKeyExchangeMgr.computeSharedSecretDhKey_codes ans)

/-- Successive calls on one `dhKeyExchangeMgr`: the object after them and, for
every call in order, the status it returned and the codes returned by the
library calls it made. -/
def dhKeyExchangeMgr.calls (lib : EcdhLibrary) (m : dhKeyExchangeMgr) :
    List DhCall → dhKeyExchangeMgr × List (errorTypeKeyExchange_T × List Int)
  | [] => (m, [])
  | c :: cs =>
    (((m.call lib c).2.1.calls lib cs).1,
      ((m.call lib c).1, (m.call lib c).2.2) :: ((m.call lib c).2.1.calls lib cs).2)

/-- Answers of the library in which every call returns 0 and the private
scalar drawn is 6. -/
def ecdhOk : EcdhAnswers :=
  { mbedtls_ctr_drbg_seed := 0, mbedtls_ecp_group_load := 0, mbedtls_ecdh_gen_public := 0, d := 6
    mbedtls_mpi_lset := 0, mbedtls_mpi_read_binary := 0, mbedtls_ecdh_compute_shared := 0 }

/-- Answers of the library in which `mbedtls_ecp_group_load` returns an error
code and every other call returns 0. -/
def ecdhGroupLoadFails : EcdhAnswers :=
  { ecdhOk with mbedtls_ecp_group_load := -20096 }

/-- Some content of the storage of a `dhKeyExchangeMgr` before construction. -/
def dhKeyExchangeMgr.raw0 : dhKeyExchangeMgr :=
  { m_errorStatus := errorTypeKeyExchange_T.KEYEXCHANGE_SUCCESS
    d := 0xCD, Q_X := 0xCD, Qp_X := 0xCD, z := 0xCD }

/-! ## Life of a signature manager: the provider operations from construction
to the end of its scope -/

/-- Constructor `signMgr::signMgr(encryptedData)`: the provider operations it
invokes. -/
def signMgr.ctor_calls : List PsaCall :=
  [PsaCall.psa_crypto_init]

/-- Method `signMgr::signhash()`: the provider operations it invokes. `gen` is
the answer of `psa_generate_key(&m_attributes_sign, &m_handle)`, whose status
the method does not examine. -/
def signMgr.signhash_calls (gen : ImportAnswer) : List PsaCall :=
  [PsaCall.psa_generate_key gen.handle, PsaCall.psa_asymmetric_sign]

/-- Method `signMgr::export_PublicKey()`: the provider operation it invokes. -/
def signMgr.export_PublicKey_calls : List PsaCall :=
  [PsaCall.psa_export_public_key]

/-- Function `car_generateSignAndPubKey(signBuf, pubKeyBuf)`, and
`remote_generateSignAndPubKey` likewise: the provider operations invoked over
the life of its local object `remoteSignDataToTxd`, in order: the constructor,
`signhash()`, `export_PublicKey()`, and the end of the function, where the
object is destroyed. Class `signMgr` declares no destructor, so that no
provider operation is invoked there. -/
def car_generateSignAndPubKey_calls (gen : ImportAnswer) : List PsaCall :=
  signMgr.ctor_calls ++ signMgr.signhash_calls gen ++ signMgr.export_PublicKey_calls

/-- Method `signVerifyMgr::verifySignature()`: the provider operations it
invokes. `imp` is the answer of `psa_import_key` for the received public key. -/
def signVerifyMgr.verifySignature_calls (imp : ImportAnswer) : List PsaCall :=
  [PsaCall.psa_import_key imp.handle, PsaCall.psa_asymmetric_verify]

/-- The provider operations invoked over the life of the `signVerifyMgr` of one
pass of `CAR_VERIFY_AUTHENTICITY` (object `testObj`) or of
`REMOTE_VERIFY_AUTHENTICITY` (object `signVerifyObj`): the constructor, which
invokes none, `verifySignature()`, and the end of the block, where the object
is destroyed. Class `signVerifyMgr` declares no destructor, so that no provider
operation is invoked there. -/
def signVerifyMgr.lifecycle (imp : ImportAnswer) : List PsaCall :=
  signVerifyMgr.verifySignature_calls imp

/-! ## Ring buffer: lemmas -/

theorem ctor_inv (raw : Mem) : (CRingBuffer.ctor raw).Inv := by
  simp [CRingBuffer.ctor, CRingBuffer.Inv]

theorem read_inv (rb : CRingBuffer) (d : Byte) (h : rb.Inv) : (rb.read d).2.2.Inv := by
  unfold CRingBuffer.Inv at *
  unfold CRingBuffer.read
  split
  · simp only [UART_RB_SIZE]
    omega
  · exact h

theorem write_inv (rb : CRingBuffer) (b : Byte) (h : rb.Inv) : (rb.write b).2.Inv := by
  unfold CRingBuffer.Inv at *
  unfold CRingBuffer.write
  split
  · rename_i hlt
    simp only [UART_RB_SIZE] at hlt ⊢
    omega
  · exact h

theorem clear_inv (rb : CRingBuffer) : rb.clear.2.Inv := by
  simp [CRingBuffer.clear, CRingBuffer.Inv]

theorem rbStep_inv (rb : CRingBuffer) (d : Byte) (c : RbCall) (h : rb.Inv) :
    (rbStep rb d c).2.2.Inv := by
  cases c with
  | write b => exact write_inv rb b h
  | read => exact read_inv rb d h
  | clear => exact clear_inv rb

theorem rbRun_inv (cs : List RbCall) : ∀ rb : CRingBuffer, rb.Inv → (rbRun rb cs).Inv := by
  induction cs with
  | nil => intro rb h; exact h
  | cons c cs ih => intro rb h; exact ih _ (rbStep_inv rb 0 c h)

theorem toList_length (rb : CRingBuffer) : rb.toList.length = rb.m_fillLevel := by
  simp [CRingBuffer.toList]

theorem toList_write (rb : CRingBuffer) (b : Byte) (h : rb.Inv) (hlt : rb.m_fillLevel < 500) :
    rb.write b = (RC_RB_t.RC_SUCCESS, (rb.write b).2) ∧ (rb.write b).2.toList = rb.toList ++ [b] := by
  obtain ⟨h1, h2, h3, h4⟩ := h
  have hw : rb.write b = (RC_RB_t.RC_SUCCESS,
      { rb with
        m_pBuffer := Function.update rb.m_pBuffer rb.m_writeIdx b
        m_writeIdx := ((rb.m_writeIdx + 1) % 2 ^ 16) % UART_RB_SIZE
        m_fillLevel := (rb.m_fillLevel + 1) % 2 ^ 16 }) := by
    unfold CRingBuffer.write
    rw [if_pos (by simpa [UART_RB_SIZE] using hlt)]
  refine ⟨by rw [hw], ?_⟩
  rw [hw]
  have hf : (rb.m_fillLevel + 1) % 2 ^ 16 = rb.m_fillLevel + 1 := by omega
  simp only [CRingBuffer.toList, hf, List.range_succ, List.map_append, List.map_cons,
    List.map_nil, UART_RB_SIZE]
  congr 1
  · apply List.map_congr_left
    intro k hk
    have hk' : k < rb.m_fillLevel := List.mem_range.mp hk
    apply Function.update_noteq
    omega
  · rw [← h4, Function.update_same]

theorem toList_read (rb : CRingBuffer) (d : Byte) (h : rb.Inv) (hpos : 0 < rb.m_fillLevel) :
    (rb.read d).1 = RC_RB_t.RC_SUCCESS ∧
      rb.toList = (rb.read d).2.1 :: (rb.read d).2.2.toList := by
  obtain ⟨h1, h2, h3, h4⟩ := h
  have hr : rb.read d = (RC_RB_t.RC_SUCCESS, rb.m_pBuffer rb.m_readIdx,
      { rb with
        m_readIdx := ((rb.m_readIdx + 1) % 2 ^ 16) % UART_RB_SIZE
        m_fillLevel := rb.m_fillLevel - 1 }) := by
    unfold CRingBuffer.read
    rw [if_pos hpos]
  rw [hr]
  refine ⟨rfl, ?_⟩
  obtain ⟨n, hn⟩ : ∃ n, rb.m_fillLevel = n + 1 := ⟨rb.m_fillLevel - 1, by omega⟩
  simp only [CRingBuffer.toList, hn, List.range_succ_eq_map, List.map_cons, List.map_map,
    Nat.add_sub_cancel, UART_RB_SIZE]
  congr 1
  · congr 1; omega
  · apply List.map_congr_left
    intro k _
    simp only [Function.comp]
    congr 1
    omega

theorem toList_read_empty (rb : CRingBuffer) (d : Byte) (h0 : rb.m_fillLevel = 0) :
    rb.read d = (RC_RB_t.RC_BUFFERUNDERFLOW, d, rb) ∧ rb.toList = [] := by
  constructor
  · unfold CRingBuffer.read
    rw [if_neg (by omega)]
  · simp [CRingBuffer.toList, h0]

theorem rbStep_observe (rb : CRingBuffer) (d : Byte) (c : RbCall) (h : rb.Inv) :
    observe (rbStep rb d c) = expect (fifoStep rb.toList d c) := by
  cases c with
  | write b =>
    by_cases hlt : rb.m_fillLevel < 500
    · obtain ⟨h1, h2⟩ := toList_write rb b h hlt
      have h3 := toList_length (rb.write b).2
      have hrc : (rb.write b).1 = RC_RB_t.RC_SUCCESS := by rw [h1]
      simp only [observe, expect, rbStep, fifoStep, toList_length, if_pos hlt,
        CRingBuffer.getFillLevelOfBuffer]
      rw [← h3, h2]
      simp [hrc]
    · have hw : rb.write b = (RC_RB_t.RC_BUFFERUNDERFLOW, rb) := by
        unfold CRingBuffer.write
        rw [if_neg (by simpa [UART_RB_SIZE] using hlt)]
      simp [observe, expect, rbStep, fifoStep, toList_length, if_neg hlt, hw,
        CRingBuffer.getFillLevelOfBuffer]
  | read =>
    by_cases hpos : 0 < rb.m_fillLevel
    · obtain ⟨h1, h2⟩ := toList_read rb d h hpos
      have h3 := toList_length (rb.read d).2.2
      simp only [observe, expect, rbStep, CRingBuffer.getFillLevelOfBuffer]
      rw [h2]
      simp [h1, fifoStep, toList_length]
    · obtain ⟨h1, h2⟩ := toList_read_empty rb d (by omega)
      have h0 : rb.m_fillLevel = 0 := by omega
      simp [observe, expect, rbStep, fifoStep, h1, h2, CRingBuffer.getFillLevelOfBuffer, h0]
  | clear =>
    simp [observe, expect, rbStep, fifoStep, CRingBuffer.clear, CRingBuffer.toList,
      CRingBuffer.getFillLevelOfBuffer]

theorem rbTrace_observe (cs : List RbCall) :
    ∀ (rb : CRingBuffer) (d : Byte), rb.Inv →
      (rbTrace rb d cs).map observe = (fifoTrace rb.toList d cs).map expect := by
  induction cs with
  | nil => intro rb d _; rfl
  | cons c cs ih =>
    intro rb d h
    have hs := rbStep_observe rb d c h
    have hi := rbStep_inv rb d c h
    have hd : (rbStep rb d c).2.1 = (fifoStep rb.toList d c).2.1 := by
      have := congrArg (fun r => r.2.1) hs
      simpa [observe, expect] using this
    have hq : (rbStep rb d c).2.2.toList = (fifoStep rb.toList d c).2.2 := by
      have := congrArg (fun r => r.2.2.1) hs
      simpa [observe, expect] using this
    simp only [rbTrace, fifoTrace, List.map_cons, hs]
    rw [ih _ _ hi, hd, hq]

theorem fifoStep_length (q : List Byte) (d : Byte) (c : RbCall) (h : q.length ≤ 500) :
    (fifoStep q d c).2.2.length ≤ 500 := by
  cases c with
  | write b =>
    by_cases hlt : q.length < 500
    · simp only [fifoStep, if_pos hlt, List.length_append, List.length_singleton]
      omega
    · simp only [fifoStep, if_neg hlt]
      exact h
  | read =>
    cases q with
    | nil => simp [fifoStep]
    | cons x t =>
      simp only [fifoStep]
      simp only [List.length_cons] at h
      omega
  | clear => simp [fifoStep]

theorem fifoTrace_length (cs : List RbCall) :
    ∀ (q : List Byte) (d : Byte), q.length ≤ 500 →
      ∀ e ∈ fifoTrace q d cs, e.2.2.length ≤ 500 := by
  induction cs with
  | nil => intro q d _ e he; simp [fifoTrace] at he
  | cons c cs ih =>
    intro q d h e he
    simp only [fifoTrace, List.mem_cons] at he
    rcases he with he | he
    · rw [he]; exact fifoStep_length q d c h
    · exact ih _ _ (fifoStep_length q d c h) e he

theorem rbRun_conservation (cs : List RbCall) :
    ∀ rb : CRingBuffer, noRejected rb cs →
      (rbRun rb cs).m_fillLevel + countReads cs = rb.m_fillLevel + countWrites cs := by
  induction cs with
  | nil => intro rb _; simp [rbRun, countReads, countWrites]
  | cons c cs ih =>
    intro rb h
    cases c with
    | write b =>
      obtain ⟨h1, h2⟩ := h
      have hlt : rb.m_fillLevel < 500 := by
        simpa [CRingBuffer.getFillLevelOfBuffer, UART_RB_SIZE] using h1
      have hw : (rb.write b).2.m_fillLevel = rb.m_fillLevel + 1 := by
        unfold CRingBuffer.write
        rw [if_pos (by simpa [UART_RB_SIZE] using hlt)]
        show (rb.m_fillLevel + 1) % 2 ^ 16 = rb.m_fillLevel + 1
        omega
      have e := ih _ h2
      have cw : countWrites (RbCall.write b :: cs) = countWrites cs + 1 := by
        simp [countWrites]
      have cr : countReads (RbCall.write b :: cs) = countReads cs := by
        simp [countReads]
      show (rbRun (rb.write b).2 cs).m_fillLevel + _ = _
      rw [cw, cr]
      rw [hw] at e
      omega
    | read =>
      obtain ⟨h1, h2⟩ := h
      have hpos : 0 < rb.m_fillLevel := by
        simpa [CRingBuffer.getFillLevelOfBuffer] using h1
      have hr : ∀ d, (rb.read d).2.2.m_fillLevel = rb.m_fillLevel - 1 := by
        intro d
        unfold CRingBuffer.read
        rw [if_pos hpos]
      have e := ih _ h2
      have cw : countWrites (RbCall.read :: cs) = countWrites cs := by
        simp [countWrites]
      have cr : countReads (RbCall.read :: cs) = countReads cs + 1 := by
        simp [countReads]
      show (rbRun (rb.read 0).2.2 cs).m_fillLevel + _ = _
      rw [cw, cr]
      rw [hr] at e
      omega
    | clear => exact absurd h (by simp [noRejected])

theorem noRejected_writes (b : Byte) (k : Nat) :
    ∀ rb : CRingBuffer, rb.m_fillLevel + k ≤ 500 →
      noRejected rb (List.replicate k (RbCall.write b)) := by
  induction k with
  | zero => intro rb _; simp [noRejected]
  | succ k ih =>
    intro rb h
    have hlt : rb.m_fillLevel < 500 := by omega
    have hw : (rb.write b).2.m_fillLevel = rb.m_fillLevel + 1 := by
      unfold CRingBuffer.write
      rw [if_pos (by simpa [UART_RB_SIZE] using hlt)]
      show (rb.m_fillLevel + 1) % 2 ^ 16 = rb.m_fillLevel + 1
      omega
    refine ⟨by simpa [CRingBuffer.getFillLevelOfBuffer, UART_RB_SIZE] using hlt, ?_⟩
    apply ih
    rw [hw]
    omega

theorem countWrites_replicate (b : Byte) (k : Nat) :
    countWrites (List.replicate k (RbCall.write b)) = k ∧
      countReads (List.replicate k (RbCall.write b)) = 0 := by
  induction k with
  | zero => simp [countWrites, countReads]
  | succ k ih =>
    obtain ⟨h1, h2⟩ := ih
    simp only [countWrites, countReads] at h1 h2
    simp [countWrites, countReads, List.replicate_succ, List.countP_cons, h1, h2]

theorem fullBuffer_fillLevel : fullBuffer.m_fillLevel = 500 := by
  have h := rbRun_conservation (List.replicate 500 (RbCall.write 0x41))
    (CRingBuffer.ctor (fun _ => 0)) (noRejected_writes _ 500 _ (by simp [CRingBuffer.ctor]))
  obtain ⟨h1, h2⟩ := countWrites_replicate 0x41 500
  have h0 : (CRingBuffer.ctor (fun _ => 0)).m_fillLevel = 0 := rfl
  rw [h1, h2, h0] at h
  unfold fullBuffer
  omega

/-! ## Frame parser: lemmas -/

theorem read_of_pos (rb : CRingBuffer) (d : Byte) (h : 0 < rb.m_fillLevel) :
    rb.read d = (RC_RB_t.RC_SUCCESS, rb.m_pBuffer rb.m_readIdx,
      { rb with
        m_readIdx := ((rb.m_readIdx + 1) % 2 ^ 16) % UART_RB_SIZE
        m_fillLevel := rb.m_fillLevel - 1 }) := by
  unfold CRingBuffer.read
  rw [if_pos h]

theorem read_of_zero (rb : CRingBuffer) (d : Byte) (h : rb.m_fillLevel = 0) :
    rb.read d = (RC_RB_t.RC_BUFFERUNDERFLOW, d, rb) :=
  (toList_read_empty rb d h).1

theorem carRxStep_poll_pos (N : Nat) (sys : CarRxSys) (h : 0 < sys.uartRxBuf.m_fillLevel) :
    carRxStep N sys LinkEvent.poll =
      ({ uartRxBuf := (sys.uartRxBuf.read 0).2.2
         statics := (car_rxData_switch
           { sys.statics with ch := sys.uartRxBuf.m_pBuffer sys.uartRxBuf.m_readIdx }
           sys.myData N).2.1
         myData := (car_rxData_switch
           { sys.statics with ch := sys.uartRxBuf.m_pBuffer sys.uartRxBuf.m_readIdx }
           sys.myData N).2.2 },
       [{ consumed := some (sys.uartRxBuf.m_pBuffer sys.uartRxBuf.m_readIdx)
          result := (car_rxData_switch
            { sys.statics with ch := sys.uartRxBuf.m_pBuffer sys.uartRxBuf.m_readIdx }
            sys.myData N).1 }]) := by
  simp [carRxStep, car_rxData, nextByte, read_of_pos _ _ h]

theorem carRxStep_poll_zero (N : Nat) (sys : CarRxSys) (h : sys.uartRxBuf.m_fillLevel = 0) :
    carRxStep N sys LinkEvent.poll = (sys, [{ consumed := none, result := false }]) := by
  simp [carRxStep, car_rxData, nextByte, read_of_zero _ _ h]

theorem carRxFeed_append (N : Nat) (a b : List Byte) :
    ∀ (s : CarRxStatics) (m : Mem),
      carRxFeed N s m (a ++ b) =
        ((carRxFeed N s m a).1 ++
            (carRxFeed N (carRxFeed N s m a).2.1 (carRxFeed N s m a).2.2 b).1,
          (carRxFeed N (carRxFeed N s m a).2.1 (carRxFeed N s m a).2.2 b).2.1,
          (carRxFeed N (carRxFeed N s m a).2.1 (carRxFeed N s m a).2.2 b).2.2) := by
  induction a with
  | nil => intro s m; simp [carRxFeed]
  | cons x t ih => intro s m; simp [carRxFeed, ih]

theorem consumedBytes_append (a b : List PollLog) :
    consumedBytes (a ++ b) = consumedBytes a ++ consumedBytes b := by
  simp [consumedBytes]

theorem consumingResults_append (a b : List PollLog) :
    consumingResults (a ++ b) = consumingResults a ++ consumingResults b := by
  simp [consumingResults]

theorem carRxStep_feed (N : Nat) (sys : CarRxSys) (e : LinkEvent) (bs : List Byte) :
    carRxFeed N sys.statics sys.myData (consumedBytes (carRxStep N sys e).2 ++ bs) =
        (consumingResults (carRxStep N sys e).2 ++
            (carRxFeed N (carRxStep N sys e).1.statics (carRxStep N sys e).1.myData bs).1,
          (carRxFeed N (carRxStep N sys e).1.statics (carRxStep N sys e).1.myData bs).2.1,
          (carRxFeed N (carRxStep N sys e).1.statics (carRxStep N sys e).1.myData bs).2.2) ∧
      ∀ l ∈ (carRxStep N sys e).2, l.consumed = none → l.result = false := by
  cases e with
  | rx b => simp [carRxStep, consumedBytes, consumingResults]
  | poll =>
    by_cases hpos : 0 < sys.uartRxBuf.m_fillLevel
    · rw [carRxStep_poll_pos N sys hpos]
      simp [consumedBytes, consumingResults, carRxFeed]
    · rw [carRxStep_poll_zero N sys (by omega)]
      simp [consumedBytes, consumingResults]

theorem carRxRun_feed (N : Nat) (evs : List LinkEvent) :
    ∀ sys : CarRxSys,
      carRxFeed N sys.statics sys.myData (consumedBytes (carRxRun N sys evs).2) =
          (consumingResults (carRxRun N sys evs).2, (carRxRun N sys evs).1.statics,
            (carRxRun N sys evs).1.myData) ∧
        ∀ e ∈ (carRxRun N sys evs).2, e.consumed = none → e.result = false := by
  induction evs with
  | nil => intro sys; simp [carRxRun, consumedBytes, consumingResults, carRxFeed]
  | cons e es ih =>
    intro sys
    obtain ⟨h1, h2⟩ := ih (carRxStep N sys e).1
    obtain ⟨h3, h4⟩ := carRxStep_feed N sys e (consumedBytes (carRxRun N (carRxStep N sys e).1 es).2)
    have hrun : carRxRun N sys (e :: es) =
        ((carRxRun N (carRxStep N sys e).1 es).1,
          (carRxStep N sys e).2 ++ (carRxRun N (carRxStep N sys e).1 es).2) := rfl
    rw [hrun]
    constructor
    · simp only [consumedBytes_append, consumingResults_append]
      rw [h3, h1]
    · intro l hl hn
      rcases List.mem_append.mp hl with hl | hl
      · exact h4 l hl hn
      · exact h2 l hl hn

theorem range_map_update (m : Mem) (i : Nat) (x : Byte) :
    (List.range (i + 1)).map (Function.update m i x) = (List.range i).map m ++ [x] := by
  rw [List.range_succ, List.map_append]
  congr 1
  · apply List.map_congr_left
    intro k hk
    have hk' : k < i := List.mem_range.mp hk
    exact Function.update_noteq (by omega) _ _
  · simp

theorem carRxFeed_cons (N : Nat) (s : CarRxStatics) (m : Mem) (b : Byte) (bs : List Byte) :
    carRxFeed N s m (b :: bs) =
      ((car_rxData_switch { s with ch := b } m N).1 ::
          (carRxFeed N (car_rxData_switch { s with ch := b } m N).2.1
            (car_rxData_switch { s with ch := b } m N).2.2 bs).1,
        (carRxFeed N (car_rxData_switch { s with ch := b } m N).2.1
          (car_rxData_switch { s with ch := b } m N).2.2 bs).2.1,
        (carRxFeed N (car_rxData_switch { s with ch := b } m N).2.1
          (car_rxData_switch { s with ch := b } m N).2.2 bs).2.2) := rfl

theorem switch_sop (N i : Nat) (b : Byte) (m : Mem) :
    car_rxData_switch ⟨i, b, car_rxStates_t.CAR_RX_SOP⟩ m N =
      (false, ⟨i, b, if b = CAR_PROTOCOL_SOF then car_rxStates_t.CAR_RX_DATA
        else car_rxStates_t.CAR_RX_SOP⟩, m) := by
  by_cases h : b = CAR_PROTOCOL_SOF
  · simp [car_rxData_switch, h]
  · simp [car_rxData_switch, h]

theorem switch_data_last (N i : Nat) (b : Byte) (m : Mem) (h : (i + 1) % 2 ^ 32 = N) :
    car_rxData_switch ⟨i, b, car_rxStates_t.CAR_RX_DATA⟩ m N =
      (false, ⟨0, b, car_rxStates_t.CAR_RX_EOP1⟩, Function.update m i b) := by
  show (if (i + 1) % 2 ^ 32 = N then _ else _) = _
  rw [if_pos h]

theorem switch_data_more (N i : Nat) (b : Byte) (m : Mem) (h : (i + 1) % 2 ^ 32 ≠ N) :
    car_rxData_switch ⟨i, b, car_rxStates_t.CAR_RX_DATA⟩ m N =
      (false, ⟨(i + 1) % 2 ^ 32, b, car_rxStates_t.CAR_RX_DATA⟩, Function.update m i b) := by
  show (if (i + 1) % 2 ^ 32 = N then _ else _) = _
  rw [if_neg h]

theorem switch_eop1 (N i : Nat) (b : Byte) (m : Mem) :
    car_rxData_switch ⟨i, b, car_rxStates_t.CAR_RX_EOP1⟩ m N =
      (false, ⟨i, b, if b = CAR_PROTOCOL_EOP1 then car_rxStates_t.CAR_RX_EOP2
        else car_rxStates_t.CAR_RX_SOP⟩, m) := by
  by_cases h : b = CAR_PROTOCOL_EOP1
  · simp [car_rxData_switch, h]
  · simp [car_rxData_switch, h]

theorem switch_eop2 (N i : Nat) (b : Byte) (m : Mem) :
    car_rxData_switch ⟨i, b, car_rxStates_t.CAR_RX_EOP2⟩ m N =
      (decide (b = CAR_PROTOCOL_EOP2), ⟨i, b, car_rxStates_t.CAR_RX_SOP⟩, m) := by
  by_cases h : b = CAR_PROTOCOL_EOP2
  · simp [car_rxData_switch, h]
  · simp [car_rxData_switch, h]

theorem replicate_false_snoc (n : Nat) (l : List Bool) :
    false :: (List.replicate n false ++ l) = List.replicate (n + 1) false ++ l := by
  simp [List.replicate_succ]

theorem replicate_false_shift (n : Nat) (l : List Bool) :
    List.replicate n false ++ false :: l = List.replicate (n + 1) false ++ l := by
  rw [List.replicate_succ']
  simp

theorem carRxFeed_garbage (N : Nat) (g : List Byte) :
    ∀ (i : Nat) (c : Byte) (m : Mem), (∀ b ∈ g, b ≠ CAR_PROTOCOL_SOF) →
      ∃ c', carRxFeed N ⟨i, c, car_rxStates_t.CAR_RX_SOP⟩ m g =
        (List.replicate g.length false, ⟨i, c', car_rxStates_t.CAR_RX_SOP⟩, m) := by
  induction g with
  | nil => intro i c m _; exact ⟨c, rfl⟩
  | cons b t ih =>
    intro i c m hg
    have hb : b ≠ CAR_PROTOCOL_SOF := hg b (List.mem_cons_self _ _)
    obtain ⟨c', hc'⟩ := ih i b m (fun x hx => hg x (List.mem_cons_of_mem _ hx))
    refine ⟨c', ?_⟩
    rw [carRxFeed_cons]
    have hs : car_rxData_switch ⟨i, b, car_rxStates_t.CAR_RX_SOP⟩ m N =
        (false, ⟨i, b, car_rxStates_t.CAR_RX_SOP⟩, m) := by
      rw [switch_sop, if_neg hb]
    show (((car_rxData_switch ⟨i, b, car_rxStates_t.CAR_RX_SOP⟩ m N).1 :: _, _, _) :
      List Bool × CarRxStatics × Mem) = _
    rw [hs]
    simp only []
    rw [hc']
    rfl

theorem carRxFeed_data (N : Nat) (hN : N < 2 ^ 32) (d : List Byte) :
    ∀ (i : Nat) (c : Byte) (m : Mem), d ≠ [] → i + d.length = N →
      ∃ c' m', carRxFeed N ⟨i, c, car_rxStates_t.CAR_RX_DATA⟩ m d =
          (List.replicate d.length false, ⟨0, c', car_rxStates_t.CAR_RX_EOP1⟩, m') ∧
        (List.range N).map m' = (List.range i).map m ++ d := by
  induction d with
  | nil => intro i c m h _; exact absurd rfl h
  | cons x t ih =>
    intro i c m _ hlen
    simp only [List.length_cons] at hlen
    have hmod : (i + 1) % 2 ^ 32 = i + 1 := Nat.mod_eq_of_lt (by omega)
    by_cases ht : t = []
    · subst ht
      simp only [List.length_nil] at hlen
      refine ⟨x, Function.update m i x, ?_, ?_⟩
      · have hs := switch_data_last N i x m (by omega)
        show (((car_rxData_switch ⟨i, x, car_rxStates_t.CAR_RX_DATA⟩ m N).1 :: _, _, _) :
          List Bool × CarRxStatics × Mem) = _
        rw [hs]
        rfl
      · rw [← hlen]
        exact range_map_update m i x
    · have hne : i + 1 ≠ N := by
        have : 0 < t.length := List.length_pos.mpr ht
        omega
      obtain ⟨c', m', h1, h2⟩ := ih (i + 1) x (Function.update m i x) ht (by omega)
      refine ⟨c', m', ?_, ?_⟩
      · have hs := switch_data_more N i x m (by omega)
        rw [hmod] at hs
        show (((car_rxData_switch ⟨i, x, car_rxStates_t.CAR_RX_DATA⟩ m N).1 :: _, _, _) :
          List Bool × CarRxStatics × Mem) = _
        rw [hs]
        simp only []
        rw [h1]
        rfl
      · rw [h2, range_map_update]
        simp

theorem carRxFeed_frame (N : Nat) (h1 : 1 ≤ N) (hN : N < 2 ^ 32) (P : List Byte)
    (hP : P.length = N) (c : Byte) (m : Mem) :
    ∃ c' m', carRxFeed N ⟨0, c, car_rxStates_t.CAR_RX_SOP⟩ m (frameBytes P) =
        (List.replicate (N + 2) false ++ [true], ⟨0, c', car_rxStates_t.CAR_RX_SOP⟩, m') ∧
      (List.range N).map m' = P := by
  have hne : P ≠ [] := by
    intro h
    rw [h] at hP
    simp at hP
    omega
  obtain ⟨c', m', h2, h3⟩ :=
    carRxFeed_data N hN P 0 CAR_PROTOCOL_SOF m hne (by omega)
  refine ⟨CAR_PROTOCOL_EOP2, m', ?_, by simpa using h3⟩
  have hf : frameBytes P = CAR_PROTOCOL_SOF :: (P ++ [CAR_PROTOCOL_EOP1, CAR_PROTOCOL_EOP2]) := by
    simp [frameBytes]
  rw [hf, carRxFeed_cons, carRxFeed_append]
  have hs : car_rxData_switch ⟨0, CAR_PROTOCOL_SOF, car_rxStates_t.CAR_RX_SOP⟩ m N =
      (false, ⟨0, CAR_PROTOCOL_SOF, car_rxStates_t.CAR_RX_DATA⟩, m) := by
    rw [switch_sop, if_pos rfl]
  show (((car_rxData_switch ⟨0, CAR_PROTOCOL_SOF, car_rxStates_t.CAR_RX_SOP⟩ m N).1 :: _, _, _) :
    List Bool × CarRxStatics × Mem) = _
  rw [hs]
  simp only []
  rw [h2]
  simp only [carRxFeed_cons, carRxFeed, switch_eop1, switch_eop2, if_true, hP]
  rw [replicate_false_snoc, replicate_false_shift]
  simp [CAR_PROTOCOL_EOP2]

theorem carRxFeed_reject1 (N : Nat) (h1 : 1 ≤ N) (hN : N < 2 ^ 32) (Q : List Byte)
    (hQ : Q.length = N) (x : Byte) (hx : x ≠ CAR_PROTOCOL_EOP1) (c : Byte) (m : Mem) :
    ∃ c' m', carRxFeed N ⟨0, c, car_rxStates_t.CAR_RX_SOP⟩ m ([CAR_PROTOCOL_SOF] ++ Q ++ [x]) =
        (List.replicate (N + 2) false, ⟨0, c', car_rxStates_t.CAR_RX_SOP⟩, m') := by
  have hne : Q ≠ [] := by
    intro h
    rw [h] at hQ
    simp at hQ
    omega
  obtain ⟨c', m', h2, _⟩ :=
    carRxFeed_data N hN Q 0 CAR_PROTOCOL_SOF m hne (by omega)
  refine ⟨x, m', ?_⟩
  have hf : [CAR_PROTOCOL_SOF] ++ Q ++ [x] = CAR_PROTOCOL_SOF :: (Q ++ [x]) := by simp
  rw [hf, carRxFeed_cons, carRxFeed_append]
  have hs : car_rxData_switch ⟨0, CAR_PROTOCOL_SOF, car_rxStates_t.CAR_RX_SOP⟩ m N =
      (false, ⟨0, CAR_PROTOCOL_SOF, car_rxStates_t.CAR_RX_DATA⟩, m) := by
    rw [switch_sop, if_pos rfl]
  show (((car_rxData_switch ⟨0, CAR_PROTOCOL_SOF, car_rxStates_t.CAR_RX_SOP⟩ m N).1 :: _, _, _) :
    List Bool × CarRxStatics × Mem) = _
  rw [hs]
  simp only []
  rw [h2]
  simp only [carRxFeed_cons, carRxFeed, switch_eop1, if_neg hx, hQ]
  rw [replicate_false_snoc, replicate_false_shift]
  simp

theorem carRxFeed_reject2 (N : Nat) (h1 : 1 ≤ N) (hN : N < 2 ^ 32) (Q : List Byte)
    (hQ : Q.length = N) (y : Byte) (hy : y ≠ CAR_PROTOCOL_EOP2) (c : Byte) (m : Mem) :
    ∃ c' m', carRxFeed N ⟨0, c, car_rxStates_t.CAR_RX_SOP⟩ m
          ([CAR_PROTOCOL_SOF] ++ Q ++ [CAR_PROTOCOL_EOP1, y]) =
        (List.replicate (N + 3) false, ⟨0, c', car_rxStates_t.CAR_RX_SOP⟩, m') := by
  have hne : Q ≠ [] := by
    intro h
    rw [h] at hQ
    simp at hQ
    omega
  obtain ⟨c', m', h2, _⟩ :=
    carRxFeed_data N hN Q 0 CAR_PROTOCOL_SOF m hne (by omega)
  refine ⟨y, m', ?_⟩
  have hf : [CAR_PROTOCOL_SOF] ++ Q ++ [CAR_PROTOCOL_EOP1, y] =
      CAR_PROTOCOL_SOF :: (Q ++ [CAR_PROTOCOL_EOP1, y]) := by simp
  rw [hf, carRxFeed_cons, carRxFeed_append]
  have hs : car_rxData_switch ⟨0, CAR_PROTOCOL_SOF, car_rxStates_t.CAR_RX_SOP⟩ m N =
      (false, ⟨0, CAR_PROTOCOL_SOF, car_rxStates_t.CAR_RX_DATA⟩, m) := by
    rw [switch_sop, if_pos rfl]
  show (((car_rxData_switch ⟨0, CAR_PROTOCOL_SOF, car_rxStates_t.CAR_RX_SOP⟩ m N).1 :: _, _, _) :
    List Bool × CarRxStatics × Mem) = _
  rw [hs]
  simp only []
  rw [h2]
  simp only [carRxFeed_cons, carRxFeed, switch_eop1, switch_eop2, if_true, hQ]
  rw [replicate_false_snoc, replicate_false_shift]
  have hd : decide (y = CAR_PROTOCOL_EOP2) = false := by simp [hy]
  rw [hd, ← List.replicate_succ']

theorem rxInv_step (N : Nat) (h1 : 1 ≤ N) (hN : N < 2 ^ 32) (s : CarRxStatics) (m : Mem)
    (l : List Byte) (b : Byte) (h : rxInv N s m l) :
    rxInv N (car_rxData_switch { s with ch := b } m N).2.1
        (car_rxData_switch { s with ch := b } m N).2.2 (l ++ [b]) ∧
      ((car_rxData_switch { s with ch := b } m N).1 = true →
        ∃ pre, l ++ [b] =
          pre ++ frameBytes ((List.range N).map (car_rxData_switch { s with ch := b } m N).2.2)) := by
  obtain ⟨i, c, st⟩ := s
  cases st with
  | CAR_RX_SOP =>
    have hi : i = 0 := h
    subst hi
    show rxInv N (car_rxData_switch ⟨0, b, car_rxStates_t.CAR_RX_SOP⟩ m N).2.1
        (car_rxData_switch ⟨0, b, car_rxStates_t.CAR_RX_SOP⟩ m N).2.2 (l ++ [b]) ∧
      ((car_rxData_switch ⟨0, b, car_rxStates_t.CAR_RX_SOP⟩ m N).1 = true → _)
    rw [switch_sop]
    refine ⟨?_, fun hf => absurd hf (by simp)⟩
    by_cases hb : b = CAR_PROTOCOL_SOF
    · simp only [if_pos hb]
      exact ⟨by show 0 < N; omega, l, by simp [hb]⟩
    · simp only [if_neg hb]
      rfl
  | CAR_RX_DATA =>
    obtain ⟨hi, pre, hl⟩ : i < N ∧ ∃ pre, l = pre ++ [CAR_PROTOCOL_SOF] ++ (List.range i).map m := h
    have hmod : (i + 1) % 2 ^ 32 = i + 1 := Nat.mod_eq_of_lt (by omega)
    show rxInv N (car_rxData_switch ⟨i, b, car_rxStates_t.CAR_RX_DATA⟩ m N).2.1
        (car_rxData_switch ⟨i, b, car_rxStates_t.CAR_RX_DATA⟩ m N).2.2 (l ++ [b]) ∧
      ((car_rxData_switch ⟨i, b, car_rxStates_t.CAR_RX_DATA⟩ m N).1 = true → _)
    by_cases hlast : i + 1 = N
    · rw [switch_data_last N i b m (by omega)]
      refine ⟨?_, fun hf => absurd hf (by simp)⟩
      refine ⟨rfl, pre, ?_⟩
      show l ++ [b] = pre ++ [CAR_PROTOCOL_SOF] ++ (List.range N).map (Function.update m i b)
      rw [← hlast, range_map_update, hl]
      simp
    · rw [switch_data_more N i b m (by omega), hmod]
      refine ⟨?_, fun hf => absurd hf (by simp)⟩
      refine ⟨by show i + 1 < N; omega, pre, ?_⟩
      show l ++ [b] = pre ++ [CAR_PROTOCOL_SOF] ++ (List.range (i + 1)).map (Function.update m i b)
      rw [range_map_update, hl]
      simp
  | CAR_RX_EOP1 =>
    obtain ⟨hi, pre, hl⟩ : i = 0 ∧ ∃ pre, l = pre ++ [CAR_PROTOCOL_SOF] ++ (List.range N).map m := h
    subst hi
    show rxInv N (car_rxData_switch ⟨0, b, car_rxStates_t.CAR_RX_EOP1⟩ m N).2.1
        (car_rxData_switch ⟨0, b, car_rxStates_t.CAR_RX_EOP1⟩ m N).2.2 (l ++ [b]) ∧
      ((car_rxData_switch ⟨0, b, car_rxStates_t.CAR_RX_EOP1⟩ m N).1 = true → _)
    rw [switch_eop1]
    refine ⟨?_, fun hf => absurd hf (by simp)⟩
    by_cases hb : b = CAR_PROTOCOL_EOP1
    · simp only [if_pos hb]
      exact ⟨rfl, pre, by rw [hl, hb]⟩
    · simp only [if_neg hb]
      rfl
  | CAR_RX_EOP2 =>
    obtain ⟨hi, pre, hl⟩ : i = 0 ∧ ∃ pre,
      l = pre ++ [CAR_PROTOCOL_SOF] ++ (List.range N).map m ++ [CAR_PROTOCOL_EOP1] := h
    subst hi
    show rxInv N (car_rxData_switch ⟨0, b, car_rxStates_t.CAR_RX_EOP2⟩ m N).2.1
        (car_rxData_switch ⟨0, b, car_rxStates_t.CAR_RX_EOP2⟩ m N).2.2 (l ++ [b]) ∧
      ((car_rxData_switch ⟨0, b, car_rxStates_t.CAR_RX_EOP2⟩ m N).1 = true → _)
    rw [switch_eop2]
    refine ⟨rfl, fun hf => ⟨pre, ?_⟩⟩
    have hb : b = CAR_PROTOCOL_EOP2 := by simpa using hf
    rw [hl, hb]
    simp [frameBytes]

theorem rxInv_feed (N : Nat) (h1 : 1 ≤ N) (hN : N < 2 ^ 32) (bs : List Byte) :
    ∀ (s : CarRxStatics) (m : Mem) (l : List Byte), rxInv N s m l →
      rxInv N (carRxFeed N s m bs).2.1 (carRxFeed N s m bs).2.2 (l ++ bs) ∧
        ((carRxFeed N s m bs).1.getLast? = some true →
          ∃ pre, l ++ bs = pre ++ frameBytes ((List.range N).map (carRxFeed N s m bs).2.2)) := by
  induction bs with
  | nil =>
    intro s m l h
    refine ⟨by simpa [carRxFeed] using h, fun hf => ?_⟩
    simp [carRxFeed] at hf
  | cons b t ih =>
    intro s m l h
    obtain ⟨hs1, hs2⟩ := rxInv_step N h1 hN s m l b h
    obtain ⟨ih1, ih2⟩ := ih _ _ _ hs1
    rw [carRxFeed_cons]
    have happ : l ++ b :: t = l ++ [b] ++ t := by simp
    rw [happ]
    refine ⟨ih1, fun hf => ?_⟩
    cases t with
    | nil =>
      simp only [carRxFeed, List.getLast?_singleton, Option.some.injEq] at hf
      simpa [carRxFeed] using hs2 hf
    | cons b2 t2 =>
      apply ih2
      rw [carRxFeed_cons] at hf ⊢
      simpa [List.getLast?_cons_cons] using hf

theorem car_copyPayload_apply (inp o : Mem) (k j : Nat) :
    car_copyPayload inp o k j = if 1 ≤ j ∧ j ≤ k then inp (j - 1) else o j := by
  induction k with
  | zero =>
    have hj : ¬ (1 ≤ j ∧ j ≤ 0) := by omega
    rw [if_neg hj]
    rfl
  | succ k ih =>
    simp only [car_copyPayload, Function.update_apply, ih]
    by_cases h : j = k + 1
    · subst h
      simp
    · rw [if_neg h]
      by_cases h2 : 1 ≤ j ∧ j ≤ k
      · rw [if_pos h2, if_pos (by omega)]
      · rw [if_neg h2, if_neg (by omega)]

theorem car_createtxPacket_spec (inp out0 : Mem) (n : Nat) :
    car_createtxPacket inp out0 n 0 = CAR_PROTOCOL_SOF ∧
      (∀ i, i < n → car_createtxPacket inp out0 n (i + 1) = inp i) ∧
      car_createtxPacket inp out0 n (n + 1) = CAR_PROTOCOL_EOP1 ∧
      car_createtxPacket inp out0 n (n + 2) = CAR_PROTOCOL_EOP2 ∧
      ∀ j, n + 3 ≤ j → car_createtxPacket inp out0 n j = out0 j := by
  have hn : (n : Int).toNat = n := Int.toNat_ofNat n
  refine ⟨?_, ?_, ?_, ?_, ?_⟩
  · simp [car_createtxPacket, hn, Function.update_apply, car_copyPayload_apply]
  · intro i hi
    simp only [car_createtxPacket, hn, Function.update_apply, car_copyPayload_apply]
    rw [if_neg (by omega), if_neg (by omega), if_pos (by omega)]
    simp
  · simp [car_createtxPacket, hn, Function.update_apply, car_copyPayload_apply]
  · simp [car_createtxPacket, hn, Function.update_apply, car_copyPayload_apply]
  · intro j hj
    simp only [car_createtxPacket, hn, Function.update_apply, car_copyPayload_apply]
    rw [if_neg (by omega), if_neg (by omega), if_neg (by omega), if_neg (by omega)]

theorem car_createtxPacket_frame (inp out0 : Mem) (n : Nat) :
    (List.range (n + 3)).map (car_createtxPacket inp out0 n) =
      frameBytes ((List.range n).map inp) := by
  obtain ⟨h0, h1, h2, h3, _⟩ := car_createtxPacket_spec inp out0 n
  have hr : List.range (n + 3) = 0 :: ((List.range n).map Nat.succ ++ [n + 1, n + 2]) := by
    rw [show n + 3 = (n + 1 + 1) + 1 from rfl, List.range_succ, List.range_succ,
      List.range_succ_eq_map]
    simp
  rw [hr]
  simp only [List.map_cons, List.map_append, List.map_map, List.map_nil, frameBytes, h0, h2, h3,
    List.singleton_append, List.cons_append, List.nil_append]
  congr 2
  apply List.map_congr_left
  intro i hi
  exact h1 i (List.mem_range.mp hi)

theorem read_of_toList_cons (rb : CRingBuffer) (d x : Byte) (t : List Byte) (h : rb.Inv)
    (hq : rb.toList = x :: t) :
    ∃ rb1, rb.read d = (RC_RB_t.RC_SUCCESS, x, rb1) ∧ rb1.Inv ∧ rb1.toList = t ∧
      0 < rb.m_fillLevel ∧ rb.m_pBuffer rb.m_readIdx = x ∧ (rb.read 0).2.2 = rb1 := by
  have hpos : 0 < rb.m_fillLevel := by
    rw [← toList_length, hq]
    simp
  obtain ⟨_, h2⟩ := toList_read rb d h hpos
  have hinv := read_inv rb d h
  have hr := read_of_pos rb d hpos
  have hr0 := read_of_pos rb 0 hpos
  rw [hq, hr] at h2
  simp only [List.cons.injEq] at h2
  obtain ⟨hx, ht⟩ := h2
  rw [hr] at hinv
  rw [hr, hr0, ← hx]
  exact ⟨_, rfl, hinv, ht.symm, hpos, rfl, rfl⟩

theorem carRxRun_polls (N : Nat) (l : List Byte) :
    ∀ sys : CarRxSys, sys.uartRxBuf.Inv → sys.uartRxBuf.toList = l →
      consumedBytes (carRxRun N sys (List.replicate l.length LinkEvent.poll)).2 = l ∧
        (carRxRun N sys (List.replicate l.length LinkEvent.poll)).2.map PollLog.result =
          consumingResults (carRxRun N sys (List.replicate l.length LinkEvent.poll)).2 ∧
        (carRxRun N sys (List.replicate l.length LinkEvent.poll)).1.uartRxBuf.toList = [] := by
  induction l with
  | nil =>
    intro sys _ hq
    simp [carRxRun, consumedBytes, consumingResults, hq]
  | cons x t ih =>
    intro sys hinv hq
    obtain ⟨rb1, _, hinv1, hq1, hpos, hx, hrb⟩ := read_of_toList_cons _ 0 x t hinv hq
    have hs := carRxStep_poll_pos N sys hpos
    rw [hx, hrb] at hs
    have hrun : carRxRun N sys (List.replicate (x :: t).length LinkEvent.poll) =
        ((carRxRun N (carRxStep N sys LinkEvent.poll).1
            (List.replicate t.length LinkEvent.poll)).1,
          (carRxStep N sys LinkEvent.poll).2 ++
            (carRxRun N (carRxStep N sys LinkEvent.poll).1
              (List.replicate t.length LinkEvent.poll)).2) := rfl
    rw [hrun]
    obtain ⟨i1, i2, i3⟩ := ih (carRxStep N sys LinkEvent.poll).1
      (by rw [hs]; exact hinv1) (by rw [hs]; exact hq1)
    refine ⟨?_, ?_, i3⟩
    · rw [consumedBytes_append, i1, hs]
      simp [consumedBytes]
    · rw [consumingResults_append, List.map_append, i2, hs]
      simp [consumingResults]

/-! ## Ring buffer: results -/

/-- C4: the ring buffer is a FIFO queue of capacity 500. For every sequence of
`write`, `read` and `clear` calls on a newly constructed buffer, what each
call returns and leaves behind (success flag, byte handed to the caller,
queued bytes, reported fill level) is what the same call does on a list that
starts empty and never holds more than 500 bytes. -/
theorem ringbuffer_refines_fifo (raw : Mem) (d : Byte) (calls : List RbCall) :
    (rbTrace (CRingBuffer.ctor raw) d calls).map observe =
        (fifoTrace [] d calls).map expect ∧
      ∀ e ∈ fifoTrace [] d calls, e.2.2.length ≤ 500 := by
  constructor
  · have h := rbTrace_observe calls (CRingBuffer.ctor raw) d (ctor_inv raw)
    have h0 : (CRingBuffer.ctor raw).toList = [] := by
      simp [CRingBuffer.toList, CRingBuffer.ctor]
    rw [h0] at h
    exact h
  · exact fifoTrace_length calls [] d (by simp)

/-- C5: every state reachable from the constructor by `read`, `write` and
`clear` calls has a fill level between 0 and 500, both indices below 500 and
the write index equal to (read index + fill level) mod 500. -/
theorem ringbuffer_invariant (raw : Mem) (calls : List RbCall) :
    0 ≤ (rbRun (CRingBuffer.ctor raw) calls).m_fillLevel ∧
      (rbRun (CRingBuffer.ctor raw) calls).m_fillLevel ≤ 500 ∧
      (rbRun (CRingBuffer.ctor raw) calls).m_readIdx < 500 ∧
      (rbRun (CRingBuffer.ctor raw) calls).m_writeIdx < 500 ∧
      (rbRun (CRingBuffer.ctor raw) calls).m_writeIdx =
        ((rbRun (CRingBuffer.ctor raw) calls).m_readIdx +
          (rbRun (CRingBuffer.ctor raw) calls).m_fillLevel) % 500 :=
  ⟨Nat.zero_le _, rbRun_inv calls _ (ctor_inv raw)⟩

/-- C6: starting from a newly constructed buffer, after a sequence of writes
and reads in which no write is made to a full buffer and no read to an empty
one, the fill level equals the number of writes minus the number of reads. -/
theorem ringbuffer_conservation (raw : Mem) (calls : List RbCall)
    (h : noRejected (CRingBuffer.ctor raw) calls) :
    countReads calls ≤ countWrites calls ∧
      (rbRun (CRingBuffer.ctor raw) calls).getFillLevelOfBuffer =
        countWrites calls - countReads calls := by
  have h1 := rbRun_conservation calls (CRingBuffer.ctor raw) h
  have h0 : (CRingBuffer.ctor raw).m_fillLevel = 0 := rfl
  rw [h0] at h1
  simp only [CRingBuffer.getFillLevelOfBuffer]
  omega

/-- Witness for C6: two writes and one read leave one byte queued. -/
theorem ringbuffer_conservation_witness :
    noRejected (CRingBuffer.ctor (fun _ => 0))
        [RbCall.write 1, RbCall.write 2, RbCall.read] ∧
      (rbRun (CRingBuffer.ctor (fun _ => 0))
        [RbCall.write 1, RbCall.write 2, RbCall.read]).getFillLevelOfBuffer = 2 - 1 :=
  ⟨⟨by decide, by decide, by decide, trivial⟩,
    (ringbuffer_conservation (fun _ => 0) [RbCall.write 1, RbCall.write 2, RbCall.read]
      ⟨by decide, by decide, by decide, trivial⟩).2⟩

/-- Counterexample to C7 as stated: a write to a full buffer (fill level 500,
reached by 500 writes to a new buffer) returns `RC_BUFFERUNDERFLOW`, not
`RC_BUFFEROVERFLOW`; a write below capacity returns `RC_SUCCESS`. -/
theorem write_full_returns_underflow :
    fullBuffer.getFillLevelOfBuffer = 500 ∧
      (fullBuffer.write 0x42).1 = RC_RB_t.RC_BUFFERUNDERFLOW ∧
      (fullBuffer.write 0x42).1 ≠ RC_RB_t.RC_BUFFEROVERFLOW ∧
      (emptyBuffer.write 0x42).1 = RC_RB_t.RC_SUCCESS := by
  have h := fullBuffer_fillLevel
  have hw : (fullBuffer.write 0x42).1 = RC_RB_t.RC_BUFFERUNDERFLOW := by
    unfold CRingBuffer.write
    rw [if_neg (by rw [h]; decide)]
  refine ⟨h, hw, ?_, rfl⟩
  rw [hw]
  decide

/-- C7: `CRingBuffer::write` returns `RC_SUCCESS` when the fill level is below
500, and it signals the rejected write by returning `RC_BUFFERUNDERFLOW`, the
failure code that its documentation names, when the buffer is full (fill
level 500, or any fill level not below 500). No write returns
`RC_BUFFEROVERFLOW`. -/
theorem write_signals_rejection (rb : CRingBuffer) (data : Byte) :
    (rb.getFillLevelOfBuffer < 500 → (rb.write data).1 = RC_RB_t.RC_SUCCESS) ∧
      (500 ≤ rb.getFillLevelOfBuffer → (rb.write data).1 = RC_RB_t.RC_BUFFERUNDERFLOW) ∧
      (rb.write data).1 ≠ RC_RB_t.RC_BUFFEROVERFLOW := by
  by_cases h : rb.m_fillLevel < UART_RB_SIZE
  · have hw : (rb.write data).1 = RC_RB_t.RC_SUCCESS := by
      unfold CRingBuffer.write
      rw [if_pos h]
    refine ⟨fun _ => hw, fun h5 => ?_, by rw [hw]; decide⟩
    simp only [CRingBuffer.getFillLevelOfBuffer, UART_RB_SIZE] at h h5
    omega
  · have hw : (rb.write data).1 = RC_RB_t.RC_BUFFERUNDERFLOW := by
      unfold CRingBuffer.write
      rw [if_neg h]
    refine ⟨fun h5 => ?_, fun _ => hw, by rw [hw]; decide⟩
    simp only [CRingBuffer.getFillLevelOfBuffer, UART_RB_SIZE] at h h5
    omega

/-- Witness for C7: the write to a new buffer succeeds, the write to the buffer
filled by 500 writes returns `RC_BUFFERUNDERFLOW`. -/
theorem write_signals_rejection_witness :
    (emptyBuffer.getFillLevelOfBuffer < 500 ∧ 500 ≤ fullBuffer.getFillLevelOfBuffer) ∧
      (emptyBuffer.write 0x42).1 = RC_RB_t.RC_SUCCESS ∧
      (fullBuffer.write 0x42).1 = RC_RB_t.RC_BUFFERUNDERFLOW :=
  ⟨⟨by decide, le_of_eq fullBuffer_fillLevel.symm⟩,
    (write_signals_rejection emptyBuffer 0x42).1 (by decide),
    (write_signals_rejection fullBuffer 0x42).2.1 (le_of_eq fullBuffer_fillLevel.symm)⟩

/-- C8: rejected operations are atomic. A write to a full buffer is not
successful and returns the buffer as it was (stored bytes, both indices and
fill level); a read from an empty buffer returns `RC_BUFFERUNDERFLOW` and
leaves the buffer and the caller's output byte as they were. -/
theorem rejected_operations_atomic (rb : CRingBuffer) (b d : Byte) :
    (rb.getFillLevelOfBuffer = 500 →
        (rb.write b).1 ≠ RC_RB_t.RC_SUCCESS ∧ (rb.write b).2 = rb) ∧
      (rb.getFillLevelOfBuffer = 0 →
        rb.read d = (RC_RB_t.RC_BUFFERUNDERFLOW, d, rb)) := by
  constructor
  · intro h
    have hw : rb.write b = (RC_RB_t.RC_BUFFERUNDERFLOW, rb) := by
      unfold CRingBuffer.write
      rw [if_neg (by simp [CRingBuffer.getFillLevelOfBuffer] at h; rw [h]; decide)]
    rw [hw]
    exact ⟨by simp, rfl⟩
  · intro h
    exact (toList_read_empty rb d h).1

/-- Witness for C8: the full buffer rejects a write and the empty buffer
rejects a read, both without any change. -/
theorem rejected_operations_atomic_witness :
    (fullBuffer.getFillLevelOfBuffer = 500 ∧ (fullBuffer.write 0x42).2 = fullBuffer) ∧
      (emptyBuffer.getFillLevelOfBuffer = 0 ∧
        emptyBuffer.read 7 = (RC_RB_t.RC_BUFFERUNDERFLOW, 7, emptyBuffer)) :=
  ⟨⟨fullBuffer_fillLevel,
      ((rejected_operations_atomic fullBuffer 0x42 0).1 fullBuffer_fillLevel).2⟩,
    ⟨rfl, (rejected_operations_atomic emptyBuffer 0 7).2 rfl⟩⟩

/-! ## Frame codec: results -/

set_option maxRecDepth 100000

theorem remote_copyPayload_eq (inp o : Mem) (k : Nat) :
    remote_copyPayload inp o k = car_copyPayload inp o k := by
  induction k with
  | zero => rfl
  | succ k ih => simp [remote_copyPayload, car_copyPayload, ih]

theorem remote_createtxPacket_eq (inp out0 : Mem) (length : Int) :
    remote_createtxPacket inp out0 length = car_createtxPacket inp out0 length := by
  simp [remote_createtxPacket, car_createtxPacket, remote_copyPayload_eq, REMOTE_PROTOCOL_SOF,
    REMOTE_PROTOCOL_EOP1, REMOTE_PROTOCOL_EOP2, CAR_PROTOCOL_SOF, CAR_PROTOCOL_EOP1,
    CAR_PROTOCOL_EOP2]

/-- C1: frame round trip. For a payload of `n ≥ 1` arbitrary bytes, when the
parser is in `CAR_RX_SOP` with index 0 and the ring buffer holds exactly the
`n + 3` bytes written by `car_createtxPacket`, `n + 3` successive calls of
`car_rxData` return false `n + 2` times and then true; afterwards the caller's
buffer holds the payload at indices `0..n-1`, the parser is back in
`CAR_RX_SOP` with index 0 and the ring buffer is empty. -/
theorem frame_round_trip (n : Nat) (hn : 1 ≤ n) (payload out0 buf : Mem) (c : Byte)
    (rb : CRingBuffer) (hinv : rb.Inv)
    (hq : rb.toList = (List.range (n + 3)).map (car_createtxPacket payload out0 n)) :
    (car_rxData_calls n ⟨rb, ⟨0, c, car_rxStates_t.CAR_RX_SOP⟩, buf⟩ (n + 3)).2.map
          PollLog.result = List.replicate (n + 2) false ++ [true] ∧
      (∀ i, i < n →
        (car_rxData_calls n ⟨rb, ⟨0, c, car_rxStates_t.CAR_RX_SOP⟩, buf⟩ (n + 3)).1.myData i =
          payload i) ∧
      (car_rxData_calls n ⟨rb, ⟨0, c, car_rxStates_t.CAR_RX_SOP⟩, buf⟩ (n + 3)).1.statics.state =
        car_rxStates_t.CAR_RX_SOP ∧
      (car_rxData_calls n ⟨rb, ⟨0, c, car_rxStates_t.CAR_RX_SOP⟩, buf⟩ (n + 3)).1.statics.dataIdx =
        0 ∧
      (car_rxData_calls n ⟨rb, ⟨0, c, car_rxStates_t.CAR_RX_SOP⟩, buf⟩
        (n + 3)).1.uartRxBuf.toList = [] := by
  have hlen : n + 3 ≤ 500 := by
    have h := toList_length rb
    rw [hq] at h
    simp only [List.length_map, List.length_range] at h
    have := hinv.1
    omega
  have hN : n < 2 ^ 32 := by omega
  rw [car_createtxPacket_frame] at hq
  have hfl : (frameBytes ((List.range n).map payload)).length = n + 3 := by
    simp [frameBytes]
  have hp := carRxRun_polls n (frameBytes ((List.range n).map payload))
    ⟨rb, ⟨0, c, car_rxStates_t.CAR_RX_SOP⟩, buf⟩ hinv hq
  rw [hfl] at hp
  obtain ⟨hp1, hp2, hp3⟩ := hp
  have hA := (carRxRun_feed n (List.replicate (n + 3) LinkEvent.poll)
    ⟨rb, ⟨0, c, car_rxStates_t.CAR_RX_SOP⟩, buf⟩).1
  rw [hp1] at hA
  obtain ⟨c', m', hf1, hf2⟩ := carRxFeed_frame n hn hN ((List.range n).map payload)
    (by simp) c buf
  rw [hf1] at hA
  simp only [Prod.mk.injEq] at hA
  obtain ⟨hA1, hA2, hA3⟩ := hA
  unfold car_rxData_calls
  refine ⟨by rw [hp2, ← hA1], ?_, by rw [← hA2], by rw [← hA2], hp3⟩
  intro i hi
  rw [← hA3]
  exact (List.map_inj_left.mp hf2) i (List.mem_range.mpr hi)

/-- Witness for C1: the payload `0x24 0x40` (two marker values) makes the
round trip. -/
theorem frame_round_trip_witness :
    (1 ≤ 2 ∧ frameBuffer.Inv ∧
        frameBuffer.toList = (List.range (2 + 3)).map
          (car_createtxPacket (fun i => if i = 0 then 0x24 else 0x40) (fun _ => 0) 2)) ∧
      (car_rxData_calls 2 ⟨frameBuffer, ⟨0, 0, car_rxStates_t.CAR_RX_SOP⟩, fun _ => 0⟩
        (2 + 3)).2.map PollLog.result = List.replicate (2 + 2) false ++ [true] :=
  ⟨⟨by decide, by decide, by decide⟩,
    (frame_round_trip 2 (by decide) (fun i => if i = 0 then 0x24 else 0x40) (fun _ => 0)
      (fun _ => 0) 0 frameBuffer (by decide) (by decide)).1⟩

/-- C2: no partial frame is delivered. With a fixed expected length `N ≥ 1`
and the parser started in its initial state, for every sequence of arriving
bytes and parser calls, whenever a call of `car_rxData` returns true the bytes
consumed so far end with `0x24`, `N` payload bytes, `0x40`, `0x23`, and the
caller's buffer holds exactly these payload bytes at indices `0..N-1`. -/
theorem no_partial_frame (N : Nat) (h1 : 1 ≤ N) (hN : N < 2 ^ 32) (rb : CRingBuffer)
    (buf : Mem) (evs : List LinkEvent) (log : List PollLog) (c : Option Byte)
    (hlast : (carRxRun N (CarRxSys.init rb buf) evs).2 = log ++ [⟨c, true⟩]) :
    ∃ pre P, P.length = N ∧
      consumedBytes (carRxRun N (CarRxSys.init rb buf) evs).2 = pre ++ frameBytes P ∧
      (List.range N).map (carRxRun N (CarRxSys.init rb buf) evs).1.myData = P := by
  obtain ⟨hA, hB⟩ := carRxRun_feed N evs (CarRxSys.init rb buf)
  have hc : c ≠ none := by
    intro hc
    have := hB ⟨c, true⟩ (by rw [hlast]; simp) hc
    simp at this
  obtain ⟨x, hx⟩ := Option.ne_none_iff_exists'.mp hc
  have hres : (consumingResults (carRxRun N (CarRxSys.init rb buf) evs).2).getLast? =
      some true := by
    rw [hlast, consumingResults_append, hx]
    simp [consumingResults]
  have hinit : rxInv N (CarRxSys.init rb buf).statics (CarRxSys.init rb buf).myData [] := rfl
  obtain ⟨_, h2⟩ := rxInv_feed N h1 hN
    (consumedBytes (carRxRun N (CarRxSys.init rb buf) evs).2) _ _ [] hinit
  rw [hA] at h2
  obtain ⟨pre, hpre⟩ := h2 hres
  exact ⟨pre, _, by simp, by simpa using hpre, rfl⟩

/-- Witness for C2: the frame `0x24 0x41 0x42 0x40 0x23` fed byte by byte to a
parser expecting two payload bytes; the fifth call returns true. -/
theorem no_partial_frame_witness :
    (1 ≤ 2 ∧ 2 < 2 ^ 32 ∧
        (carRxRun 2 (CarRxSys.init emptyBuffer (fun _ => 0))
          (feedEvents [0x24, 0x41, 0x42, 0x40, 0x23])).2 =
          [⟨some 0x24, false⟩, ⟨some 0x41, false⟩, ⟨some 0x42, false⟩, ⟨some 0x40, false⟩] ++
            [⟨some 0x23, true⟩]) ∧
      ∃ pre P, P.length = 2 ∧
        consumedBytes (carRxRun 2 (CarRxSys.init emptyBuffer (fun _ => 0))
          (feedEvents [0x24, 0x41, 0x42, 0x40, 0x23])).2 = pre ++ frameBytes P ∧
        (List.range 2).map (carRxRun 2 (CarRxSys.init emptyBuffer (fun _ => 0))
          (feedEvents [0x24, 0x41, 0x42, 0x40, 0x23])).1.myData = P :=
  ⟨⟨by decide, by decide, by decide⟩,
    no_partial_frame 2 (by decide) (by decide) emptyBuffer (fun _ => 0)
      (feedEvents [0x24, 0x41, 0x42, 0x40, 0x23])
      [⟨some 0x24, false⟩, ⟨some 0x41, false⟩, ⟨some 0x42, false⟩, ⟨some 0x40, false⟩]
      (some 0x23) (by decide)⟩

/-- C3: resynchronisation. For `N ≥ 1`, when the bytes consumed by a parser
started in its initial state are a rejected candidate, then garbage bytes none
of which is `0x24`, then a well-formed frame with an `N`-byte payload `P`, the
parser returns true exactly once, on the last byte of that frame (false on
every earlier byte and on every call that found the ring buffer empty), and
the caller's buffer then holds `P` at indices `0..N-1`. -/
theorem resynchronisation (N : Nat) (h1 : 1 ≤ N) (hN : N < 2 ^ 32) (rb : CRingBuffer)
    (buf : Mem) (evs : List LinkEvent) (cand garbage P : List Byte)
    (hcand : isRejectedCandidate N cand) (hg : ∀ b ∈ garbage, b ≠ CAR_PROTOCOL_SOF)
    (hP : P.length = N)
    (hfed : consumedBytes (carRxRun N (CarRxSys.init rb buf) evs).2 =
      cand ++ garbage ++ frameBytes P) :
    consumingResults (carRxRun N (CarRxSys.init rb buf) evs).2 =
        List.replicate (cand.length + garbage.length + (N + 2)) false ++ [true] ∧
      (∀ e ∈ (carRxRun N (CarRxSys.init rb buf) evs).2, e.consumed = none → e.result = false) ∧
      (List.range N).map (carRxRun N (CarRxSys.init rb buf) evs).1.myData = P ∧
      (carRxRun N (CarRxSys.init rb buf) evs).1.statics.state = car_rxStates_t.CAR_RX_SOP := by
  obtain ⟨hA, hB⟩ := carRxRun_feed N evs (CarRxSys.init rb buf)
  rw [hfed, List.append_assoc, carRxFeed_append, carRxFeed_append] at hA
  have hcf : ∃ c1 m1, carRxFeed N (CarRxSys.init rb buf).statics (CarRxSys.init rb buf).myData
      cand = (List.replicate cand.length false, ⟨0, c1, car_rxStates_t.CAR_RX_SOP⟩, m1) := by
    obtain ⟨Q, hQ, hcase⟩ := hcand
    rcases hcase with ⟨x, hx, hc⟩ | ⟨y, hy, hc⟩
    · obtain ⟨c1, m1, h⟩ := carRxFeed_reject1 N h1 hN Q hQ x hx 0 buf
      refine ⟨c1, m1, ?_⟩
      have hl : cand.length = N + 2 := by rw [hc]; simp [hQ]
      rw [hl, hc]
      exact h
    · obtain ⟨c1, m1, h⟩ := carRxFeed_reject2 N h1 hN Q hQ y hy 0 buf
      refine ⟨c1, m1, ?_⟩
      have hl : cand.length = N + 3 := by rw [hc]; simp [hQ]
      rw [hl, hc]
      exact h
  obtain ⟨c1, m1, hc1⟩ := hcf
  obtain ⟨c2, hc2⟩ := carRxFeed_garbage N garbage 0 c1 m1 hg
  obtain ⟨c3, m3, hc3, hm3⟩ := carRxFeed_frame N h1 hN P hP c2 m1
  rw [hc1] at hA
  simp only [] at hA
  rw [hc2] at hA
  simp only [] at hA
  rw [hc3] at hA
  simp only [Prod.mk.injEq] at hA
  obtain ⟨hA1, hA2, hA3⟩ := hA
  refine ⟨?_, hB, by rw [← hA3]; exact hm3, by rw [← hA2]⟩
  rw [← hA1, ← List.append_assoc, ← List.append_assoc, List.append_replicate_replicate,
    List.append_replicate_replicate]

/-- Witness for C3: `N = 2`, the rejected candidate `'$' 0x41 0x41 '@' 'X'`,
the garbage byte `'#'`, then the frame with payload `0x42 0x43`. -/
theorem resynchronisation_witness :
    (isRejectedCandidate 2 [0x24, 0x41, 0x41, 0x40, 0x58] ∧
        (∀ b ∈ [(0x23 : Byte)], b ≠ CAR_PROTOCOL_SOF) ∧
        consumedBytes (carRxRun 2 (CarRxSys.init emptyBuffer (fun _ => 0))
          (feedEvents ([0x24, 0x41, 0x41, 0x40, 0x58] ++ [0x23] ++ frameBytes [0x42, 0x43]))).2 =
          [0x24, 0x41, 0x41, 0x40, 0x58] ++ [0x23] ++ frameBytes [0x42, 0x43]) ∧
      consumingResults (carRxRun 2 (CarRxSys.init emptyBuffer (fun _ => 0))
          (feedEvents ([0x24, 0x41, 0x41, 0x40, 0x58] ++ [0x23] ++ frameBytes [0x42, 0x43]))).2 =
        List.replicate (5 + 1 + (2 + 2)) false ++ [true] ∧
      (List.range 2).map (carRxRun 2 (CarRxSys.init emptyBuffer (fun _ => 0))
          (feedEvents ([0x24, 0x41, 0x41, 0x40, 0x58] ++ [0x23] ++
            frameBytes [0x42, 0x43]))).1.myData = [0x42, 0x43] :=
  ⟨⟨⟨[0x41, 0x41], rfl, Or.inr ⟨0x58, by decide, rfl⟩⟩, by decide, by decide⟩,
    (resynchronisation 2 (by decide) (by decide) emptyBuffer (fun _ => 0)
      (feedEvents ([0x24, 0x41, 0x41, 0x40, 0x58] ++ [0x23] ++ frameBytes [0x42, 0x43]))
      [0x24, 0x41, 0x41, 0x40, 0x58] [0x23] [0x42, 0x43]
      ⟨[0x41, 0x41], rfl, Or.inr ⟨0x58, by decide, rfl⟩⟩ (by decide) rfl (by decide)).1,
    (resynchronisation 2 (by decide) (by decide) emptyBuffer (fun _ => 0)
      (feedEvents ([0x24, 0x41, 0x41, 0x40, 0x58] ++ [0x23] ++ frameBytes [0x42, 0x43]))
      [0x24, 0x41, 0x41, 0x40, 0x58] [0x23] [0x42, 0x43]
      ⟨[0x41, 0x41], rfl, Or.inr ⟨0x58, by decide, rfl⟩⟩ (by decide) rfl (by decide)).2.2.1⟩

/-- C9: frame building. For every payload and every length `n ≥ 0`,
`car_createtxPacket` and `remote_createtxPacket` leave `0x24` at index 0, the
payload byte `i` at index `i + 1` for `i < n`, `0x40` at index `n + 1` and
`0x23` at index `n + 2`, and leave every index from `n + 3` on as it was. -/
theorem frame_building (inputBuffer outputBuffer : Mem) (n : Nat) :
    (car_createtxPacket inputBuffer outputBuffer n 0 = 0x24 ∧
        (∀ i, i < n → car_createtxPacket inputBuffer outputBuffer n (i + 1) = inputBuffer i) ∧
        car_createtxPacket inputBuffer outputBuffer n (n + 1) = 0x40 ∧
        car_createtxPacket inputBuffer outputBuffer n (n + 2) = 0x23 ∧
        ∀ j, n + 3 ≤ j → car_createtxPacket inputBuffer outputBuffer n j = outputBuffer j) ∧
      (remote_createtxPacket inputBuffer outputBuffer n 0 = 0x24 ∧
        (∀ i, i < n →
          remote_createtxPacket inputBuffer outputBuffer n (i + 1) = inputBuffer i) ∧
        remote_createtxPacket inputBuffer outputBuffer n (n + 1) = 0x40 ∧
        remote_createtxPacket inputBuffer outputBuffer n (n + 2) = 0x23 ∧
        ∀ j, n + 3 ≤ j → remote_createtxPacket inputBuffer outputBuffer n j = outputBuffer j) := by
  rw [remote_createtxPacket_eq]
  exact ⟨car_createtxPacket_spec inputBuffer outputBuffer n,
    car_createtxPacket_spec inputBuffer outputBuffer n⟩

/-- Witness for C9: with a two-byte payload, index 2 receives the second
payload byte and index 5 is left untouched. -/
theorem frame_building_witness :
    (1 < 2 ∧ 2 + 3 ≤ 5) ∧
      car_createtxPacket (fun i => if i = 0 then 0x41 else 0x42) (fun _ => 0xFF) 2 (1 + 1) =
        (fun i => if i = 0 then 0x41 else 0x42) 1 ∧
      car_createtxPacket (fun i => if i = 0 then 0x41 else 0x42) (fun _ => 0xFF) 2 5 =
        (fun _ => 0xFF) 5 :=
  ⟨⟨by decide, by decide⟩,
    (frame_building (fun i => if i = 0 then 0x41 else 0x42) (fun _ => 0xFF) 2).1.2.1 1
      (by decide),
    (frame_building (fun i => if i = 0 then 0x41 else 0x42) (fun _ => 0xFF) 2).1.2.2.2.2 5
      (by decide)⟩

/-- C10: ack round trip. `car_SendAck` emits exactly the bytes `0x24`, `0x2A`,
`0x25` in this order; a ring buffer holding these three bytes makes three
successive calls of `car_CheckAckRxd`, and of `remote_checkAckRxd`, started in
the initial state return false, false, true and end in the initial state with
the ring buffer empty. -/
theorem ack_round_trip (car : RawSerial) (c : Byte) (rb : CRingBuffer) (hinv : rb.Inv)
    (hq : rb.toList = (car_SendAck ⟨[]⟩).txd) :
    (car_SendAck car).txd = car.txd ++ [0x24, 0x2A, 0x25] ∧
      (car_CheckAckRxd_calls ⟨c, car_rxAckStates_t.CAR_RX_ACK_SOP⟩ rb 3).1 =
        [false, false, true] ∧
      (car_CheckAckRxd_calls ⟨c, car_rxAckStates_t.CAR_RX_ACK_SOP⟩ rb 3).2.1.state =
        car_rxAckStates_t.CAR_RX_ACK_SOP ∧
      (car_CheckAckRxd_calls ⟨c, car_rxAckStates_t.CAR_RX_ACK_SOP⟩ rb 3).2.2.toList = [] ∧
      (remote_checkAckRxd_calls ⟨c, remote_rxAckStates_t.REMOTE_RX_ACK_SOP⟩ rb 3).1 =
        [false, false, true] ∧
      (remote_checkAckRxd_calls ⟨c, remote_rxAckStates_t.REMOTE_RX_ACK_SOP⟩ rb 3).2.1.state =
        remote_rxAckStates_t.REMOTE_RX_ACK_SOP ∧
      (remote_checkAckRxd_calls ⟨c, remote_rxAckStates_t.REMOTE_RX_ACK_SOP⟩ rb 3).2.2.toList =
        [] := by
  have hq' : rb.toList = [0x24, 0x2A, 0x25] := hq
  obtain ⟨rb1, hr1, hinv1, hq1, _, _, _⟩ := read_of_toList_cons rb c _ _ hinv hq'
  obtain ⟨rb2, hr2, hinv2, hq2, _, _, _⟩ := read_of_toList_cons rb1 0x24 _ _ hinv1 hq1
  obtain ⟨rb3, hr3, _, hq3, _, _, _⟩ := read_of_toList_cons rb2 0x2A _ _ hinv2 hq2
  have e1 : car_CheckAckRxd ⟨c, car_rxAckStates_t.CAR_RX_ACK_SOP⟩ rb =
      (false, ⟨0x24, car_rxAckStates_t.CAR_RX_ACK_BYTE1⟩, rb1) := by
    simp [car_CheckAckRxd, hr1, CAR_PROTOCOL_SOF]
  have e2 : car_CheckAckRxd ⟨0x24, car_rxAckStates_t.CAR_RX_ACK_BYTE1⟩ rb1 =
      (false, ⟨0x2A, car_rxAckStates_t.CAR_RX_ACK_BYTE2⟩, rb2) := by
    simp [car_CheckAckRxd, hr2, CAR_POS_ACK_BYTE_1]
  have e3 : car_CheckAckRxd ⟨0x2A, car_rxAckStates_t.CAR_RX_ACK_BYTE2⟩ rb2 =
      (true, ⟨0x25, car_rxAckStates_t.CAR_RX_ACK_SOP⟩, rb3) := by
    simp [car_CheckAckRxd, hr3, CAR_POS_ACK_BYTE_2]
  have f1 : remote_checkAckRxd ⟨c, remote_rxAckStates_t.REMOTE_RX_ACK_SOP⟩ rb =
      (false, ⟨0x24, remote_rxAckStates_t.REMOTE_RX_ACK_BYTE1⟩, rb1) := by
    simp [remote_checkAckRxd, hr1, REMOTE_PROTOCOL_SOF]
  have f2 : remote_checkAckRxd ⟨0x24, remote_rxAckStates_t.REMOTE_RX_ACK_BYTE1⟩ rb1 =
      (false, ⟨0x2A, remote_rxAckStates_t.REMOTE_RX_ACK_BYTE2⟩, rb2) := by
    simp [remote_checkAckRxd, hr2, REMOTE_POS_ACK_BYTE_1]
  have f3 : remote_checkAckRxd ⟨0x2A, remote_rxAckStates_t.REMOTE_RX_ACK_BYTE2⟩ rb2 =
      (true, ⟨0x25, remote_rxAckStates_t.REMOTE_RX_ACK_SOP⟩, rb3) := by
    simp [remote_checkAckRxd, hr3, REMOTE_POS_ACK_BYTE_2]
  refine ⟨by simp [car_SendAck, RawSerial.putc, CAR_PROTOCOL_SOF, CAR_POS_ACK_BYTE_1,
    CAR_POS_ACK_BYTE_2], ?_, ?_, ?_, ?_, ?_, ?_⟩ <;>
  simp [car_CheckAckRxd_calls, remote_checkAckRxd_calls, e1, e2, e3, f1, f2, f3, hq3]

/-- Witness for C10: the three bytes emitted by `car_SendAck`, written to a
new ring buffer, are recognised on the third call. -/
theorem ack_round_trip_witness :
    (ackBuffer.Inv ∧ ackBuffer.toList = (car_SendAck ⟨[]⟩).txd) ∧
      (car_CheckAckRxd_calls ⟨0, car_rxAckStates_t.CAR_RX_ACK_SOP⟩ ackBuffer 3).1 =
        [false, false, true] :=
  ⟨⟨by decide, by decide⟩, (ack_round_trip ⟨[]⟩ 0 ackBuffer (by decide) (by decide)).2.1⟩

/-! ## Send-side byte pump: results -/

theorem car_SendDataByte_calls_below (buffer : Mem) (L : Nat) (ws : List Bool) :
    ∀ (k : Nat) (car : RawSerial), k + ws.count true < L →
      car_SendDataByte_calls buffer L (k : Int) car ws =
        (List.replicate ws.length false, ((k + ws.count true : Nat) : Int),
          ⟨car.txd ++ (List.range' k (ws.count true)).map buffer⟩) := by
  induction ws with
  | nil => intro k car _; simp [car_SendDataByte_calls]
  | cons w ws ih =>
    intro k car h
    cases w with
    | false =>
      simp only [List.count_cons, Bool.false_eq_true, beq_iff_eq, if_false, Nat.add_zero] at h ⊢
      have e : car_SendDataByte (k : Int) buffer L false car = (false, (k : Int), car) := rfl
      simp only [car_SendDataByte_calls, e, ih k car h, List.length_cons, List.replicate_succ]
    | true =>
      simp only [List.count_cons, beq_self_eq_true, if_true] at h ⊢
      have hne : ¬ ((k : Int) + 1 = (L : Int)) := by omega
      have e : car_SendDataByte (k : Int) buffer L true car =
          (false, ((k + 1 : Nat) : Int), car.putc (buffer k)) := by
        simp [car_SendDataByte, hne]
      have h' : k + 1 + ws.count true < L := by omega
      simp only [car_SendDataByte_calls, e, ih (k + 1) _ h', List.length_cons,
        List.replicate_succ, RawSerial.putc, List.range'_succ, List.map_cons,
        List.append_assoc, List.singleton_append]
      rw [show k + 1 + List.count true ws = k + (List.count true ws + 1) by omega]

theorem car_SendDataByte_calls_append (buffer : Mem) (L : Nat) (a b : List Bool) :
    ∀ (idx : Int) (car : RawSerial),
      car_SendDataByte_calls buffer L idx car (a ++ b) =
        ((car_SendDataByte_calls buffer L idx car a).1 ++
            (car_SendDataByte_calls buffer L (car_SendDataByte_calls buffer L idx car a).2.1
              (car_SendDataByte_calls buffer L idx car a).2.2 b).1,
          (car_SendDataByte_calls buffer L (car_SendDataByte_calls buffer L idx car a).2.1
            (car_SendDataByte_calls buffer L idx car a).2.2 b).2) := by
  induction a with
  | nil => intro idx car; simp [car_SendDataByte_calls]
  | cons w ws ih => intro idx car; simp [car_SendDataByte_calls, ih]

/-- C11: send-side byte pump. For every length `L` (in particular
`1 ≤ L ≤ 255`) and every sequence of transport-readiness values: each call of
`car_SendDataByte` emits at most one byte; a call made while the transport is
not writable emits nothing, keeps the cursor and returns false; starting from
cursor 0, while fewer than `L` bytes have been emitted every call returned
false and the bytes emitted are `buffer[0], buffer[1], ...` in order; the call
that emits the `L`-th byte returns true and resets the cursor to 0, after
`buffer[0..L-1]` were emitted in order. `remote_sendDataByte` is the same
function. -/
theorem send_byte_pump (L : Nat) (buffer : Mem) (car : RawSerial) :
    (∀ (idx : Int) (w : Bool) (c : RawSerial),
        (car_SendDataByte idx buffer L w c).2.2.txd = c.txd ∨
          (car_SendDataByte idx buffer L w c).2.2.txd = c.txd ++ [buffer idx.toNat]) ∧
      (∀ (idx : Int) (c : RawSerial), car_SendDataByte idx buffer L false c = (false, idx, c)) ∧
      (∀ ws : List Bool, ws.count true < L →
        car_SendDataByte_calls buffer L 0 car ws =
          (List.replicate ws.length false, ((ws.count true : Nat) : Int),
            ⟨car.txd ++ (List.range (ws.count true)).map buffer⟩)) ∧
      (∀ ws : List Bool, ws.count true + 1 = L →
        car_SendDataByte_calls buffer L 0 car (ws ++ [true]) =
          (List.replicate ws.length false ++ [true], 0,
            ⟨car.txd ++ (List.range L).map buffer⟩)) ∧
      (∀ (idx : Int) (w : Bool) (c : RawSerial),
        remote_sendDataByte idx buffer L w c = car_SendDataByte idx buffer L w c) := by
  have hbelow : ∀ ws : List Bool, ws.count true < L →
      car_SendDataByte_calls buffer L 0 car ws =
        (List.replicate ws.length false, ((ws.count true : Nat) : Int),
          ⟨car.txd ++ (List.range (ws.count true)).map buffer⟩) := by
    intro ws h
    have := car_SendDataByte_calls_below buffer L ws 0 car (by omega)
    simpa [List.range_eq_range'] using this
  refine ⟨?_, fun idx c => rfl, hbelow, ?_, fun idx w c => rfl⟩
  · intro idx w c
    cases w with
    | false => exact Or.inl rfl
    | true =>
      right
      by_cases h : idx + 1 = (L : Int)
      · simp [car_SendDataByte, h, RawSerial.putc]
      · simp [car_SendDataByte, h, RawSerial.putc]
  · intro ws h
    rw [car_SendDataByte_calls_append, hbelow ws (by omega)]
    have hlast : ((ws.count true : Nat) : Int) + 1 = (L : Int) := by omega
    have hn : ((ws.count true : Nat) : Int).toNat = ws.count true := Int.toNat_ofNat _
    simp only [car_SendDataByte_calls, car_SendDataByte, if_true, hlast, hn, RawSerial.putc]
    rw [← h, List.range_succ, List.map_append]
    simp

/-- Witness for C11: with `L = 3` and the readiness values ready, busy, ready,
two bytes are out and the call that emits the third byte returns true. -/
theorem send_byte_pump_witness :
    [true, false, true].count true + 1 = 3 ∧
      car_SendDataByte_calls (fun i => Fin.ofNat i) 3 0 ⟨[]⟩ ([true, false, true] ++ [true]) =
        (List.replicate [true, false, true].length false ++ [true], 0,
          ⟨[] ++ (List.range 3).map (fun i => Fin.ofNat i)⟩) :=
  ⟨by decide,
    (send_byte_pump 3 (fun i => Fin.ofNat i) ⟨[]⟩).2.2.2.1 [true, false, true] (by decide)⟩

/-! ## Cipher managers: results -/

theorem encryptMgr_ctor_padding_size (raw : encryptMgr) (n : Nat) (imp : ImportAnswer) :
    (encryptMgr.ctor raw n typeOfEncryptAlgo_t.ENCRYPT_CBC_WITH_PADDING imp).1.m_sizeOfCipherText =
      (n + 16 - n % 16) % 2 ^ 16 := by
  by_cases h : imp.status = PSA_SUCCESS
  · simp [encryptMgr.ctor, encryptMgr.initializeEncryptionServices,
      encryptMgr.calculateBlockSize, encryptMgr.setEncryptionAlgo,
      encryptMgr.calculateSizeOfCipherText, encryptMgr.createKeyHandleForEncryption,
      PSA_BLOCK_CIPHER_BLOCK_SIZE_AES, AES_BLOCK_SIZE_SUPPORTED_BY_HW, h]
  · have h' : ¬ PSA_SUCCESS = imp.status := fun e => h e.symm
    simp [encryptMgr.ctor, encryptMgr.initializeEncryptionServices,
      encryptMgr.calculateBlockSize, encryptMgr.setEncryptionAlgo,
      encryptMgr.calculateSizeOfCipherText, encryptMgr.createKeyHandleForEncryption,
      PSA_BLOCK_CIPHER_BLOCK_SIZE_AES, AES_BLOCK_SIZE_SUPPORTED_BY_HW, h']

theorem encryptMgr_ctor_no_padding_fail (raw : encryptMgr) (n : Nat) (imp : ImportAnswer)
    (hn : n % 16 ≠ 0) :
    encryptMgr.ctor raw n typeOfEncryptAlgo_t.ENCRYPT_CBC_NO_PADDING imp =
      ({ raw with
          m_sizeOfPlainText := n
          m_algoType := typeOfEncryptAlgo_t.ENCRYPT_CBC_NO_PADDING
          m_blockSize := 16
          m_algSupportedByPSA := psa_algorithm_t.PSA_ALG_CBC_NO_PADDING
          m_sizeOfCipherText := 0
          m_errorStatus := errorTypeEncrypt_t.ENCRYPT_PADDING_FAIL }, []) := by
  simp [encryptMgr.ctor, encryptMgr.initializeEncryptionServices,
    encryptMgr.calculateBlockSize, encryptMgr.setEncryptionAlgo,
    encryptMgr.calculateSizeOfCipherText, PSA_BLOCK_CIPHER_BLOCK_SIZE_AES,
    AES_BLOCK_SIZE_SUPPORTED_BY_HW, hn]

/-- Counterexample to C16 as stated: for the plaintext length 65520 the
computed ciphertext length is 0, not 65520 + 16 - (65520 mod 16) = 65536. -/
theorem pkcs7_size_wraps :
    (encryptMgr.ctor encryptMgr.raw0 65520 typeOfEncryptAlgo_t.ENCRYPT_CBC_WITH_PADDING
        importOk).1.m_sizeOfCipherText = 0 ∧
      (encryptMgr.ctor encryptMgr.raw0 65520 typeOfEncryptAlgo_t.ENCRYPT_CBC_WITH_PADDING
        importOk).1.m_sizeOfCipherText ≠ 65520 + 16 - 65520 % 16 := by
  decide

/-- C16 (amended): PKCS7 padding arithmetic. For every plaintext length
`n ≤ 65519`, in `ENCRYPT_CBC_WITH_PADDING` mode the ciphertext length computed
at construction equals `n + 16 - (n mod 16)`, the smallest multiple of 16
strictly greater than `n`; for `65520 ≤ n ≤ 65535` the `uint16_t` member wraps
and the computed length is 0. -/
theorem pkcs7_size (raw : encryptMgr) (n : Nat) (imp : ImportAnswer) :
    (n ≤ 65519 →
        (encryptMgr.ctor raw n typeOfEncryptAlgo_t.ENCRYPT_CBC_WITH_PADDING
          imp).1.m_sizeOfCipherText = n + 16 - n % 16 ∧
        (encryptMgr.ctor raw n typeOfEncryptAlgo_t.ENCRYPT_CBC_WITH_PADDING
          imp).1.m_sizeOfCipherText % 16 = 0 ∧
        n < (encryptMgr.ctor raw n typeOfEncryptAlgo_t.ENCRYPT_CBC_WITH_PADDING
          imp).1.m_sizeOfCipherText ∧
        (encryptMgr.ctor raw n typeOfEncryptAlgo_t.ENCRYPT_CBC_WITH_PADDING
          imp).1.m_sizeOfCipherText ≤ n + 16) ∧
      (65520 ≤ n → n ≤ 65535 →
        (encryptMgr.ctor raw n typeOfEncryptAlgo_t.ENCRYPT_CBC_WITH_PADDING
          imp).1.m_sizeOfCipherText = 0) := by
  rw [encryptMgr_ctor_padding_size]
  constructor
  · intro h
    omega
  · intro h1 h2
    omega

/-- Witness for C16: the 20-byte plaintext gives the ciphertext length 32. -/
theorem pkcs7_size_witness :
    20 ≤ 65519 ∧
      (encryptMgr.ctor encryptMgr.raw0 20 typeOfEncryptAlgo_t.ENCRYPT_CBC_WITH_PADDING
        importOk).1.m_sizeOfCipherText = 20 + 16 - 20 % 16 :=
  ⟨by decide, ((pkcs7_size encryptMgr.raw0 20 importOk).1 (by decide)).1⟩

/-- C17: no-padding size computation. For every plaintext length `n`, in
`ENCRYPT_CBC_NO_PADDING` mode `calculateSizeOfCipherText` returns
`ENCRYPT_PADDING_SUCCESS` with ciphertext length `n` if and only if `n` is a
multiple of 16; otherwise it returns `ENCRYPT_PADDING_FAIL` with ciphertext
length 0. -/
theorem no_padding_size (m : encryptMgr) (n : Nat)
    (hmode : m.m_algoType = typeOfEncryptAlgo_t.ENCRYPT_CBC_NO_PADDING)
    (hn : m.m_sizeOfPlainText = n) :
    ((m.calculateSizeOfCipherText.1 = errorTypeEncrypt_t.ENCRYPT_PADDING_SUCCESS ∧
          m.calculateSizeOfCipherText.2.m_sizeOfCipherText = n) ↔ n % 16 = 0) ∧
      (n % 16 ≠ 0 →
        m.calculateSizeOfCipherText.1 = errorTypeEncrypt_t.ENCRYPT_PADDING_FAIL ∧
          m.calculateSizeOfCipherText.2.m_sizeOfCipherText = 0) := by
  by_cases h : n % 16 = 0
  · simp [encryptMgr.calculateSizeOfCipherText, hmode, hn, h, AES_BLOCK_SIZE_SUPPORTED_BY_HW]
  · simp [encryptMgr.calculateSizeOfCipherText, hmode, hn, h, AES_BLOCK_SIZE_SUPPORTED_BY_HW]

/-- Witness for C17: the 16-byte plaintext succeeds with length 16. -/
theorem no_padding_size_witness :
    (({ encryptMgr.raw0 with m_sizeOfPlainText := 16 } : encryptMgr).m_algoType =
          typeOfEncryptAlgo_t.ENCRYPT_CBC_NO_PADDING ∧
        ({ encryptMgr.raw0 with m_sizeOfPlainText := 16 } : encryptMgr).m_sizeOfPlainText = 16) ∧
      (({ encryptMgr.raw0 with m_sizeOfPlainText := 16 } :
            encryptMgr).calculateSizeOfCipherText.1 =
          errorTypeEncrypt_t.ENCRYPT_PADDING_SUCCESS ∧
        ({ encryptMgr.raw0 with m_sizeOfPlainText := 16 } :
            encryptMgr).calculateSizeOfCipherText.2.m_sizeOfCipherText = 16) :=
  ⟨⟨rfl, rfl⟩,
    ((no_padding_size { encryptMgr.raw0 with m_sizeOfPlainText := 16 } 16 rfl rfl).1).mpr
      (by decide)⟩

/-- Counterexample to C18 as stated: for the 20-byte plaintext in no-padding
mode `encryptUsingSymmetricCiphers` does not return `ENCRYPT_PADDING_FAIL`; it
returns `ENCRYPT_INIT_FAIL`. -/
theorem no_padding_encrypt_not_padding_error :
    ((encryptMgr.ctor encryptMgr.raw0 20 typeOfEncryptAlgo_t.ENCRYPT_CBC_NO_PADDING
        importOk).1.encryptUsingSymmetricCiphers ⟨0, 0, 0, 0⟩).1 ≠
        errorTypeEncrypt_t.ENCRYPT_PADDING_FAIL ∧
      ((encryptMgr.ctor encryptMgr.raw0 20 typeOfEncryptAlgo_t.ENCRYPT_CBC_NO_PADDING
        importOk).1.encryptUsingSymmetricCiphers ⟨0, 0, 0, 0⟩).1 =
        errorTypeEncrypt_t.ENCRYPT_INIT_FAIL := by
  decide

/-- C18 (amended): no-padding encryption fails closed. For every plaintext
length that is not a multiple of 16, construction in `ENCRYPT_CBC_NO_PADDING`
mode records the padding error `ENCRYPT_PADDING_FAIL`, sets the ciphertext
length to 0, allocates no ciphertext array and invokes no provider operation;
`encryptUsingSymmetricCiphers` then returns `ENCRYPT_INIT_FAIL`, whatever the
provider would answer, invokes no provider operation and leaves the ciphertext
length 0. -/
theorem no_padding_fails_closed (raw : encryptMgr) (n : Nat) (imp : ImportAnswer)
    (ans : CipherAnswers) (hn : n % 16 ≠ 0) :
    (encryptMgr.ctor raw n typeOfEncryptAlgo_t.ENCRYPT_CBC_NO_PADDING imp).1.m_errorStatus =
        errorTypeEncrypt_t.ENCRYPT_PADDING_FAIL ∧
      (encryptMgr.ctor raw n typeOfEncryptAlgo_t.ENCRYPT_CBC_NO_PADDING
        imp).1.m_sizeOfCipherText = 0 ∧
      (encryptMgr.ctor raw n typeOfEncryptAlgo_t.ENCRYPT_CBC_NO_PADDING imp).1.m_cipherText =
        raw.m_cipherText ∧
      (encryptMgr.ctor raw n typeOfEncryptAlgo_t.ENCRYPT_CBC_NO_PADDING imp).2 = [] ∧
      ((encryptMgr.ctor raw n typeOfEncryptAlgo_t.ENCRYPT_CBC_NO_PADDING
        imp).1.encryptUsingSymmetricCiphers ans).1 = errorTypeEncrypt_t.ENCRYPT_INIT_FAIL ∧
      ((encryptMgr.ctor raw n typeOfEncryptAlgo_t.ENCRYPT_CBC_NO_PADDING
        imp).1.encryptUsingSymmetricCiphers ans).2.2 = [] ∧
      ((encryptMgr.ctor raw n typeOfEncryptAlgo_t.ENCRYPT_CBC_NO_PADDING
        imp).1.encryptUsingSymmetricCiphers ans).2.1.m_sizeOfCipherText = 0 := by
  rw [encryptMgr_ctor_no_padding_fail raw n imp hn]
  simp [encryptMgr.encryptUsingSymmetricCiphers]

/-- Witness for C18: the 20-byte plaintext `I am plaintext.1234`. -/
theorem no_padding_fails_closed_witness :
    20 % 16 ≠ 0 ∧
      ((encryptMgr.ctor encryptMgr.raw0 20 typeOfEncryptAlgo_t.ENCRYPT_CBC_NO_PADDING
        importOk).1.encryptUsingSymmetricCiphers ⟨0, 0, 0, 0⟩).2.2 = [] :=
  ⟨by decide,
    (no_padding_fails_closed encryptMgr.raw0 20 importOk ⟨0, 0, 0, 0⟩ (by decide)).2.2.2.2.2.1⟩

/-- C19: on a successfully constructed manager (20-byte plaintext, PKCS7 mode,
key import succeeded), when the set-up step fails and the later steps fail
with it, `encryptUsingSymmetricCiphers` still invokes all four provider steps
and returns `ENCRYPT_CIPHER_NOT_FINISHED`, not `ENCRYPT_CIPHER_SETUP_FAIL`;
when only the set-up step fails it returns `ENCRYPT_SUCCESS`. -/
theorem encrypt_status_follows_finish_only :
    (encryptMgr.ctor encryptMgr.raw0 20 typeOfEncryptAlgo_t.ENCRYPT_CBC_WITH_PADDING
        importOk).1.m_errorStatus = errorTypeEncrypt_t.ENCRYPT_INIT_SUCCESS ∧
      ((encryptMgr.ctor encryptMgr.raw0 20 typeOfEncryptAlgo_t.ENCRYPT_CBC_WITH_PADDING
        importOk).1.encryptUsingSymmetricCiphers
          ⟨PSA_ERROR_BAD_STATE, PSA_ERROR_BAD_STATE, PSA_ERROR_BAD_STATE,
            PSA_ERROR_BAD_STATE⟩).1 = errorTypeEncrypt_t.ENCRYPT_CIPHER_NOT_FINISHED ∧
      ((encryptMgr.ctor encryptMgr.raw0 20 typeOfEncryptAlgo_t.ENCRYPT_CBC_WITH_PADDING
        importOk).1.encryptUsingSymmetricCiphers
          ⟨PSA_ERROR_BAD_STATE, PSA_ERROR_BAD_STATE, PSA_ERROR_BAD_STATE,
            PSA_ERROR_BAD_STATE⟩).2.2 =
        [PsaCall.psa_cipher_encrypt_setup, PsaCall.psa_cipher_generate_iv,
          PsaCall.psa_cipher_update, PsaCall.psa_cipher_finish] ∧
      ((encryptMgr.ctor encryptMgr.raw0 20 typeOfEncryptAlgo_t.ENCRYPT_CBC_WITH_PADDING
        importOk).1.encryptUsingSymmetricCiphers
          ⟨PSA_ERROR_BAD_STATE, PSA_SUCCESS, PSA_SUCCESS, PSA_SUCCESS⟩).1 =
        errorTypeEncrypt_t.ENCRYPT_SUCCESS := by
  decide

/-- C20: on a successfully constructed manager (32-byte ciphertext, no-padding
mode, key import succeeded), when the set-up step fails and the later steps
fail with it, `DecryptUsingSymmetricCiphers` still invokes all four provider
steps and returns `DECRYPT_CIPHER_NOT_FINISHED`, not
`DECRYPT_CIPHER_SETUP_FAIL`; when only the set-up step fails it returns
`DECRYPT_SUCCESS`. -/
theorem decrypt_status_follows_finish_only :
    (decryptMgr.ctor decryptMgr.raw0 32 typeOfDecryptAlgo_t.DECRYPT_CBC_NO_PADDING
        importOk).1.m_errorStatus = errorTypeDecrypt_t.DECRYPT_INIT_SUCCESS ∧
      ((decryptMgr.ctor decryptMgr.raw0 32 typeOfDecryptAlgo_t.DECRYPT_CBC_NO_PADDING
        importOk).1.DecryptUsingSymmetricCiphers
          ⟨PSA_ERROR_BAD_STATE, PSA_ERROR_BAD_STATE, PSA_ERROR_BAD_STATE,
            PSA_ERROR_BAD_STATE⟩).1 = errorTypeDecrypt_t.DECRYPT_CIPHER_NOT_FINISHED ∧
      ((decryptMgr.ctor decryptMgr.raw0 32 typeOfDecryptAlgo_t.DECRYPT_CBC_NO_PADDING
        importOk).1.DecryptUsingSymmetricCiphers
          ⟨PSA_ERROR_BAD_STATE, PSA_ERROR_BAD_STATE, PSA_ERROR_BAD_STATE,
            PSA_ERROR_BAD_STATE⟩).2.2 =
        [PsaCall.psa_cipher_decrypt_setup, PsaCall.psa_cipher_set_iv,
          PsaCall.psa_cipher_update, PsaCall.psa_cipher_finish] ∧
      ((decryptMgr.ctor decryptMgr.raw0 32 typeOfDecryptAlgo_t.DECRYPT_CBC_NO_PADDING
        importOk).1.DecryptUsingSymmetricCiphers
          ⟨PSA_ERROR_BAD_STATE, PSA_SUCCESS, PSA_SUCCESS, PSA_SUCCESS⟩).1 =
        errorTypeDecrypt_t.DECRYPT_SUCCESS := by
  decide

/-! ## Handshake state machines: results -/

set_option maxRecDepth 4000

theorem car_pass_condition (v : CarApp) (a : CallAnswers)
    (h : (car_application_pass v a).1.state ≠ v.state) : carPassCondition v.state a := by
  obtain ⟨st, lb, cl, cbl⟩ := v
  cases st <;> simp only [car_application_pass, carPassCondition] at h ⊢
  all_goals first
    | trivial
    | (by_contra hc; simp [hc] at h; done)
    | skip
  · by_cases h1 : a.encryptionDhKeyHandle = true
    · by_cases h2 : errorTypeEncrypt_t.ENCRYPT_SUCCESS = a.encryptUsingSymmetricCiphers
      · exact ⟨h1, h2.symm⟩
      · simp [h1, h2] at h
    · simp [h1] at h

theorem remote_pass_condition (v : RemoteApp) (a : CallAnswers)
    (h : (remote_application_pass v a).1.state ≠ v.state) : remotePassCondition v.state a := by
  obtain ⟨st, lb, cl, cbl⟩ := v
  cases st <;> simp only [remote_application_pass, remotePassCondition] at h ⊢
  all_goals first
    | trivial
    | (by_contra hc; simp [hc] at h; done)
    | skip
  · by_cases h0 : errorTypeKeyExchange_T.KEYEXCHANGE_INIT_SUCCESS = a.computeSharedSecretDhKey
    · by_cases h1 : a.encryptionDhKeyHandle = true
      · exact ⟨h0.symm, h1⟩
      · simp [remote_computeSharedSecretKey, h0, h1] at h
    · simp [remote_computeSharedSecretKey, h0] at h

/-- Counterexample to C12 as stated: in `CAR_TEST` and in
`REMOTE_DECRYPT_CAR_CIPHER_TEXT` a pass in which the decryption fails changes
the state and sends an ack. -/
theorem failed_decryption_advances :
    decryptFails.DecryptUsingSymmetricCiphers ≠ errorTypeDecrypt_t.DECRYPT_SUCCESS ∧
      (car_application_pass ⟨carStates_t.CAR_TEST, 32, 0, 0⟩ decryptFails).1.state ≠
        carStates_t.CAR_TEST ∧
      CarCall.car_SendAck ∈
        (car_application_pass ⟨carStates_t.CAR_TEST, 32, 0, 0⟩ decryptFails).2 ∧
      (remote_application_pass ⟨remoteStates_t.REMOTE_DECRYPT_CAR_CIPHER_TEXT, 32, 0, 0⟩
        decryptFails).1.state ≠ remoteStates_t.REMOTE_DECRYPT_CAR_CIPHER_TEXT ∧
      RemoteCall.remote_sendAck ∈
        (remote_application_pass ⟨remoteStates_t.REMOTE_DECRYPT_CAR_CIPHER_TEXT, 32, 0, 0⟩
          decryptFails).2 := by
  decide

/-- C12 (amended): for both peers and every state, one pass changes the
handshake state only if the operation of that state reported success in that
pass: frame fully parsed, frame fully sent, ack recognized, signature
verified, key handle created and message encrypted (car), shared secret
computed and key handle created (remote). On the remote a failed shared-secret
computation leaves the state unchanged and sends no ack, and a failed
encryption leads to `REMOTE_ENCRYPT_FAIL`. The decryption states `CAR_TEST` and
`REMOTE_DECRYPT_CAR_CIPHER_TEXT` send the ack and advance in every pass,
whatever the decryption returned. -/
theorem state_changes_only_on_success (a : CallAnswers) :
    (∀ v : CarApp,
        (car_application_pass v a).1.state ≠ v.state → carPassCondition v.state a) ∧
      (∀ v : RemoteApp,
        (remote_application_pass v a).1.state ≠ v.state → remotePassCondition v.state a) ∧
      (∀ (lb : Byte) (cl cbl : Nat),
        a.computeSharedSecretDhKey ≠ errorTypeKeyExchange_T.KEYEXCHANGE_INIT_SUCCESS →
        remote_application_pass ⟨remoteStates_t.REMOTE_ENCRYPT_MESSAGE, lb, cl, cbl⟩ a =
          (⟨remoteStates_t.REMOTE_ENCRYPT_MESSAGE, lb, cl, cbl⟩,
            [RemoteCall.remote_computeSharedSecretKey])) ∧
      (∀ (lb : Byte) (cl cbl : Nat),
        remotePassCondition remoteStates_t.REMOTE_ENCRYPT_MESSAGE a →
        a.encryptUsingSymmetricCiphers ≠ errorTypeEncrypt_t.ENCRYPT_SUCCESS →
        (remote_application_pass ⟨remoteStates_t.REMOTE_ENCRYPT_MESSAGE, lb, cl, cbl⟩
          a).1.state = remoteStates_t.REMOTE_ENCRYPT_FAIL) ∧
      (∀ (lb : Byte) (cl cbl : Nat),
        car_application_pass ⟨carStates_t.CAR_TEST, lb, cl, cbl⟩ a =
          (⟨carStates_t.CAR_ENCRYPT_MESSAGE, lb, cl, cbl⟩,
            [CarCall.decryptMgrTest_TestCase_EncryptedData lb.val, CarCall.car_SendAck])) ∧
      (∀ (lb : Byte) (cl cbl : Nat),
        remote_application_pass ⟨remoteStates_t.REMOTE_DECRYPT_CAR_CIPHER_TEXT, lb, cl, cbl⟩ a =
          (⟨remoteStates_t.REMOTE_DEFAULT, lb, cl, cbl⟩,
            [RemoteCall.psa_crypto_init,
              RemoteCall.decryptMgrTest_TestCase_EncryptedData lb.val,
              RemoteCall.remote_sendAck])) := by
  refine ⟨fun v h => car_pass_condition v a h, fun v h => remote_pass_condition v a h,
    ?_, ?_, fun _ _ _ => rfl, fun _ _ _ => rfl⟩
  · intro lb cl cbl h
    have h' : ¬ errorTypeKeyExchange_T.KEYEXCHANGE_INIT_SUCCESS = a.computeSharedSecretDhKey :=
      fun e => h e.symm
    simp [remote_application_pass, remote_computeSharedSecretKey, h']
  · intro lb cl cbl hc h
    obtain ⟨h0, h1⟩ := hc
    have h' : ¬ errorTypeEncrypt_t.ENCRYPT_SUCCESS = a.encryptUsingSymmetricCiphers :=
      fun e => h e.symm
    simp [remote_application_pass, remote_computeSharedSecretKey, h0, h1, h']

/-- Witness for C12: the car leaves `CAR_RX_SIGNATURE` in a pass whose frame
was fully parsed, and the remote stays in `REMOTE_ENCRYPT_MESSAGE` without an
ack when the shared-secret computation fails. -/
theorem state_changes_only_on_success_witness :
    ((car_application_pass (CarApp.init 0) allSucceed).1.state ≠ (CarApp.init 0).state ∧
        carPassCondition (CarApp.init 0).state allSucceed) ∧
      (({ allSucceed with
            computeSharedSecretDhKey :=
              errorTypeKeyExchange_T.KEYEXCHANGE_COMPUTE_SECRET_GEN } :
            CallAnswers).computeSharedSecretDhKey ≠
          errorTypeKeyExchange_T.KEYEXCHANGE_INIT_SUCCESS ∧
        remote_application_pass ⟨remoteStates_t.REMOTE_ENCRYPT_MESSAGE, 0, 0, 0⟩
            { allSucceed with
              computeSharedSecretDhKey :=
                errorTypeKeyExchange_T.KEYEXCHANGE_COMPUTE_SECRET_GEN } =
          (⟨remoteStates_t.REMOTE_ENCRYPT_MESSAGE, 0, 0, 0⟩,
            [RemoteCall.remote_computeSharedSecretKey])) :=
  ⟨⟨by decide, (state_changes_only_on_success allSucceed).1 (CarApp.init 0) (by decide)⟩,
    ⟨by decide,
      (state_changes_only_on_success
        { allSucceed with
          computeSharedSecretDhKey :=
            errorTypeKeyExchange_T.KEYEXCHANGE_COMPUTE_SECRET_GEN }).2.2.1 0 0 0 (by decide)⟩⟩

theorem car_pass_up_to_verification (v : CarApp) (a : CallAnswers)
    (hv : carPhase v.state ≤ 2) (ha : a.verifySignature = false) :
    carPhase (car_application_pass v a).1.state ≤ 2 ∧
      ∀ c ∈ (car_application_pass v a).2, (v.state, c) ∈ carUpToVerification := by
  obtain ⟨st, lb, cl, cbl⟩ := v
  cases st <;> simp [carPhase] at hv <;>
    cases hr : a.rxData <;>
    simp [car_application_pass, hr, ha, carPhase, carUpToVerification]

theorem car_run_up_to_verification (as : List CallAnswers) :
    ∀ v : CarApp, carPhase v.state ≤ 2 → (∀ a ∈ as, a.verifySignature = false) →
      carPhase (car_application_run v as).1.state ≤ 2 ∧
        ∀ e ∈ (car_application_run v as).2, e ∈ carUpToVerification := by
  induction as with
  | nil => intro v hv _; exact ⟨hv, fun e he => by simp [car_application_run] at he⟩
  | cons a as ih =>
    intro v hv h
    obtain ⟨h1, h2⟩ := car_pass_up_to_verification v a hv (h a (List.mem_cons_self _ _))
    obtain ⟨h3, h4⟩ := ih _ h1 (fun x hx => h x (List.mem_cons_of_mem _ hx))
    refine ⟨h3, fun e he => ?_⟩
    simp only [car_application_run, List.mem_append, List.mem_map] at he
    rcases he with ⟨c, hc, rfl⟩ | he
    · exact h2 c hc
    · exact h4 e he

theorem remote_pass_up_to_verification (v : RemoteApp) (a : CallAnswers)
    (hv : remotePhase v.state ≤ 7) (ha : a.verifySignature = false) :
    remotePhase (remote_application_pass v a).1.state ≤ 7 ∧
      ∀ c ∈ (remote_application_pass v a).2, (v.state, c) ∈ remoteUpToVerification := by
  obtain ⟨st, lb, cl, cbl⟩ := v
  cases st <;> simp [remotePhase] at hv <;>
    cases hr : a.rxData <;> cases hs : a.sendDataByte <;> cases hk : a.checkAckRxd <;>
    simp [remote_application_pass, hr, hs, hk, ha, remotePhase, remoteUpToVerification]

theorem remote_run_up_to_verification (as : List CallAnswers) :
    ∀ v : RemoteApp, remotePhase v.state ≤ 7 → (∀ a ∈ as, a.verifySignature = false) →
      remotePhase (remote_application_run v as).1.state ≤ 7 ∧
        ∀ e ∈ (remote_application_run v as).2, e ∈ remoteUpToVerification := by
  induction as with
  | nil => intro v hv _; exact ⟨hv, fun e he => by simp [remote_application_run] at he⟩
  | cons a as ih =>
    intro v hv h
    obtain ⟨h1, h2⟩ := remote_pass_up_to_verification v a hv (h a (List.mem_cons_self _ _))
    obtain ⟨h3, h4⟩ := ih _ h1 (fun x hx => h x (List.mem_cons_of_mem _ hx))
    refine ⟨h3, fun e he => ?_⟩
    simp only [remote_application_run, List.mem_append, List.mem_map] at he
    rcases he with ⟨c, hc, rfl⟩ | he
    · exact h2 c hc
    · exact h4 e he

/-- C13: authentication gates the handshake. In every run of `car_application`
(resp. `remote_application`) in which `verifySignature` never returns true,
the machine never gets past `CAR_VERIFY_AUTHENTICITY` (resp.
`REMOTE_VERIFY_CAR_AUTHENTICITY`) and makes no call besides those of the states
up to it: it never sends the verification ack, never sends or receives a
key-exchange public key and never encrypts or decrypts. -/
theorem authentication_gates_handshake (lb : Byte) (as : List CallAnswers)
    (h : ∀ a ∈ as, a.verifySignature = false) :
    (carPhase (car_application_run (CarApp.init lb) as).1.state ≤
          carPhase carStates_t.CAR_VERIFY_AUTHENTICITY ∧
        (∀ e ∈ (car_application_run (CarApp.init lb) as).2, e ∈ carUpToVerification) ∧
        (carStates_t.CAR_VERIFY_AUTHENTICITY, CarCall.car_SendAck) ∉
          (car_application_run (CarApp.init lb) as).2 ∧
        ∀ (s : carStates_t) (n : Nat),
          (s, CarCall.car_SendDataByte CarBuffer.carDhPubKeyBuffer n) ∉
              (car_application_run (CarApp.init lb) as).2 ∧
            (s, CarCall.car_rxData CarBuffer.dhBufRemotetoCar n) ∉
              (car_application_run (CarApp.init lb) as).2 ∧
            (s, CarCall.encryptUsingSymmetricCiphers) ∉
              (car_application_run (CarApp.init lb) as).2 ∧
            (s, CarCall.decryptMgrTest_TestCase_EncryptedData n) ∉
              (car_application_run (CarApp.init lb) as).2) ∧
      (remotePhase (remote_application_run (RemoteApp.init lb) as).1.state ≤
          remotePhase remoteStates_t.REMOTE_VERIFY_CAR_AUTHENTICITY ∧
        (∀ e ∈ (remote_application_run (RemoteApp.init lb) as).2,
          e ∈ remoteUpToVerification) ∧
        (remoteStates_t.REMOTE_VERIFY_CAR_AUTHENTICITY, RemoteCall.remote_sendAck) ∉
          (remote_application_run (RemoteApp.init lb) as).2 ∧
        ∀ (s : remoteStates_t) (n : Nat),
          (s, RemoteCall.remote_sendDataByte RemoteBuffer.remoteDhPubKeyBuffer n) ∉
              (remote_application_run (RemoteApp.init lb) as).2 ∧
            (s, RemoteCall.remote_rxDataByte RemoteBuffer.remoteRxdDhPubKeyBuf n) ∉
              (remote_application_run (RemoteApp.init lb) as).2 ∧
            (s, RemoteCall.encryptUsingSymmetricCiphers) ∉
              (remote_application_run (RemoteApp.init lb) as).2 ∧
            (s, RemoteCall.decryptMgrTest_TestCase_EncryptedData n) ∉
              (remote_application_run (RemoteApp.init lb) as).2) := by
  obtain ⟨c1, c2⟩ := car_run_up_to_verification as (CarApp.init lb) (by simp [CarApp.init, car_application_start, carPhase]) h
  obtain ⟨r1, r2⟩ := remote_run_up_to_verification as (RemoteApp.init lb) (by simp [RemoteApp.init, remote_application_start, remotePhase]) h
  refine ⟨⟨c1, c2, fun hm => ?_, fun s n => ⟨fun hm => ?_, fun hm => ?_, fun hm => ?_,
    fun hm => ?_⟩⟩, ⟨r1, r2, fun hm => ?_, fun s n => ⟨fun hm => ?_, fun hm => ?_,
    fun hm => ?_, fun hm => ?_⟩⟩⟩
  all_goals first
    | exact absurd (c2 _ hm) (by simp [carUpToVerification])
    | exact absurd (r2 _ hm) (by simp [remoteUpToVerification])

/-- Witness for C13: three passes in which the frames are parsed and the
signature does not verify leave the car in `CAR_VERIFY_AUTHENTICITY`. -/
theorem authentication_gates_handshake_witness :
    (∀ a ∈ List.replicate 3 { allSucceed with verifySignature := false },
        a.verifySignature = false) ∧
      carPhase (car_application_run (CarApp.init 0)
          (List.replicate 3 { allSucceed with verifySignature := false })).1.state ≤
        carPhase carStates_t.CAR_VERIFY_AUTHENTICITY :=
  ⟨by decide,
    (authentication_gates_handshake 0
      (List.replicate 3 { allSucceed with verifySignature := false }) (by decide)).1.1⟩

theorem car_pass_phase_le (v : CarApp) (a : CallAnswers) :
    carPhase v.state ≤ carPhase (car_application_pass v a).1.state := by
  obtain ⟨st, lb, cl, cbl⟩ := v
  cases st <;> simp only [car_application_pass] <;> (try split_ifs) <;> simp [carPhase]

theorem remote_pass_phase_le (v : RemoteApp) (a : CallAnswers) :
    remotePhase v.state ≤ remotePhase (remote_application_pass v a).1.state := by
  obtain ⟨st, lb, cl, cbl⟩ := v
  cases st <;> simp only [remote_application_pass] <;> (try split_ifs) <;> simp [remotePhase]

theorem car_run_phase_le (as : List CallAnswers) :
    ∀ v : CarApp, carPhase v.state ≤ carPhase (car_application_run v as).1.state := by
  induction as with
  | nil => intro v; exact le_refl _
  | cons a as ih => intro v; exact le_trans (car_pass_phase_le v a) (ih _)

theorem remote_run_phase_le (as : List CallAnswers) :
    ∀ v : RemoteApp, remotePhase v.state ≤ remotePhase (remote_application_run v as).1.state := by
  induction as with
  | nil => intro v; exact le_refl _
  | cons a as ih => intro v; exact le_trans (remote_pass_phase_le v a) (ih _)

theorem car_default_run (lb : Byte) (cl cbl : Nat) (as : List CallAnswers) :
    car_application_run ⟨carStates_t.CAR_DEFAULT, lb, cl, cbl⟩ as =
      (⟨carStates_t.CAR_DEFAULT, lb, cl, cbl⟩, []) := by
  induction as with
  | nil => rfl
  | cons a as ih => simp [car_application_run, car_application_pass, ih]

theorem remote_default_run (lb : Byte) (cl cbl : Nat) (as : List CallAnswers) :
    remote_application_run ⟨remoteStates_t.REMOTE_DEFAULT, lb, cl, cbl⟩ as =
      (⟨remoteStates_t.REMOTE_DEFAULT, lb, cl, cbl⟩, []) := by
  induction as with
  | nil => rfl
  | cons a as ih => simp [remote_application_run, remote_application_pass, ih]

theorem remote_encrypt_fail_run (lb : Byte) (cl cbl : Nat) (as : List CallAnswers) :
    remote_application_run ⟨remoteStates_t.REMOTE_ENCRYPT_FAIL, lb, cl, cbl⟩ as =
      (⟨remoteStates_t.REMOTE_ENCRYPT_FAIL, lb, cl, cbl⟩, []) := by
  induction as with
  | nil => rfl
  | cons a as ih => simp [remote_application_run, remote_application_pass, ih]

theorem carPhase_injective : Function.Injective carPhase := by
  intro s t h
  cases s <;> cases t <;> first | rfl | (simp [carPhase] at h)

theorem remotePhase_injective : Function.Injective remotePhase := by
  intro s t h
  cases s <;> cases t <;> first | rfl | (simp [remotePhase] at h)

/-- C14: the handshake is linear. `carPhase` and `remotePhase` number the states
of each peer without repetition; one pass of `car_application` or
`remote_application`, whatever the called functions answer, leaves the state
where it is or moves it to a state with a larger number, and so does every
sequence of passes: no transition returns to an earlier state. `CAR_DEFAULT`,
`REMOTE_DEFAULT` and `REMOTE_ENCRYPT_FAIL` are absorbing and silent: every run
started in one of them ends in it with the variables unchanged and no call
made. -/
theorem handshake_is_linear :
    Function.Injective carPhase ∧ Function.Injective remotePhase ∧
      (∀ (v : CarApp) (a : CallAnswers),
        carPhase v.state ≤ carPhase (car_application_pass v a).1.state) ∧
      (∀ (v : RemoteApp) (a : CallAnswers),
        remotePhase v.state ≤ remotePhase (remote_application_pass v a).1.state) ∧
      (∀ (v : CarApp) (as : List CallAnswers),
        carPhase v.state ≤ carPhase (car_application_run v as).1.state) ∧
      (∀ (v : RemoteApp) (as : List CallAnswers),
        remotePhase v.state ≤ remotePhase (remote_application_run v as).1.state) ∧
      (∀ (lb : Byte) (cl cbl : Nat) (as : List CallAnswers),
        car_application_run ⟨carStates_t.CAR_DEFAULT, lb, cl, cbl⟩ as =
          (⟨carStates_t.CAR_DEFAULT, lb, cl, cbl⟩, [])) ∧
      (∀ (lb : Byte) (cl cbl : Nat) (as : List CallAnswers),
        remote_application_run ⟨remoteStates_t.REMOTE_DEFAULT, lb, cl, cbl⟩ as =
          (⟨remoteStates_t.REMOTE_DEFAULT, lb, cl, cbl⟩, [])) ∧
      (∀ (lb : Byte) (cl cbl : Nat) (as : List CallAnswers),
        remote_application_run ⟨remoteStates_t.REMOTE_ENCRYPT_FAIL, lb, cl, cbl⟩ as =
          (⟨remoteStates_t.REMOTE_ENCRYPT_FAIL, lb, cl, cbl⟩, [])) :=
  ⟨carPhase_injective, remotePhase_injective, car_pass_phase_le, remote_pass_phase_le,
    fun v as => car_run_phase_le as v, fun v as => remote_run_phase_le as v,
    car_default_run, remote_default_run, remote_encrypt_fail_run⟩

/-- C15 (divergence): on the all-success path the car reaches `CAR_DEFAULT`
after 22 passes with 27 wire events and the remote reaches `REMOTE_DEFAULT`
after 23 passes with 28 wire events. The dual of the remote's sequence is the
car's sequence followed by one more await of an ack: the ack that the remote
sends last, in `REMOTE_DECRYPT_CAR_CIPHER_TEXT`, is awaited by no state of the
car, which makes no call at all once it is in `CAR_DEFAULT`. -/
theorem remote_final_ack_not_awaited :
    (car_application_run (CarApp.init 0) (List.replicate 22 allSucceed)).1.state =
        carStates_t.CAR_DEFAULT ∧
      (remote_application_run (RemoteApp.init 0) (List.replicate 23 allSucceed)).1.state =
        remoteStates_t.REMOTE_DEFAULT ∧
      carWireEvents.length = 27 ∧ remoteWireEvents.length = 28 ∧
      remoteWireEvents.map WireEvent.dual = carWireEvents ++ [WireEvent.awaitAck] ∧
      remoteWireEvents.map WireEvent.dual ≠ carWireEvents ∧
      remoteWireEvents.getLast? = some WireEvent.sendAck ∧
      (remoteStates_t.REMOTE_DECRYPT_CAR_CIPHER_TEXT, RemoteCall.remote_sendAck) ∈
        (remote_application_run (RemoteApp.init 0) (List.replicate 23 allSucceed)).2 ∧
      ∀ (lb : Byte) (cl cbl : Nat) (as : List CallAnswers),
        (car_application_run ⟨carStates_t.CAR_DEFAULT, lb, cl, cbl⟩ as).2.filterMap
          (fun e => carWireEvent e.2) = [] := by
  refine ⟨by decide, by decide, by decide, by decide, by decide, by decide, by decide,
    by decide, fun lb cl cbl as => ?_⟩
  rw [car_default_run]
  rfl

/-! ## Size check of the decryptor: results -/

/-- C21 (divergence): `calculateSizeOfDecryptedText` never returns
`DECRYPT_PADDING_FAIL`. For the 20-byte ciphertext in `DECRYPT_CBC_NO_PADDING`
mode it returns `DECRYPT_PADDING_SUCCESS` and leaves the object as it was, so
that `m_sizeOfDecryptedText` keeps the value it had before construction; the
construction then imports the key, allocates the plaintext array with that
size and ends in `DECRYPT_INIT_SUCCESS`, and `DecryptUsingSymmetricCiphers`
invokes the four provider steps. For a ciphertext length that is a multiple
of 16 the plaintext length is set to the ciphertext length. -/
theorem decrypt_size_check_never_fails :
    (∀ m : decryptMgr,
        m.calculateSizeOfDecryptedText.1 = errorTypeDecrypt_t.DECRYPT_PADDING_SUCCESS) ∧
      ({ decryptMgr.raw0 with
            m_algoType := typeOfDecryptAlgo_t.DECRYPT_CBC_NO_PADDING
            m_sizeOfEncryptedData := 20 } : decryptMgr).calculateSizeOfDecryptedText =
        (errorTypeDecrypt_t.DECRYPT_PADDING_SUCCESS,
          { decryptMgr.raw0 with
            m_algoType := typeOfDecryptAlgo_t.DECRYPT_CBC_NO_PADDING
            m_sizeOfEncryptedData := 20 }) ∧
      (decryptMgr.ctor decryptMgr.raw0 20 typeOfDecryptAlgo_t.DECRYPT_CBC_NO_PADDING
        importOk).1.m_errorStatus = errorTypeDecrypt_t.DECRYPT_INIT_SUCCESS ∧
      (decryptMgr.ctor decryptMgr.raw0 20 typeOfDecryptAlgo_t.DECRYPT_CBC_NO_PADDING
        importOk).1.m_sizeOfDecryptedText = decryptMgr.raw0.m_sizeOfDecryptedText ∧
      (decryptMgr.ctor decryptMgr.raw0 20 typeOfDecryptAlgo_t.DECRYPT_CBC_NO_PADDING
        importOk).1.m_DecryptedText = some decryptMgr.raw0.m_sizeOfDecryptedText ∧
      (decryptMgr.ctor decryptMgr.raw0 20 typeOfDecryptAlgo_t.DECRYPT_CBC_NO_PADDING
        importOk).2 = [PsaCall.psa_import_key 1] ∧
      ((decryptMgr.ctor decryptMgr.raw0 20 typeOfDecryptAlgo_t.DECRYPT_CBC_NO_PADDING
        importOk).1.DecryptUsingSymmetricCiphers
          ⟨PSA_SUCCESS, PSA_SUCCESS, PSA_SUCCESS, PSA_SUCCESS⟩).1 =
        errorTypeDecrypt_t.DECRYPT_SUCCESS ∧
      ((decryptMgr.ctor decryptMgr.raw0 20 typeOfDecryptAlgo_t.DECRYPT_CBC_NO_PADDING
        importOk).1.DecryptUsingSymmetricCiphers
          ⟨PSA_SUCCESS, PSA_SUCCESS, PSA_SUCCESS, PSA_SUCCESS⟩).2.2 =
        [PsaCall.psa_cipher_decrypt_setup, PsaCall.psa_cipher_set_iv,
          PsaCall.psa_cipher_update, PsaCall.psa_cipher_finish] ∧
      (∀ (raw : decryptMgr) (k : Nat) (imp : ImportAnswer),
        (decryptMgr.ctor raw (16 * k) typeOfDecryptAlgo_t.DECRYPT_CBC_NO_PADDING
          imp).1.m_sizeOfDecryptedText = 16 * k) := by
  refine ⟨fun m => ?_, by decide, by decide, by decide, by decide, by decide, by decide,
    by decide, fun raw k imp => ?_⟩
  · unfold decryptMgr.calculateSizeOfDecryptedText
    cases m.m_algoType
    · by_cases h : m.m_sizeOfEncryptedData % AES_BLOCK_SIZE_SUPPORTED_BY_HW = 0 <;> simp [h]
    · rfl
  · by_cases hi : imp.status = PSA_SUCCESS <;>
      simp [decryptMgr.ctor, decryptMgr.initializeDecryptionServices,
        decryptMgr.calculateBlockSize, decryptMgr.setDecryptionAlgo,
        decryptMgr.calculateSizeOfDecryptedText, decryptMgr.createKeyHandleForDecryption,
        PSA_BLOCK_CIPHER_BLOCK_SIZE_AES, AES_BLOCK_SIZE_SUPPORTED_BY_HW, hi]

/-! ## Length byte of the cipher text: results -/

/-- C22 (divergence): for the plaintext length 240 in PKCS7 mode the
ciphertext length computed at construction is 256, `sizeofEncryption()`
returns 0, and the pass of `REMOTE_ENCRYPT_MESSAGE` (and of
`CAR_ENCRYPT_MESSAGE`) sets `cipherTextlen` to 0 and `cipherTextBuflen` to 3.
The same holds for every plaintext length from 240 to 255. For every
plaintext length below 240 the returned value is the ciphertext length and
the frame buffer length is that length plus 3. -/
theorem length_byte_wraps :
    (encryptMgr.ctor encryptMgr.raw0 240 typeOfEncryptAlgo_t.ENCRYPT_CBC_WITH_PADDING
        importOk).1.m_sizeOfCipherText = 256 ∧
      (encryptMgr.ctor encryptMgr.raw0 240 typeOfEncryptAlgo_t.ENCRYPT_CBC_WITH_PADDING
        importOk).1.sizeofEncryption = 0 ∧
      (remote_application_pass ⟨remoteStates_t.REMOTE_ENCRYPT_MESSAGE, 0, 0, 0⟩
        { allSucceed with
          sizeofEncryption :=
            (encryptMgr.ctor encryptMgr.raw0 240 typeOfEncryptAlgo_t.ENCRYPT_CBC_WITH_PADDING
              importOk).1.sizeofEncryption }).1 =
        ⟨remoteStates_t.REMOTE_SEND_ENCRYPT_IV, 0, 0, 3⟩ ∧
      (car_application_pass ⟨carStates_t.CAR_ENCRYPT_MESSAGE, 0, 0, 0⟩
        { allSucceed with
          sizeofEncryption :=
            (encryptMgr.ctor encryptMgr.raw0 240 typeOfEncryptAlgo_t.ENCRYPT_CBC_WITH_PADDING
              importOk).1.sizeofEncryption }).1 =
        ⟨carStates_t.CAR_SEND_ENCRYPT_IV, 0, 0, 3⟩ ∧
      (∀ (raw : encryptMgr) (imp : ImportAnswer) (k : Fin 16),
        (encryptMgr.ctor raw (240 + k.val) typeOfEncryptAlgo_t.ENCRYPT_CBC_WITH_PADDING
            imp).1.m_sizeOfCipherText = 256 ∧
          (encryptMgr.ctor raw (240 + k.val) typeOfEncryptAlgo_t.ENCRYPT_CBC_WITH_PADDING
            imp).1.sizeofEncryption = 0) ∧
      (∀ (raw : encryptMgr) (imp : ImportAnswer) (n : Fin 240),
        (encryptMgr.ctor raw n.val typeOfEncryptAlgo_t.ENCRYPT_CBC_WITH_PADDING
            imp).1.sizeofEncryption =
          (encryptMgr.ctor raw n.val typeOfEncryptAlgo_t.ENCRYPT_CBC_WITH_PADDING
            imp).1.m_sizeOfCipherText ∧
          ((encryptMgr.ctor raw n.val typeOfEncryptAlgo_t.ENCRYPT_CBC_WITH_PADDING
              imp).1.sizeofEncryption % 2 ^ 8 + PROT_ID_LENGTH) % 2 ^ 8 =
            (encryptMgr.ctor raw n.val typeOfEncryptAlgo_t.ENCRYPT_CBC_WITH_PADDING
              imp).1.m_sizeOfCipherText + 3) := by
  refine ⟨by decide, by decide, by decide, by decide, fun raw imp k => ?_,
    fun raw imp n => ?_⟩
  · have hk := k.isLt
    simp only [encryptMgr.sizeofEncryption, encryptMgr_ctor_padding_size]
    omega
  · have hn := n.isLt
    simp only [encryptMgr.sizeofEncryption, encryptMgr_ctor_padding_size, PROT_ID_LENGTH]
    omega

/-! ## Life of a cipher manager: results -/

theorem encryptMgr_ctor_padding_log (raw : encryptMgr) (n : Nat) (imp : ImportAnswer) :
    (encryptMgr.ctor raw n typeOfEncryptAlgo_t.ENCRYPT_CBC_WITH_PADDING imp).2 =
      [PsaCall.psa_import_key imp.handle] ∧
    (encryptMgr.ctor raw n typeOfEncryptAlgo_t.ENCRYPT_CBC_WITH_PADDING imp).1.m_handle =
      imp.handle := by
  by_cases h : imp.status = PSA_SUCCESS
  · simp [encryptMgr.ctor, encryptMgr.initializeEncryptionServices,
      encryptMgr.calculateBlockSize, encryptMgr.setEncryptionAlgo,
      encryptMgr.calculateSizeOfCipherText, encryptMgr.createKeyHandleForEncryption,
      PSA_BLOCK_CIPHER_BLOCK_SIZE_AES, AES_BLOCK_SIZE_SUPPORTED_BY_HW, h]
  · have h' : ¬ PSA_SUCCESS = imp.status := fun e => h e.symm
    simp [encryptMgr.ctor, encryptMgr.initializeEncryptionServices,
      encryptMgr.calculateBlockSize, encryptMgr.setEncryptionAlgo,
      encryptMgr.calculateSizeOfCipherText, encryptMgr.createKeyHandleForEncryption,
      PSA_BLOCK_CIPHER_BLOCK_SIZE_AES, AES_BLOCK_SIZE_SUPPORTED_BY_HW, h']

theorem encryptionDhKeyHandle_log (m : encryptMgr) (i : ImportAnswer) :
    (m.encryptionDhKeyHandle i).2.2 = [PsaCall.psa_import_key i.handle] ∧
      (m.encryptionDhKeyHandle i).2.1.m_handle = i.handle := by
  by_cases h : PSA_SUCCESS = i.status <;>
    simp [encryptMgr.encryptionDhKeyHandle, encryptMgr.createKeyHandleForEncryption, h]

theorem encrypt_keeps_handle (m : encryptMgr) (ans : CipherAnswers) :
    (m.encryptUsingSymmetricCiphers ans).2.1.m_handle = m.m_handle ∧
      ∀ live : List Nat,
        (m.encryptUsingSymmetricCiphers ans).2.2.foldl keyStoreStep live = live := by
  unfold encryptMgr.encryptUsingSymmetricCiphers
  split_ifs <;> simp [keyStoreStep]

theorem decryptMgr_ctor_no_padding_log (raw : decryptMgr) (n : Nat) (imp : ImportAnswer) :
    (decryptMgr.ctor raw n typeOfDecryptAlgo_t.DECRYPT_CBC_NO_PADDING imp).2 =
      [PsaCall.psa_import_key imp.handle] := by
  by_cases h : imp.status = PSA_SUCCESS <;>
    by_cases hn : n % 16 = 0 <;>
    simp [decryptMgr.ctor, decryptMgr.initializeDecryptionServices,
      decryptMgr.calculateBlockSize, decryptMgr.setDecryptionAlgo,
      decryptMgr.calculateSizeOfDecryptedText, decryptMgr.createKeyHandleForDecryption,
      PSA_BLOCK_CIPHER_BLOCK_SIZE_AES, AES_BLOCK_SIZE_SUPPORTED_BY_HW, h, hn]

theorem decryptionDhKeyHandle_log (m : decryptMgr) (i : ImportAnswer) :
    (m.decryptionDhKeyHandle i).2.2 = [PsaCall.psa_import_key i.handle] ∧
      (m.decryptionDhKeyHandle i).2.1.m_handle = i.handle := by
  by_cases h : i.status = PSA_SUCCESS <;>
    simp [decryptMgr.decryptionDhKeyHandle, decryptMgr.createKeyHandleForDecryption, h]

theorem decrypt_keeps_handle (m : decryptMgr) (ans : CipherAnswers) :
    (m.DecryptUsingSymmetricCiphers ans).2.1.m_handle = m.m_handle ∧
      ∀ live : List Nat,
        (m.DecryptUsingSymmetricCiphers ans).2.2.foldl keyStoreStep live = live := by
  unfold decryptMgr.DecryptUsingSymmetricCiphers
  split_ifs <;> simp [keyStoreStep]

theorem liveKeys_append (l₁ l₂ : List PsaCall) :
    liveKeys (l₁ ++ l₂) = l₂.foldl keyStoreStep (liveKeys l₁) := by
  simp [liveKeys, List.foldl_append]

theorem liveKeys_encryptMgr_dtor (l : List PsaCall) (m : encryptMgr) :
    liveKeys (l ++ m.dtor.2) = [] := by
  simp [liveKeys_append, encryptMgr.dtor, keyStoreStep]

theorem liveKeys_decryptMgr_dtor (l : List PsaCall) (m : decryptMgr) :
    liveKeys (l ++ m.dtor.2) = [] := by
  simp [liveKeys_append, decryptMgr.dtor, keyStoreStep]

/-- C23 (divergence): the key that a signature manager creates stays live in
the provider after the manager is gone. Over the life of the `signMgr` of
`car_generateSignAndPubKey` (constructor, `signhash()`, `export_PublicKey()`,
end of the function) the key that `psa_generate_key` created is never
destroyed: when the generation succeeds, its handle is the one live handle
afterwards; so it is for the key that `psa_import_key` created in
`verifySignature()` over the life of a `signVerifyMgr`. For the cipher
managers no key is live after teardown: after every life of an `encryptMgr`
(constructor, any number of calls of `encryptionDhKeyHandle`, an optional
encryption, destructor) and after every run of
`decryptMgrTest_TestCase_EncryptedData` the key store is empty. There the
destructor passes only the last handle to `psa_destroy_key`, and the handle
obtained at construction is still live before the final
`mbedtls_psa_crypto_free`, which clears the key store. -/
theorem signature_key_outlives_manager :
    (∀ gen : ImportAnswer, gen.status = PSA_SUCCESS →
        liveKeys (car_generateSignAndPubKey_calls gen) = [gen.handle]) ∧
      (∀ imp : ImportAnswer, imp.status = PSA_SUCCESS →
        liveKeys (signVerifyMgr.lifecycle imp) = [imp.handle]) ∧
      car_generateSignAndPubKey_calls ⟨PSA_SUCCESS, 1⟩ =
        [PsaCall.psa_crypto_init, PsaCall.psa_generate_key 1, PsaCall.psa_asymmetric_sign,
          PsaCall.psa_export_public_key] ∧
      liveKeys (car_generateSignAndPubKey_calls ⟨PSA_SUCCESS, 1⟩) = [1] ∧
      (∀ (raw : encryptMgr) (n : Nat) (algoType : typeOfEncryptAlgo_t) (imp : ImportAnswer)
          (dh : List ImportAnswer) (op : Option CipherAnswers),
        liveKeys (encryptMgr.lifecycle raw n algoType imp dh op) = []) ∧
      (∀ (raw : decryptMgr) (n : Nat) (imp dh : ImportAnswer) (ans : CipherAnswers),
        liveKeys (decryptMgrTest_TestCase_EncryptedData raw n imp dh ans) = []) ∧
      encryptMgr.lifecycle encryptMgr.raw0 20 typeOfEncryptAlgo_t.ENCRYPT_CBC_WITH_PADDING
          ⟨PSA_SUCCESS, 1⟩ [⟨PSA_SUCCESS, 2⟩] (some ⟨PSA_SUCCESS, PSA_SUCCESS, PSA_SUCCESS,
            PSA_SUCCESS⟩) =
        [PsaCall.psa_import_key 1, PsaCall.psa_import_key 2,
          PsaCall.psa_cipher_encrypt_setup, PsaCall.psa_cipher_generate_iv,
          PsaCall.psa_cipher_update, PsaCall.psa_cipher_finish, PsaCall.psa_cipher_abort,
          PsaCall.psa_destroy_key 2, PsaCall.mbedtls_psa_crypto_free] ∧
      liveKeys (encryptMgr.lifecycle encryptMgr.raw0 20
          typeOfEncryptAlgo_t.ENCRYPT_CBC_WITH_PADDING ⟨PSA_SUCCESS, 1⟩ [⟨PSA_SUCCESS, 2⟩]
          (some ⟨PSA_SUCCESS, PSA_SUCCESS, PSA_SUCCESS, PSA_SUCCESS⟩)).dropLast = [1] ∧
      decryptMgrTest_TestCase_EncryptedData decryptMgr.raw0 32 ⟨PSA_SUCCESS, 1⟩
          ⟨PSA_SUCCESS, 2⟩ ⟨PSA_SUCCESS, PSA_SUCCESS, PSA_SUCCESS, PSA_SUCCESS⟩ =
        [PsaCall.psa_import_key 1, PsaCall.psa_import_key 2,
          PsaCall.psa_cipher_decrypt_setup, PsaCall.psa_cipher_set_iv,
          PsaCall.psa_cipher_update, PsaCall.psa_cipher_finish, PsaCall.psa_cipher_abort,
          PsaCall.psa_destroy_key 2, PsaCall.mbedtls_psa_crypto_free] ∧
      liveKeys (decryptMgrTest_TestCase_EncryptedData decryptMgr.raw0 32 ⟨PSA_SUCCESS, 1⟩
          ⟨PSA_SUCCESS, 2⟩ ⟨PSA_SUCCESS, PSA_SUCCESS, PSA_SUCCESS, PSA_SUCCESS⟩).dropLast =
        [1] := by
  refine ⟨fun gen _ => rfl, fun imp _ => rfl, by decide, by decide,
    fun raw n algoType imp dh op => ?_, fun raw n imp dh ans => ?_, by decide, by decide,
    by decide, by decide⟩
  · cases op
    · exact liveKeys_encryptMgr_dtor _ _
    · exact liveKeys_encryptMgr_dtor _ _
  · exact liveKeys_decryptMgr_dtor _ _

/-! ## Signature verifier: results -/

/-- C27 (divergence): `verifySignature` returns true exactly when
`psa_asymmetric_verify` returns `PSA_SUCCESS` for the handle that
`psa_import_key` left behind; the status of the import plays no part. When
the import fails with `PSA_ERROR_BAD_STATE` and the signature check answers
`PSA_SUCCESS`, `verifySignature` returns true. -/
theorem verifier_ignores_import_status :
    (∀ (m : signVerifyMgr) (imp : ImportAnswer) (verify : Nat → psa_status_t),
        (m.verifySignature imp verify).1 = true ↔ verify imp.handle = PSA_SUCCESS) ∧
      (∀ (m : signVerifyMgr) (s₁ s₂ : psa_status_t) (h : Nat) (verify : Nat → psa_status_t),
        (m.verifySignature ⟨s₁, h⟩ verify).1 = (m.verifySignature ⟨s₂, h⟩ verify).1) ∧
      (({ status := 0, m_handle := 0 } : signVerifyMgr).verifySignature
          ⟨PSA_ERROR_BAD_STATE, 0⟩ (fun _ => PSA_SUCCESS)).1 = true ∧
      (⟨PSA_ERROR_BAD_STATE, 0⟩ : ImportAnswer).status ≠ PSA_SUCCESS := by
  refine ⟨fun m imp verify => ?_, fun m s₁ s₂ h verify => rfl, by decide, by decide⟩
  by_cases h : verify imp.handle = PSA_SUCCESS <;> simp [signVerifyMgr.verifySignature, h]

/-! ## Receive interrupt and drain task: results -/

theorem rxPathStep_inv (cap : Nat) (hcap : 1 ≤ cap) (p : RxPath) (e : RxEvent)
    (h : p.pending ≤ 1 ∧ (p.attached = true ↔ p.pending = 0)) :
    (rxPathStep cap p e).pending ≤ 1 ∧
      ((rxPathStep cap p e).attached = true ↔ (rxPathStep cap p e).pending = 0) := by
  obtain ⟨h1, h2⟩ := h
  cases e with
  | byteArrives b => exact ⟨h1, h2⟩
  | rxInterrupt =>
    by_cases ha : p.attached = true
    · have h0 : p.pending = 0 := h2.mp ha
      have hpos : 0 < cap := by omega
      have hne : cap ≠ 0 := by omega
      simp [rxPathStep, onDataReceived, ha, h0, hpos, hne]
    · simp only [rxPathStep, ha]
      exact ⟨h1, h2⟩
  | dispatch =>
    by_cases hp : 0 < p.pending
    · have h1' : p.pending = 1 := by omega
      simp [rxPathStep, myCallback, h1']
    · simp only [rxPathStep, hp]
      exact ⟨h1, h2⟩

theorem rxPathRun_inv (cap : Nat) (hcap : 1 ≤ cap) (es : List RxEvent) :
    ∀ p : RxPath, (p.pending ≤ 1 ∧ (p.attached = true ↔ p.pending = 0)) →
      (rxPathRun cap p es).pending ≤ 1 ∧
        ((rxPathRun cap p es).attached = true ↔ (rxPathRun cap p es).pending = 0) := by
  induction es with
  | nil => intro p h; exact h
  | cons e es ih => intro p h; exact ih _ (rxPathStep_inv cap hcap p e h)

/-- C28: interrupt serialisation. From the state in which `main()` attaches
the handler, after every sequence of byte arrivals, receive interrupts and
dispatches, at most one drain task is pending and the handler is attached
exactly when none is pending. Hence an interrupt that runs `onDataReceived`
finds no drain task pending and its `queue->call` finds room, and the ring
buffer is written by dispatched drain tasks only, one at a time. -/
theorem interrupt_serialisation (cap : Nat) (hcap : 1 ≤ cap) (rb : CRingBuffer)
    (es : List RxEvent) :
    (rxPathRun cap (RxPath.init rb) es).pending ≤ 1 ∧
      ((rxPathRun cap (RxPath.init rb) es).attached = true ↔
        (rxPathRun cap (RxPath.init rb) es).pending = 0) ∧
      ((rxPathRun cap (RxPath.init rb) es).attached = true →
        (rxPathRun cap (RxPath.init rb) es).pending = 0 ∧
          (rxPathStep cap (rxPathRun cap (RxPath.init rb) es) RxEvent.rxInterrupt).pending =
            1 ∧
          (rxPathStep cap (rxPathRun cap (RxPath.init rb) es) RxEvent.rxInterrupt).attached =
            false) ∧
      ((rxPathRun cap (RxPath.init rb) es).attached = false →
        rxPathStep cap (rxPathRun cap (RxPath.init rb) es) RxEvent.rxInterrupt =
          rxPathRun cap (RxPath.init rb) es) ∧
      (∀ b : Byte,
        (rxPathStep cap (rxPathRun cap (RxPath.init rb) es) (RxEvent.byteArrives b)).uartRxBuf =
          (rxPathRun cap (RxPath.init rb) es).uartRxBuf) ∧
      (rxPathStep cap (rxPathRun cap (RxPath.init rb) es) RxEvent.rxInterrupt).uartRxBuf =
        (rxPathRun cap (RxPath.init rb) es).uartRxBuf := by
  obtain ⟨h1, h2⟩ := rxPathRun_inv cap hcap es (RxPath.init rb)
    ⟨by simp [RxPath.init], by simp [RxPath.init]⟩
  refine ⟨h1, h2, fun ha => ?_, fun ha => ?_, fun b => rfl, ?_⟩
  · have h0 := h2.mp ha
    have hne : cap ≠ 0 := by omega
    simp [rxPathStep, onDataReceived, ha, h0, hne]
  · simp [rxPathStep, ha]
  · by_cases ha : (rxPathRun cap (RxPath.init rb) es).attached = true <;>
      simp [rxPathStep, onDataReceived, ha]

/-- Witness for C28: two bytes arrive, the interrupt fires twice (the second
time detached, without effect), the drain task runs and the interrupt fires
again. -/
theorem interrupt_serialisation_witness :
    1 ≤ 32 ∧
      (rxPathRun 32 (RxPath.init emptyBuffer)
          [RxEvent.byteArrives 0x24, RxEvent.rxInterrupt, RxEvent.byteArrives 0x2A,
            RxEvent.rxInterrupt, RxEvent.dispatch, RxEvent.rxInterrupt]).pending ≤ 1 :=
  ⟨by decide,
    (interrupt_serialisation 32 (by decide) emptyBuffer
      [RxEvent.byteArrives 0x24, RxEvent.rxInterrupt, RxEvent.byteArrives 0x2A,
        RxEvent.rxInterrupt, RxEvent.dispatch, RxEvent.rxInterrupt]).1⟩

/-! ## Frame parser with payload length 0: results -/

set_option maxRecDepth 100000

theorem carRxFeed_zero_length (d : List Byte) :
    ∀ (i : Nat) (c : Byte) (m : Mem), i + d.length < 2 ^ 32 →
      ∃ c' m', carRxFeed 0 ⟨i, c, car_rxStates_t.CAR_RX_DATA⟩ m d =
          (List.replicate d.length false, ⟨i + d.length, c', car_rxStates_t.CAR_RX_DATA⟩, m') ∧
        (List.range (i + d.length)).map m' = (List.range i).map m ++ d := by
  induction d with
  | nil => intro i c m _; exact ⟨c, m, rfl, by simp⟩
  | cons x t ih =>
    intro i c m hlen
    simp only [List.length_cons] at hlen
    have hmod : (i + 1) % 2 ^ 32 = i + 1 := Nat.mod_eq_of_lt (by omega)
    have hs := switch_data_more 0 i x m (by omega)
    rw [hmod] at hs
    obtain ⟨c', m', hf, hm⟩ := ih (i + 1) x (Function.update m i x) (by omega)
    refine ⟨c', m', ?_, ?_⟩
    · rw [carRxFeed_cons]
      show (((car_rxData_switch ⟨i, x, car_rxStates_t.CAR_RX_DATA⟩ m 0).1 :: _, _, _) :
        List Bool × CarRxStatics × Mem) = _
      rw [hs]
      simp only []
      rw [hf]
      simp only [List.length_cons, List.replicate_succ]
      have e : i + 1 + t.length = i + (t.length + 1) := by omega
      rw [e]
    · have e : i + (x :: t).length = i + 1 + t.length := by simp only [List.length_cons]; omega
      rw [e, hm, List.range_succ, List.map_append]
      simp only [List.map_cons, List.map_nil, Function.update_same, List.append_assoc,
        List.singleton_append]
      congr 1
      apply List.map_congr_left
      intro k hk
      have hk' : k ≠ i := by
        have := List.mem_range.mp hk
        omega
      simp [Function.update, hk']

/-- C29 (divergence): with payload length 0, when the bytes consumed by a
parser started in its initial state are the start marker followed by any
bytes `d` (fewer than `2^32`), every call returns false, the parser is still
in `CAR_RX_DATA` with `dataIdx` equal to the number of these bytes, and the
caller's buffer holds all of them at indices `0, 1, 2, ...`: each one was
written at an index that is not below the length, and the parser does not
move to `CAR_RX_EOP1`. -/
theorem zero_length_overruns_buffer (rb : CRingBuffer) (buf : Mem) (evs : List LinkEvent)
    (d : List Byte) (hd : d.length < 2 ^ 32)
    (hfed : consumedBytes (carRxRun 0 (CarRxSys.init rb buf) evs).2 =
      [CAR_PROTOCOL_SOF] ++ d) :
    consumingResults (carRxRun 0 (CarRxSys.init rb buf) evs).2 =
        List.replicate (d.length + 1) false ∧
      (∀ e ∈ (carRxRun 0 (CarRxSys.init rb buf) evs).2, e.result = false) ∧
      (carRxRun 0 (CarRxSys.init rb buf) evs).1.statics.state = car_rxStates_t.CAR_RX_DATA ∧
      (carRxRun 0 (CarRxSys.init rb buf) evs).1.statics.dataIdx = d.length ∧
      (List.range d.length).map (carRxRun 0 (CarRxSys.init rb buf) evs).1.myData = d := by
  obtain ⟨hA, hB⟩ := carRxRun_feed 0 evs (CarRxSys.init rb buf)
  rw [hfed, carRxFeed_append] at hA
  have h1 : carRxFeed 0 (CarRxSys.init rb buf).statics (CarRxSys.init rb buf).myData
      [CAR_PROTOCOL_SOF] = ([false], ⟨0, CAR_PROTOCOL_SOF, car_rxStates_t.CAR_RX_DATA⟩, buf) := by
    rfl
  rw [h1] at hA
  obtain ⟨c', m', hf, hm⟩ := carRxFeed_zero_length d 0 CAR_PROTOCOL_SOF buf (by omega)
  simp only [] at hA
  rw [hf] at hA
  simp only [Prod.mk.injEq] at hA
  obtain ⟨hA1, hA2, hA3⟩ := hA
  have hres : consumingResults (carRxRun 0 (CarRxSys.init rb buf) evs).2 =
      List.replicate (d.length + 1) false := by
    rw [← hA1, List.replicate_succ]
    rfl
  refine ⟨hres, fun e he => ?_, by rw [← hA2], by rw [← hA2]; simp, ?_⟩
  · cases hc : e.consumed with
    | none => exact hB e he hc
    | some b =>
      have hmem : e.result ∈ consumingResults (carRxRun 0 (CarRxSys.init rb buf) evs).2 := by
        simp only [consumingResults, List.mem_map, List.mem_filter]
        exact ⟨e, ⟨he, by simp [hc]⟩, rfl⟩
      rw [hres] at hmem
      exact (List.mem_replicate.mp hmem).2
  · rw [← hA3]
    simpa using hm

/-- Witness for C29: the bytes `'$' 'A' '@' '#'` fed one by one to a parser
with payload length 0: the three bytes after the start marker end up in the
caller's buffer at indices 0, 1, 2, and no call returns true. -/
theorem zero_length_overruns_buffer_witness :
    (([0x41, 0x40, 0x23] : List Byte).length < 2 ^ 32 ∧
        consumedBytes (carRxRun 0 (CarRxSys.init emptyBuffer (fun _ => 0))
          (feedEvents [0x24, 0x41, 0x40, 0x23])).2 =
          [CAR_PROTOCOL_SOF] ++ [0x41, 0x40, 0x23]) ∧
      (∀ e ∈ (carRxRun 0 (CarRxSys.init emptyBuffer (fun _ => 0))
          (feedEvents [0x24, 0x41, 0x40, 0x23])).2, e.result = false) ∧
      (List.range ([0x41, 0x40, 0x23] : List Byte).length).map
          (carRxRun 0 (CarRxSys.init emptyBuffer (fun _ => 0))
            (feedEvents [0x24, 0x41, 0x40, 0x23])).1.myData = [0x41, 0x40, 0x23] :=
  ⟨⟨by decide, by decide⟩,
    (zero_length_overruns_buffer emptyBuffer (fun _ => 0)
      (feedEvents [0x24, 0x41, 0x40, 0x23]) [0x41, 0x40, 0x23] (by decide) (by decide)).2.1,
    (zero_length_overruns_buffer emptyBuffer (fun _ => 0)
      (feedEvents [0x24, 0x41, 0x40, 0x23]) [0x41, 0x40, 0x23] (by decide)
      (by decide)).2.2.2.2⟩

/-! ## Ack recognizer: results -/

theorem car_CheckAckRxd_pos (s : CarAckStatics) (rb : CRingBuffer) (h : 0 < rb.m_fillLevel) :
    car_CheckAckRxd s rb =
      ((car_CheckAckRxd_switch s.state (rb.m_pBuffer rb.m_readIdx)).1,
        ⟨rb.m_pBuffer rb.m_readIdx,
          (car_CheckAckRxd_switch s.state (rb.m_pBuffer rb.m_readIdx)).2⟩,
        (rb.read 0).2.2) := by
  obtain ⟨c, st⟩ := s
  simp only [car_CheckAckRxd, read_of_pos _ _ h, car_CheckAckRxd_switch]
  cases st <;> simp only [if_true] <;> split_ifs <;> rfl

theorem car_CheckAckRxd_zero (s : CarAckStatics) (rb : CRingBuffer) (h : rb.m_fillLevel = 0) :
    car_CheckAckRxd s rb = (false, s, rb) := by
  simp [car_CheckAckRxd, read_of_zero _ _ h]

theorem ackInv_step (s : car_rxAckStates_t) (l : List Byte) (b : Byte) (h : ackInv s l) :
    ackInv (car_CheckAckRxd_switch s b).2 (l ++ [b]) ∧
      ((car_CheckAckRxd_switch s b).1 = true →
        ∃ pre, l ++ [b] = pre ++ [CAR_PROTOCOL_SOF, CAR_POS_ACK_BYTE_1, CAR_POS_ACK_BYTE_2]) := by
  cases s with
  | CAR_RX_ACK_SOP =>
    by_cases hb : b = CAR_PROTOCOL_SOF
    · simp only [car_CheckAckRxd_switch, if_pos hb]
      exact ⟨⟨l, by rw [hb]⟩, fun hf => absurd hf (by simp)⟩
    · simp only [car_CheckAckRxd_switch, if_neg hb]
      exact ⟨trivial, fun hf => absurd hf (by simp)⟩
  | CAR_RX_ACK_BYTE1 =>
    obtain ⟨pre, hpre⟩ := h
    by_cases hb : b = CAR_POS_ACK_BYTE_1
    · simp only [car_CheckAckRxd_switch, if_pos hb]
      exact ⟨⟨pre, by rw [hpre, hb]; simp⟩, fun hf => absurd hf (by simp)⟩
    · simp only [car_CheckAckRxd_switch, if_neg hb]
      exact ⟨trivial, fun hf => absurd hf (by simp)⟩
  | CAR_RX_ACK_BYTE2 =>
    obtain ⟨pre, hpre⟩ := h
    by_cases hb : b = CAR_POS_ACK_BYTE_2
    · simp only [car_CheckAckRxd_switch, if_pos hb]
      exact ⟨trivial, fun _ => ⟨pre, by rw [hpre, hb]; simp⟩⟩
    · simp only [car_CheckAckRxd_switch, if_neg hb]
      exact ⟨trivial, fun hf => absurd hf (by simp)⟩

theorem ackInv_feed (bs : List Byte) :
    ∀ (s : car_rxAckStates_t) (l : List Byte), ackInv s l →
      ackInv (carAckFeed s bs).2 (l ++ bs) ∧
        ((carAckFeed s bs).1.getLast? = some true →
          ∃ pre, l ++ bs =
            pre ++ [CAR_PROTOCOL_SOF, CAR_POS_ACK_BYTE_1, CAR_POS_ACK_BYTE_2]) := by
  induction bs with
  | nil =>
    intro s l h
    refine ⟨by simpa [carAckFeed] using h, fun hf => ?_⟩
    simp [carAckFeed] at hf
  | cons b t ih =>
    intro s l h
    obtain ⟨hs1, hs2⟩ := ackInv_step s l b h
    obtain ⟨ih1, ih2⟩ := ih _ _ hs1
    have happ : l ++ b :: t = l ++ [b] ++ t := by simp
    rw [happ]
    refine ⟨ih1, fun hf => ?_⟩
    cases t with
    | nil =>
      simp only [carAckFeed, List.getLast?_singleton, Option.some.injEq] at hf
      simpa [carAckFeed] using hs2 hf
    | cons b2 t2 =>
      apply ih2
      simp only [carAckFeed] at hf ⊢
      simpa [List.getLast?_cons_cons] using hf

theorem mpi_read_write_upto (X n : Nat) (buf : Mem) (hX : X < 256 ^ n) :
    ∀ k, k ≤ n →
      mbedtls_mpi_read_binary (mbedtls_mpi_write_binary X buf n).2 k = X / 256 ^ (n - k) := by
  intro k
  induction k with
  | zero =>
    intro _
    simp only [mbedtls_mpi_read_binary, Nat.sub_zero]
    exact (Nat.div_eq_of_lt hX).symm
  | succ k ih =>
    intro hk
    have hw : (mbedtls_mpi_write_binary X buf n).2 k = byteOf (X / 256 ^ (n - 1 - k)) := by
      simp only [mbedtls_mpi_write_binary, if_pos hX]
      rw [if_pos (by omega)]
    simp only [mbedtls_mpi_read_binary, ih (by omega), hw, byteOf]
    have e1 : n - k = (n - (k + 1)) + 1 := by omega
    have e2 : n - 1 - k = n - (k + 1) := by omega
    rw [e1, e2, pow_succ, ← Nat.div_div_eq_div_mul]
    exact Nat.div_add_mod' _ _

theorem mpi_read_write (X n : Nat) (buf : Mem) (hX : X < 256 ^ n) :
    mbedtls_mpi_read_binary (mbedtls_mpi_write_binary X buf n).2 n = X := by
  rw [mpi_read_write_upto X n buf hX n (le_refl _)]
  simp

theorem dhKeyLoop_key (z : Nat) (k₁ k₂ : Mem) :
    (List.range 16).map (dhKeyLoop z k₁ 4) = (List.range 16).map (dhKeyLoop z k₂ 4) := by
  simp [List.range, List.range.loop, dhKeyLoop, Function.update]

theorem toyEcdh_symmetric (a b : Nat) :
    toyEcdh.mbedtls_ecdh_compute_shared (toyEcdh.mbedtls_ecdh_gen_public b) a =
      toyEcdh.mbedtls_ecdh_compute_shared (toyEcdh.mbedtls_ecdh_gen_public a) b := by
  show (5 ^ b % 1009) ^ a % 1009 = (5 ^ a % 1009) ^ b % 1009
  rw [← Nat.pow_mod, ← Nat.pow_mod, ← pow_mul, ← pow_mul, Nat.mul_comm]

theorem toyEcdh_size (d : Nat) : toyEcdh.mbedtls_ecdh_gen_public d < 2 ^ 256 := by
  have h : toyEcdh.mbedtls_ecdh_gen_public d < 1009 := Nat.mod_lt _ (by decide)
  exact lt_trans h (by norm_num)

theorem dh_generate_ok (lib : EcdhLibrary) (ans : EcdhAnswers) (raw : dhKeyExchangeMgr)
    (pub : Mem) (h : ans.succeed) (hsize : lib.mbedtls_ecdh_gen_public ans.d < 2 ^ 256) :
    (dhKeyExchangeMgr.ctor raw ans).generateDhKey lib ans pub =
      (errorTypeKeyExchange_T.KEYEXCHANGE_INIT_SUCCESS,
        ⟨errorTypeKeyExchange_T.KEYEXCHANGE_INIT_SUCCESS, ans.d,
          lib.mbedtls_ecdh_gen_public ans.d, 0, 0⟩,
        (mbedtls_mpi_write_binary (lib.mbedtls_ecdh_gen_public ans.d) pub
          DEFFIE_HELMANN_KEY_SIZE).2) := by
  obtain ⟨h1, h2, h3, _, _, _⟩ := h
  have hfit : lib.mbedtls_ecdh_gen_public ans.d < 256 ^ DEFFIE_HELMANN_KEY_SIZE := by
    have e : (256 : Nat) ^ DEFFIE_HELMANN_KEY_SIZE = 2 ^ 256 := by
      simp only [DEFFIE_HELMANN_KEY_SIZE]; norm_num
    rw [e]; exact hsize
  have hw : (mbedtls_mpi_write_binary (lib.mbedtls_ecdh_gen_public ans.d) pub
      DEFFIE_HELMANN_KEY_SIZE).1 = 0 := by
    simp only [mbedtls_mpi_write_binary, if_pos hfit]
  simp [dhKeyExchangeMgr.ctor, dhKeyExchangeMgr.intializeDhKeyExchangeServices,
    dhKeyExchangeMgr.generateDhKey, h1, h2, h3, hw]

theorem dh_compute_ok (lib : EcdhLibrary) (ans : EcdhAnswers) (m : dhKeyExchangeMgr)
    (peer key : Mem) (h : ans.succeed) :
    m.computeSharedSecretDhKey lib ans peer key =
      (m.m_errorStatus,
        { m with
          Qp_X := mbedtls_mpi_read_binary peer DEFFIE_HELMANN_KEY_SIZE
          z := lib.mbedtls_ecdh_compute_shared
            (mbedtls_mpi_read_binary peer DEFFIE_HELMANN_KEY_SIZE) m.d },
        dhKeyLoop (lib.mbedtls_ecdh_compute_shared
          (mbedtls_mpi_read_binary peer DEFFIE_HELMANN_KEY_SIZE) m.d) key 4) := by
  obtain ⟨_, _, _, h4, h5, h6⟩ := h
  simp [dhKeyExchangeMgr.computeSharedSecretDhKey, h4, h5, h6]

theorem foldl_flag_true (f g : Mem) (l : List Nat) (h : ∀ i ∈ l, f i = g i) :
    l.foldl (fun flag i => if f i ≠ g i then false else flag) true = true := by
  induction l with
  | nil => rfl
  | cons x t ih =>
    have hx : f x = g x := h x (List.mem_cons_self _ _)
    simp only [List.foldl_cons, hx, ne_eq, not_true_eq_false, if_false]
    exact ih (fun i hi => h i (List.mem_cons_of_mem _ hi))

/-- C24: key-exchange symmetry, relative to the library. For every library
whose shared-secret computation is symmetric in the two key pairs and whose
public coordinates fit 32 bytes, and for two managers A and B whose library
calls all succeed, with arbitrary private scalars: both `generateDhKey` calls
and both `computeSharedSecretDhKey` calls return `KEYEXCHANGE_INIT_SUCCESS`,
the 16 bytes that `A.computeSharedSecretDhKey(pubB)` writes equal the 16 bytes
that `B.computeSharedSecretDhKey(pubA)` writes, and
`dhKeyExchange_matchEncryptionKeys` returns true. -/
theorem key_exchange_symmetry (lib : EcdhLibrary) (ansA ansB : EcdhAnswers)
    (rawA rawB : dhKeyExchangeMgr) (pubA pubB keyA keyB : Mem)
    (hsym : ∀ a b : Nat,
      lib.mbedtls_ecdh_compute_shared (lib.mbedtls_ecdh_gen_public b) a =
        lib.mbedtls_ecdh_compute_shared (lib.mbedtls_ecdh_gen_public a) b)
    (hsize : ∀ d : Nat, lib.mbedtls_ecdh_gen_public d < 2 ^ 256)
    (hA : ansA.succeed) (hB : ansB.succeed) :
    ((dhKeyExchangeMgr.ctor rawA ansA).generateDhKey lib ansA pubA).1 =
        errorTypeKeyExchange_T.KEYEXCHANGE_INIT_SUCCESS ∧
      ((dhKeyExchangeMgr.ctor rawB ansB).generateDhKey lib ansB pubB).1 =
        errorTypeKeyExchange_T.KEYEXCHANGE_INIT_SUCCESS ∧
      (((dhKeyExchangeMgr.ctor rawA ansA).generateDhKey lib ansA pubA).2.1.computeSharedSecretDhKey
          lib ansA ((dhKeyExchangeMgr.ctor rawB ansB).generateDhKey lib ansB pubB).2.2 keyA).1 =
        errorTypeKeyExchange_T.KEYEXCHANGE_INIT_SUCCESS ∧
      (((dhKeyExchangeMgr.ctor rawB ansB).generateDhKey lib ansB pubB).2.1.computeSharedSecretDhKey
          lib ansB ((dhKeyExchangeMgr.ctor rawA ansA).generateDhKey lib ansA pubA).2.2 keyB).1 =
        errorTypeKeyExchange_T.KEYEXCHANGE_INIT_SUCCESS ∧
      (List.range 16).map
          (((dhKeyExchangeMgr.ctor rawA ansA).generateDhKey lib ansA
            pubA).2.1.computeSharedSecretDhKey lib ansA
              ((dhKeyExchangeMgr.ctor rawB ansB).generateDhKey lib ansB pubB).2.2 keyA).2.2 =
        (List.range 16).map
          (((dhKeyExchangeMgr.ctor rawB ansB).generateDhKey lib ansB
            pubB).2.1.computeSharedSecretDhKey lib ansB
              ((dhKeyExchangeMgr.ctor rawA ansA).generateDhKey lib ansA pubA).2.2 keyB).2.2 ∧
      dhKeyExchange_matchEncryptionKeys lib ansA ansB rawA rawB pubA pubB keyB keyA = true := by
  have hfit : ∀ d, lib.mbedtls_ecdh_gen_public d < 256 ^ DEFFIE_HELMANN_KEY_SIZE := by
    intro d
    have e : (256 : Nat) ^ DEFFIE_HELMANN_KEY_SIZE = 2 ^ 256 := by
      simp only [DEFFIE_HELMANN_KEY_SIZE]; norm_num
    rw [e]; exact hsize d
  have hkeys : (List.range 16).map
      (dhKeyLoop (lib.mbedtls_ecdh_compute_shared (lib.mbedtls_ecdh_gen_public ansB.d) ansA.d)
        keyA 4) =
      (List.range 16).map
        (dhKeyLoop (lib.mbedtls_ecdh_compute_shared (lib.mbedtls_ecdh_gen_public ansA.d) ansB.d)
          keyB 4) := by
    rw [hsym ansA.d ansB.d]
    exact dhKeyLoop_key _ keyA keyB
  have hgA := dh_generate_ok lib ansA rawA pubA hA (hsize _)
  have hgB := dh_generate_ok lib ansB rawB pubB hB (hsize _)
  refine ⟨by rw [hgA], by rw [hgB], ?_, ?_, ?_, ?_⟩
  · rw [hgA, dh_compute_ok lib ansA _ _ _ hA]
  · rw [hgB, dh_compute_ok lib ansB _ _ _ hB]
  · rw [hgA, hgB, dh_compute_ok lib ansA _ _ _ hA, dh_compute_ok lib ansB _ _ _ hB]
    simp only [mpi_read_write _ _ _ (hfit _)]
    exact hkeys
  · unfold dhKeyExchange_matchEncryptionKeys
    simp only []
    rw [hgA, hgB, dh_compute_ok lib ansB _ _ _ hB, dh_compute_ok lib ansA _ _ _ hA]
    simp only [mpi_read_write _ _ _ (hfit _)]
    apply foldl_flag_true
    intro i hi
    have hk := congrArg (fun l => l[i]?) hkeys
    simp only [List.getElem?_map, List.getElem?_range (List.mem_range.mp hi),
      Option.map_some'] at hk
    exact (Option.some.inj hk).symm

/-- Witness for C24: with the powers of 5 modulo 1009 as the group, the private
scalars 6 and 15 give both managers the shared secret 378 and the key bytes
`00 00 01 7A` followed by twelve zero bytes. -/
theorem key_exchange_symmetry_witness :
    ((⟨0, 0, 0, 6, 0, 0, 0⟩ : EcdhAnswers).succeed ∧
        (⟨0, 0, 0, 15, 0, 0, 0⟩ : EcdhAnswers).succeed) ∧
      (List.range 16).map
          (((dhKeyExchangeMgr.ctor ⟨errorTypeKeyExchange_T.KEYEXCHANGE_INIT_FAIL, 0, 0, 0, 0⟩
            ⟨0, 0, 0, 6, 0, 0, 0⟩).generateDhKey toyEcdh ⟨0, 0, 0, 6, 0, 0, 0⟩
              (fun _ => 0)).2.1.computeSharedSecretDhKey toyEcdh ⟨0, 0, 0, 6, 0, 0, 0⟩
                ((dhKeyExchangeMgr.ctor
                  ⟨errorTypeKeyExchange_T.KEYEXCHANGE_INIT_FAIL, 0, 0, 0, 0⟩
                  ⟨0, 0, 0, 15, 0, 0, 0⟩).generateDhKey toyEcdh ⟨0, 0, 0, 15, 0, 0, 0⟩
                    (fun _ => 0)).2.2 (fun _ => 0xAA)).2.2 =
        (List.range 16).map
          (((dhKeyExchangeMgr.ctor ⟨errorTypeKeyExchange_T.KEYEXCHANGE_INIT_FAIL, 0, 0, 0, 0⟩
            ⟨0, 0, 0, 15, 0, 0, 0⟩).generateDhKey toyEcdh ⟨0, 0, 0, 15, 0, 0, 0⟩
              (fun _ => 0)).2.1.computeSharedSecretDhKey toyEcdh ⟨0, 0, 0, 15, 0, 0, 0⟩
                ((dhKeyExchangeMgr.ctor
                  ⟨errorTypeKeyExchange_T.KEYEXCHANGE_INIT_FAIL, 0, 0, 0, 0⟩
                  ⟨0, 0, 0, 6, 0, 0, 0⟩).generateDhKey toyEcdh ⟨0, 0, 0, 6, 0, 0, 0⟩
                    (fun _ => 0)).2.2 (fun _ => 0xBB)).2.2 ∧
      (List.range 16).map
          (((dhKeyExchangeMgr.ctor ⟨errorTypeKeyExchange_T.KEYEXCHANGE_INIT_FAIL, 0, 0, 0, 0⟩
            ⟨0, 0, 0, 6, 0, 0, 0⟩).generateDhKey toyEcdh ⟨0, 0, 0, 6, 0, 0, 0⟩
              (fun _ => 0)).2.1.computeSharedSecretDhKey toyEcdh ⟨0, 0, 0, 6, 0, 0, 0⟩
                ((dhKeyExchangeMgr.ctor
                  ⟨errorTypeKeyExchange_T.KEYEXCHANGE_INIT_FAIL, 0, 0, 0, 0⟩
                  ⟨0, 0, 0, 15, 0, 0, 0⟩).generateDhKey toyEcdh ⟨0, 0, 0, 15, 0, 0, 0⟩
                    (fun _ => 0)).2.2 (fun _ => 0xAA)).2.2 =
        [0, 0, 1, 0x7A, 0, 0, 0, 0, 0, 0, 0, 0, 0, 0, 0, 0] :=
  ⟨⟨by decide, by decide⟩,
    (key_exchange_symmetry toyEcdh ⟨0, 0, 0, 6, 0, 0, 0⟩ ⟨0, 0, 0, 15, 0, 0, 0⟩
      ⟨errorTypeKeyExchange_T.KEYEXCHANGE_INIT_FAIL, 0, 0, 0, 0⟩
      ⟨errorTypeKeyExchange_T.KEYEXCHANGE_INIT_FAIL, 0, 0, 0, 0⟩
      (fun _ => 0) (fun _ => 0) (fun _ => 0xAA) (fun _ => 0xBB)
      toyEcdh_symmetric toyEcdh_size (by decide) (by decide)).2.2.2.2.1,
    by decide⟩

/-! ## Data path of the cipher managers: results -/

theorem encryptionDhKeyHandle_object (m : encryptMgr) (dh : ImportAnswer) :
    (m.encryptionDhKeyHandle dh).2.1 = { m with m_handle := dh.handle } := by
  by_cases h : PSA_SUCCESS = dh.status <;>
    simp [encryptMgr.encryptionDhKeyHandle, encryptMgr.createKeyHandleForEncryption, h]

theorem remote_rxStates_toCar_bijective : Function.Bijective remote_rxStates_t.toCar := by
  constructor
  · intro a b h
    cases a <;> cases b <;> first | rfl | cases h
  · intro c
    cases c
    · exact ⟨remote_rxStates_t.REMOTE_RX_SOP, rfl⟩
    · exact ⟨remote_rxStates_t.REMOTE_RX_DATA, rfl⟩
    · exact ⟨remote_rxStates_t.REMOTE_RX_EOP1, rfl⟩
    · exact ⟨remote_rxStates_t.REMOTE_RX_EOP2, rfl⟩

theorem remote_rxAckStates_toCar_bijective : Function.Bijective remote_rxAckStates_t.toCar := by
  constructor
  · intro a b h
    cases a <;> cases b <;> first | rfl | cases h
  · intro c
    cases c
    · exact ⟨remote_rxAckStates_t.REMOTE_RX_ACK_SOP, rfl⟩
    · exact ⟨remote_rxAckStates_t.REMOTE_RX_ACK_BYTE1, rfl⟩
    · exact ⟨remote_rxAckStates_t.REMOTE_RX_ACK_BYTE2, rfl⟩

theorem remote_rxDataByte_switch_toCar (s : RemoteRxStatics) (m : Mem) (N : Nat) :
    ((remote_rxDataByte_switch s m N).1, (remote_rxDataByte_switch s m N).2.1.toCar,
        (remote_rxDataByte_switch s m N).2.2) = car_rxData_switch s.toCar m N := by
  obtain ⟨i, c, st⟩ := s
  cases st <;>
    simp only [remote_rxDataByte_switch, car_rxData_switch, RemoteRxStatics.toCar,
      remote_rxStates_t.toCar, REMOTE_PROTOCOL_SOF, CAR_PROTOCOL_SOF, REMOTE_PROTOCOL_EOP1,
      CAR_PROTOCOL_EOP1, REMOTE_PROTOCOL_EOP2, CAR_PROTOCOL_EOP2] <;>
    split_ifs <;> rfl

theorem remote_rxDataByte_toCar (s : RemoteRxStatics) (m : Mem) (N : Nat) (rb : CRingBuffer) :
    ((remote_rxDataByte s m N rb).1, (remote_rxDataByte s m N rb).2.1.toCar,
        (remote_rxDataByte s m N rb).2.2.1, (remote_rxDataByte s m N rb).2.2.2) =
      car_rxData s.toCar m N rb := by
  by_cases hpos : 0 < rb.m_fillLevel
  · have h := remote_rxDataByte_switch_toCar { s with ch := rb.m_pBuffer rb.m_readIdx } m N
    simp only [Prod.ext_iff] at h
    obtain ⟨h1, h2, h3⟩ := h
    simp only [remote_rxDataByte, car_rxData, RemoteRxStatics.toCar, read_of_pos _ _ hpos,
      if_true] at h1 h2 h3 ⊢
    rw [h1, h2, h3]
  · have hz : rb.m_fillLevel = 0 := by omega
    simp [remote_rxDataByte, car_rxData, RemoteRxStatics.toCar, read_of_zero _ _ hz]

theorem remote_checkAckRxd_toCar (s : RemoteAckStatics) (q : CRingBuffer) :
    ((remote_checkAckRxd s q).1, (remote_checkAckRxd s q).2.1.toCar,
        (remote_checkAckRxd s q).2.2) = car_CheckAckRxd s.toCar q := by
  obtain ⟨c, st⟩ := s
  by_cases hpos : 0 < q.m_fillLevel
  · simp only [remote_checkAckRxd, car_CheckAckRxd, RemoteAckStatics.toCar,
      read_of_pos _ _ hpos, REMOTE_PROTOCOL_SOF, CAR_PROTOCOL_SOF, REMOTE_POS_ACK_BYTE_1,
      CAR_POS_ACK_BYTE_1, REMOTE_POS_ACK_BYTE_2, CAR_POS_ACK_BYTE_2]
    cases st <;> simp only [remote_rxAckStates_t.toCar, if_true] <;> split_ifs <;> rfl
  · have hz : q.m_fillLevel = 0 := by omega
    simp [remote_checkAckRxd, car_CheckAckRxd, RemoteAckStatics.toCar, read_of_zero _ _ hz]

theorem remoteRxStep_toCar (N : Nat) (sys : RemoteRxSys) (e : LinkEvent) :
    ((remoteRxStep N sys e).1.toCar, (remoteRxStep N sys e).2) = carRxStep N sys.toCar e := by
  cases e with
  | rx b => rfl
  | poll =>
    have h := remote_rxDataByte_toCar sys.statics sys.rxdData N sys.uartRxBuf
    simp only [Prod.ext_iff] at h
    obtain ⟨h1, h2, h3, h4⟩ := h
    simp only [remoteRxStep, carRxStep, RemoteRxSys.toCar] at h1 h2 h3 h4 ⊢
    rw [h1, h2, h3, h4]

theorem remoteRxRun_toCar (N : Nat) (evs : List LinkEvent) :
    ∀ sys : RemoteRxSys,
      ((remoteRxRun N sys evs).1.toCar, (remoteRxRun N sys evs).2) =
        carRxRun N sys.toCar evs := by
  induction evs with
  | nil => intro sys; rfl
  | cons e es ih =>
    intro sys
    have hs := remoteRxStep_toCar N sys e
    have hi := ih (remoteRxStep N sys e).1
    simp only [Prod.ext_iff] at hs hi
    simp only [remoteRxRun, carRxRun, Prod.ext_iff]
    rw [← hs.1, ← hs.2, ← hi.1, ← hi.2]
    exact ⟨rfl, rfl⟩

theorem car_rxData_calls_frame (n : Nat) (hn : 1 ≤ n) (P : List Byte) (hP : P.length = n)
    (buf : Mem) (c : Byte) (rb : CRingBuffer) (hinv : rb.Inv) (hq : rb.toList = frameBytes P) :
    (car_rxData_calls n ⟨rb, ⟨0, c, car_rxStates_t.CAR_RX_SOP⟩, buf⟩ (n + 3)).2.map
          PollLog.result = List.replicate (n + 2) false ++ [true] ∧
      (List.range n).map
        (car_rxData_calls n ⟨rb, ⟨0, c, car_rxStates_t.CAR_RX_SOP⟩, buf⟩ (n + 3)).1.myData = P := by
  have hlen : n + 3 ≤ 500 := by
    have h := toList_length rb
    rw [hq] at h
    simp only [frameBytes, List.length_append, List.length_cons, List.length_nil, hP] at h
    have := hinv.1
    omega
  have hN : n < 2 ^ 32 := by omega
  have hfl : (frameBytes P).length = n + 3 := by
    simp only [frameBytes, List.length_append, List.length_cons, List.length_nil, hP]
    omega
  have hp := carRxRun_polls n (frameBytes P) ⟨rb, ⟨0, c, car_rxStates_t.CAR_RX_SOP⟩, buf⟩ hinv hq
  rw [hfl] at hp
  obtain ⟨hp1, hp2, _⟩ := hp
  have hA := (carRxRun_feed n (List.replicate (n + 3) LinkEvent.poll)
    ⟨rb, ⟨0, c, car_rxStates_t.CAR_RX_SOP⟩, buf⟩).1
  rw [hp1] at hA
  obtain ⟨c', m', hf1, hf2⟩ := carRxFeed_frame n hn hN P hP c buf
  rw [hf1] at hA
  simp only [Prod.mk.injEq] at hA
  obtain ⟨hA1, _, hA3⟩ := hA
  unfold car_rxData_calls
  exact ⟨by rw [hp2, ← hA1], by rw [← hA3]; exact hf2⟩

theorem remote_rxDataByte_calls_toCar (N : Nat) (sys : RemoteRxSys) (k : Nat) :
    ((remote_rxDataByte_calls N sys k).1.toCar, (remote_rxDataByte_calls N sys k).2) =
      car_rxData_calls N sys.toCar k :=
  remoteRxRun_toCar N (List.replicate k LinkEvent.poll) sys

/-- C37: the codec of the remote is the codec of the car. With the marker
values of the wire format, and the states of the two parsers and of the two
ack recognizers matched enumerator by enumerator (a one-to-one correspondence
under which the initial `static` variables correspond), for every starting
state, every buffer content, every length and every ring buffer:
`remote_rxDataByte` returns what `car_rxData` returns and leaves the
corresponding `static` variables, the same caller's buffer and the same ring
buffer; so does `remote_checkAckRxd` with `car_CheckAckRxd`;
`remote_createtxPacket` writes what `car_createtxPacket` writes;
`remote_sendDataByte` returns, counts and emits what `car_SendDataByte` does.
Consequently a frame with `n ≥ 1` payload bytes built by
`remote_createtxPacket` and held by a ring buffer is parsed by `n + 3` calls of
`car_rxData` (false `n + 2` times, then true, payload in the caller's buffer),
and a frame built by `car_createtxPacket` is parsed in the same way by
`remote_rxDataByte`. -/
theorem codecs_coincide :
    (Function.Bijective remote_rxStates_t.toCar ∧
        Function.Bijective remote_rxAckStates_t.toCar ∧
        RemoteRxStatics.init.toCar = CarRxStatics.init ∧
        RemoteAckStatics.init.toCar = CarAckStatics.init) ∧
      (∀ (s : RemoteRxStatics) (rxdData : Mem) (dataLength : Nat) (uartRxBuf : CRingBuffer),
        ((remote_rxDataByte s rxdData dataLength uartRxBuf).1,
            (remote_rxDataByte s rxdData dataLength uartRxBuf).2.1.toCar,
            (remote_rxDataByte s rxdData dataLength uartRxBuf).2.2.1,
            (remote_rxDataByte s rxdData dataLength uartRxBuf).2.2.2) =
          car_rxData s.toCar rxdData dataLength uartRxBuf) ∧
      (∀ (s : RemoteAckStatics) (uartRxBuf : CRingBuffer),
        ((remote_checkAckRxd s uartRxBuf).1, (remote_checkAckRxd s uartRxBuf).2.1.toCar,
            (remote_checkAckRxd s uartRxBuf).2.2) = car_CheckAckRxd s.toCar uartRxBuf) ∧
      (∀ (inputBuffer outputBuffer : Mem) (length : Int),
        remote_createtxPacket inputBuffer outputBuffer length =
          car_createtxPacket inputBuffer outputBuffer length) ∧
      (∀ (bufIdx : Int) (buffer : Mem) (length : Nat) (writeable : Bool) (serial : RawSerial),
        remote_sendDataByte bufIdx buffer length writeable serial =
          car_SendDataByte bufIdx buffer length writeable serial) ∧
      (∀ (n : Nat) (payload out0 buf : Mem) (c : Byte) (rb : CRingBuffer), 1 ≤ n → rb.Inv →
        rb.toList = (List.range (n + 3)).map (remote_createtxPacket payload out0 n) →
        (car_rxData_calls n ⟨rb, ⟨0, c, car_rxStates_t.CAR_RX_SOP⟩, buf⟩ (n + 3)).2.map
              PollLog.result = List.replicate (n + 2) false ++ [true] ∧
          (List.range n).map
              (car_rxData_calls n ⟨rb, ⟨0, c, car_rxStates_t.CAR_RX_SOP⟩, buf⟩
                (n + 3)).1.myData = (List.range n).map payload) ∧
      (∀ (n : Nat) (payload out0 buf : Mem) (c : Byte) (rb : CRingBuffer), 1 ≤ n → rb.Inv →
        rb.toList = (List.range (n + 3)).map (car_createtxPacket payload out0 n) →
        (remote_rxDataByte_calls n ⟨rb, ⟨0, c, remote_rxStates_t.REMOTE_RX_SOP⟩, buf⟩
              (n + 3)).2.map PollLog.result = List.replicate (n + 2) false ++ [true] ∧
          (List.range n).map
              (remote_rxDataByte_calls n ⟨rb, ⟨0, c, remote_rxStates_t.REMOTE_RX_SOP⟩, buf⟩
                (n + 3)).1.rxdData = (List.range n).map payload) := by
  refine ⟨⟨remote_rxStates_toCar_bijective, remote_rxAckStates_toCar_bijective, rfl, rfl⟩,
    remote_rxDataByte_toCar, remote_checkAckRxd_toCar, remote_createtxPacket_eq,
    fun _ _ _ _ _ => rfl, ?_, ?_⟩
  · intro n payload out0 buf c rb hn hinv hq
    rw [remote_createtxPacket_eq, car_createtxPacket_frame] at hq
    exact car_rxData_calls_frame n hn _ (by simp) buf c rb hinv hq
  · intro n payload out0 buf c rb hn hinv hq
    rw [car_createtxPacket_frame] at hq
    have h := remote_rxDataByte_calls_toCar n
      ⟨rb, ⟨0, c, remote_rxStates_t.REMOTE_RX_SOP⟩, buf⟩ (n + 3)
    have hc := car_rxData_calls_frame n hn _ (by simp) buf c rb hinv hq
    simp only [Prod.ext_iff] at h
    obtain ⟨h1, h2⟩ := h
    have e : (RemoteRxSys.toCar ⟨rb, ⟨0, c, remote_rxStates_t.REMOTE_RX_SOP⟩, buf⟩) =
        ⟨rb, ⟨0, c, car_rxStates_t.CAR_RX_SOP⟩, buf⟩ := rfl
    rw [e] at h1 h2
    rw [← h1, ← h2] at hc
    exact hc

/-- Witness for C37: the frame that `remote_createtxPacket` builds for the
payload `0x24 0x40` is parsed by five calls of `car_rxData`, and the frame that
`car_createtxPacket` builds for it by five calls of `remote_rxDataByte`. -/
theorem codecs_coincide_witness :
    (1 ≤ 2 ∧ frameBuffer.Inv ∧
        frameBuffer.toList = (List.range (2 + 3)).map
          (remote_createtxPacket (fun i => if i = 0 then 0x24 else 0x40) (fun _ => 0) 2) ∧
        frameBuffer.toList = (List.range (2 + 3)).map
          (car_createtxPacket (fun i => if i = 0 then 0x24 else 0x40) (fun _ => 0) 2)) ∧
      (car_rxData_calls 2 ⟨frameBuffer, ⟨0, 0, car_rxStates_t.CAR_RX_SOP⟩, fun _ => 0⟩
          (2 + 3)).2.map PollLog.result = List.replicate (2 + 2) false ++ [true] ∧
      (remote_rxDataByte_calls 2
          ⟨frameBuffer, ⟨0, 0, remote_rxStates_t.REMOTE_RX_SOP⟩, fun _ => 0⟩
          (2 + 3)).2.map PollLog.result = List.replicate (2 + 2) false ++ [true] :=
  ⟨⟨by decide, by decide, by decide, by decide⟩,
    (codecs_coincide.2.2.2.2.2.1 2 (fun i => if i = 0 then 0x24 else 0x40) (fun _ => 0)
      (fun _ => 0) 0 frameBuffer (by decide) (by decide) (by decide)).1,
    (codecs_coincide.2.2.2.2.2.2 2 (fun i => if i = 0 then 0x24 else 0x40) (fun _ => 0)
      (fun _ => 0) 0 frameBuffer (by decide) (by decide) (by decide)).1⟩

/-! ## A frame cut off before its end markers: results -/

theorem all_results_false (log : List PollLog) (n : Nat)
    (hres : consumingResults log = List.replicate n false)
    (hB : ∀ e ∈ log, e.consumed = none → e.result = false) : ∀ e ∈ log, e.result = false := by
  intro e he
  cases hc : e.consumed with
  | none => exact hB e he hc
  | some b =>
    have hmem : e.result ∈ consumingResults log := by
      simp only [consumingResults, List.mem_map, List.mem_filter]
      exact ⟨e, ⟨he, by simp [hc]⟩, rfl⟩
    rw [hres] at hmem
    exact (List.mem_replicate.mp hmem).2

theorem carRxFeed_truncated (N : Nat) (h1 : 1 ≤ N) (hN : N < 2 ^ 32) (Q P : List Byte)
    (hQ : Q.length = N) (hP : P.length = N) (hP24 : ∀ b ∈ P, b ≠ CAR_PROTOCOL_SOF)
    (c : Byte) (m : Mem) :
    ∃ c' m', carRxFeed N ⟨0, c, car_rxStates_t.CAR_RX_SOP⟩ m
          ([CAR_PROTOCOL_SOF] ++ Q ++ frameBytes P) =
        (List.replicate (2 * N + 4) false, ⟨0, c', car_rxStates_t.CAR_RX_SOP⟩, m') ∧
      (List.range N).map m' = Q := by
  have hne : Q ≠ [] := by
    intro h
    rw [h] at hQ
    simp at hQ
    omega
  obtain ⟨c1, m1, h2, h3⟩ :=
    carRxFeed_data N hN Q 0 CAR_PROTOCOL_SOF m hne (by omega)
  have hg : ∀ b ∈ P ++ [CAR_PROTOCOL_EOP1, CAR_PROTOCOL_EOP2], b ≠ CAR_PROTOCOL_SOF := by
    intro b hb
    rcases List.mem_append.mp hb with hb | hb
    · exact hP24 b hb
    · simp only [List.mem_cons, List.mem_singleton, List.mem_nil_iff, or_false] at hb
      rcases hb with hb | hb <;> rw [hb] <;> decide
  obtain ⟨c2, hc2⟩ := carRxFeed_garbage N (P ++ [CAR_PROTOCOL_EOP1, CAR_PROTOCOL_EOP2]) 0
    CAR_PROTOCOL_SOF m1 hg
  refine ⟨c2, m1, ?_, by simpa using h3⟩
  have hf : [CAR_PROTOCOL_SOF] ++ Q ++ frameBytes P =
      CAR_PROTOCOL_SOF :: (Q ++ CAR_PROTOCOL_SOF ::
        (P ++ [CAR_PROTOCOL_EOP1, CAR_PROTOCOL_EOP2])) := by
    simp [frameBytes]
  rw [hf, carRxFeed_cons, carRxFeed_append]
  have hs : car_rxData_switch ⟨0, CAR_PROTOCOL_SOF, car_rxStates_t.CAR_RX_SOP⟩ m N =
      (false, ⟨0, CAR_PROTOCOL_SOF, car_rxStates_t.CAR_RX_DATA⟩, m) := by
    rw [switch_sop, if_pos rfl]
  show (((car_rxData_switch ⟨0, CAR_PROTOCOL_SOF, car_rxStates_t.CAR_RX_SOP⟩ m N).1 :: _, _, _) :
    List Bool × CarRxStatics × Mem) = _
  rw [hs]
  simp only []
  rw [h2]
  have hx : CAR_PROTOCOL_SOF ≠ CAR_PROTOCOL_EOP1 := by decide
  simp only [carRxFeed_cons, switch_eop1, if_neg hx]
  rw [hc2]
  have hl : (P ++ [CAR_PROTOCOL_EOP1, CAR_PROTOCOL_EOP2]).length = N + 2 := by simp [hP]
  rw [hl, hQ, replicate_false_snoc, replicate_false_shift, List.append_replicate_replicate]
  have e : N + 1 + 1 + (N + 2) = 2 * N + 4 := by omega
  rw [e]

/-- C31: a byte that fails an end-marker check is not examined again as a
start marker. In `CAR_RX_EOP1` and in `CAR_RX_EOP2` the start marker `0x24`
sends the parser to `CAR_RX_SOP`, not to `CAR_RX_DATA`. Hence, for `N ≥ 1`,
when the bytes consumed by a parser started in its initial state are `0x24`,
`N` payload bytes `Q` (a frame cut off before its end markers) and then a
well-formed frame whose `N`-byte payload `P` contains no `0x24`, every call
returns false (the `2N + 4` calls that took a byte and every call that found
the ring buffer empty), the parser ends in `CAR_RX_SOP`, and the caller's
buffer holds `Q`: the well-formed frame is not delivered. The same run of
`remote_rxDataByte` returns false on every call and ends in
`REMOTE_RX_SOP`. -/
theorem truncated_frame_hides_next_frame (N : Nat) (h1 : 1 ≤ N) (hN : N < 2 ^ 32)
    (rb : CRingBuffer) (buf : Mem) (evs : List LinkEvent) (Q P : List Byte)
    (hQ : Q.length = N) (hP : P.length = N) (hP24 : ∀ b ∈ P, b ≠ 0x24)
    (hfed : consumedBytes (carRxRun N (CarRxSys.init rb buf) evs).2 =
      [CAR_PROTOCOL_SOF] ++ Q ++ frameBytes P) :
    (∀ (i : Nat) (m : Mem),
        car_rxData_switch ⟨i, 0x24, car_rxStates_t.CAR_RX_EOP1⟩ m N =
            (false, ⟨i, 0x24, car_rxStates_t.CAR_RX_SOP⟩, m) ∧
          car_rxData_switch ⟨i, 0x24, car_rxStates_t.CAR_RX_EOP2⟩ m N =
            (false, ⟨i, 0x24, car_rxStates_t.CAR_RX_SOP⟩, m)) ∧
      consumingResults (carRxRun N (CarRxSys.init rb buf) evs).2 =
        List.replicate (2 * N + 4) false ∧
      (∀ e ∈ (carRxRun N (CarRxSys.init rb buf) evs).2, e.result = false) ∧
      (carRxRun N (CarRxSys.init rb buf) evs).1.statics.state = car_rxStates_t.CAR_RX_SOP ∧
      (List.range N).map (carRxRun N (CarRxSys.init rb buf) evs).1.myData = Q ∧
      (∀ e ∈ (remoteRxRun N (RemoteRxSys.init rb buf) evs).2, e.result = false) ∧
      (remoteRxRun N (RemoteRxSys.init rb buf) evs).1.statics.state =
        remote_rxStates_t.REMOTE_RX_SOP := by
  obtain ⟨hA, hB⟩ := carRxRun_feed N evs (CarRxSys.init rb buf)
  obtain ⟨c', m', hf, hm⟩ := carRxFeed_truncated N h1 hN Q P hQ hP hP24 0 buf
  rw [hfed] at hA
  have hinit : (CarRxSys.init rb buf).statics = ⟨0, 0, car_rxStates_t.CAR_RX_SOP⟩ := rfl
  have hbuf : (CarRxSys.init rb buf).myData = buf := rfl
  rw [hinit, hbuf, hf] at hA
  simp only [Prod.mk.injEq] at hA
  obtain ⟨hA1, hA2, hA3⟩ := hA
  have hall := all_results_false _ _ hA1.symm hB
  have hr := remoteRxRun_toCar N evs (RemoteRxSys.init rb buf)
  simp only [Prod.ext_iff] at hr
  obtain ⟨hr1, hr2⟩ := hr
  have hi : (RemoteRxSys.init rb buf).toCar = CarRxSys.init rb buf := rfl
  rw [hi] at hr1 hr2
  refine ⟨fun i m => ⟨?_, ?_⟩, hA1.symm, hall, by rw [← hA2], by rw [← hA3]; exact hm,
    by rw [hr2]; exact hall, ?_⟩
  · rw [switch_eop1, if_neg (by decide)]
  · rw [switch_eop2]
    rfl
  · have hst : (remoteRxRun N (RemoteRxSys.init rb buf) evs).1.statics.state.toCar =
        car_rxStates_t.CAR_RX_SOP := by
      have := congrArg (fun s : CarRxSys => s.statics.state) hr1
      simp only [] at this
      rw [← hA2] at this
      exact this
    cases hs : (remoteRxRun N (RemoteRxSys.init rb buf) evs).1.statics.state <;>
      rw [hs] at hst <;> first | rfl | cases hst

/-- Witness for C31: `N = 2`; the cut-off frame `'$' 'A' 'B'` is followed by
the well-formed frame `'$' 'C' 'D' '@' '#'`, and none of the eight calls
returns true. -/
theorem truncated_frame_hides_next_frame_witness :
    (1 ≤ 2 ∧ 2 < 2 ^ 32 ∧ ([0x41, 0x42] : List Byte).length = 2 ∧
        ([0x43, 0x44] : List Byte).length = 2 ∧ (∀ b ∈ ([0x43, 0x44] : List Byte), b ≠ 0x24) ∧
        consumedBytes (carRxRun 2 (CarRxSys.init emptyBuffer (fun _ => 0))
          (feedEvents ([0x24, 0x41, 0x42] ++ frameBytes [0x43, 0x44]))).2 =
          [CAR_PROTOCOL_SOF] ++ [0x41, 0x42] ++ frameBytes [0x43, 0x44]) ∧
      consumingResults (carRxRun 2 (CarRxSys.init emptyBuffer (fun _ => 0))
          (feedEvents ([0x24, 0x41, 0x42] ++ frameBytes [0x43, 0x44]))).2 =
        List.replicate (2 * 2 + 4) false ∧
      (List.range 2).map (carRxRun 2 (CarRxSys.init emptyBuffer (fun _ => 0))
          (feedEvents ([0x24, 0x41, 0x42] ++ frameBytes [0x43, 0x44]))).1.myData =
        [0x41, 0x42] :=
  ⟨⟨by decide, by decide, by decide, by decide, by decide, by decide⟩,
    (truncated_frame_hides_next_frame 2 (by decide) (by decide) emptyBuffer (fun _ => 0)
      (feedEvents ([0x24, 0x41, 0x42] ++ frameBytes [0x43, 0x44])) [0x41, 0x42] [0x43, 0x44]
      (by decide) (by decide) (by decide) (by decide)).2.1,
    (truncated_frame_hides_next_frame 2 (by decide) (by decide) emptyBuffer (fun _ => 0)
      (feedEvents ([0x24, 0x41, 0x42] ++ frameBytes [0x43, 0x44])) [0x41, 0x42] [0x43, 0x44]
      (by decide) (by decide) (by decide) (by decide)).2.2.2.2.1⟩

/-! ## Calls of the codec on an empty ring buffer: results -/

theorem car_pass_retries (v : CarApp) (a : CallAnswers) :
    ((∃ b n, CarCall.car_rxData b n ∈ (car_application_pass v a).2) → a.rxData = false →
        (car_application_pass v a).1.state = v.state) ∧
      (CarCall.car_CheckAckRxd ∈ (car_application_pass v a).2 → a.checkAckRxd = false →
        (car_application_pass v a).1.state = v.state) := by
  obtain ⟨st, lb, cl, cbl⟩ := v
  constructor
  · rintro ⟨b, n, hmem⟩ hf
    cases st <;> simp only [car_application_pass] at hmem ⊢ <;> (try split_ifs at hmem ⊢) <;>
      first
        | rfl
        | (exfalso; simp at hmem; done)
        | (exfalso; simp_all)
  · intro hmem hf
    cases st <;> simp only [car_application_pass] at hmem ⊢ <;> (try split_ifs at hmem ⊢) <;>
      first
        | rfl
        | (exfalso; simp at hmem; done)
        | (exfalso; simp_all)

theorem remote_pass_retries (v : RemoteApp) (a : CallAnswers) :
    ((∃ b n, RemoteCall.remote_rxDataByte b n ∈ (remote_application_pass v a).2) →
        a.rxData = false → (remote_application_pass v a).1.state = v.state) ∧
      (RemoteCall.remote_checkAckRxd ∈ (remote_application_pass v a).2 →
        a.checkAckRxd = false → (remote_application_pass v a).1.state = v.state) := by
  obtain ⟨st, lb, cl, cbl⟩ := v
  constructor
  · rintro ⟨b, n, hmem⟩ hf
    cases st <;> simp only [remote_application_pass] at hmem ⊢ <;> (try split_ifs at hmem ⊢) <;>
      first
        | rfl
        | (exfalso; simp at hmem; done)
        | (exfalso; simp_all)
  · intro hmem hf
    cases st <;> simp only [remote_application_pass] at hmem ⊢ <;> (try split_ifs at hmem ⊢) <;>
      first
        | rfl
        | (exfalso; simp at hmem; done)
        | (exfalso; simp_all)

/-- C32: underflow is a no-op for the codec. On a ring buffer with fill level
0, `car_rxData`, `car_CheckAckRxd`, `remote_rxDataByte` and
`remote_checkAckRxd` return false and leave their `static` variables (parser
state, collection index, last byte), the caller's buffer and the ring buffer
as they were. On a ring buffer with a positive fill level each of them takes
exactly one byte: the ring buffer after the call is the ring buffer after one
`read`, its fill level is one less, the byte taken is the oldest queued byte
and, for a well-formed ring buffer, the queue after the call is the queue
before without its first byte. A pass of `car_application` or of
`remote_application` in which the parser or the ack recognizer was called and
returned false leaves the handshake state unchanged, so the call is made
again in the next pass. -/
theorem underflow_is_no_op (rb : CRingBuffer) :
    (rb.m_fillLevel = 0 →
        (∀ (s : CarRxStatics) (myData : Mem) (dataLength : Nat),
          car_rxData s myData dataLength rb = (false, s, myData, rb)) ∧
        (∀ s : CarAckStatics, car_CheckAckRxd s rb = (false, s, rb)) ∧
        (∀ (s : RemoteRxStatics) (rxdData : Mem) (dataLength : Nat),
          remote_rxDataByte s rxdData dataLength rb = (false, s, rxdData, rb)) ∧
        (∀ s : RemoteAckStatics, remote_checkAckRxd s rb = (false, s, rb))) ∧
      (0 < rb.m_fillLevel →
        (∀ (s : CarRxStatics) (myData : Mem) (dataLength : Nat),
          (car_rxData s myData dataLength rb).2.2.2 = (rb.read 0).2.2 ∧
            (car_rxData s myData dataLength rb).2.1.ch = rb.m_pBuffer rb.m_readIdx) ∧
        (∀ s : CarAckStatics,
          (car_CheckAckRxd s rb).2.2 = (rb.read 0).2.2 ∧
            (car_CheckAckRxd s rb).2.1.ch = rb.m_pBuffer rb.m_readIdx) ∧
        (∀ (s : RemoteRxStatics) (rxdData : Mem) (dataLength : Nat),
          (remote_rxDataByte s rxdData dataLength rb).2.2.2 = (rb.read 0).2.2 ∧
            (remote_rxDataByte s rxdData dataLength rb).2.1.ch = rb.m_pBuffer rb.m_readIdx) ∧
        (∀ s : RemoteAckStatics,
          (remote_checkAckRxd s rb).2.2 = (rb.read 0).2.2 ∧
            (remote_checkAckRxd s rb).2.1.ch = rb.m_pBuffer rb.m_readIdx) ∧
        (rb.read 0).2.2.m_fillLevel + 1 = rb.m_fillLevel ∧
        (rb.Inv → rb.toList = rb.m_pBuffer rb.m_readIdx :: (rb.read 0).2.2.toList)) ∧
      (∀ (v : CarApp) (a : CallAnswers),
        ((∃ b n, CarCall.car_rxData b n ∈ (car_application_pass v a).2) → a.rxData = false →
            (car_application_pass v a).1.state = v.state) ∧
          (CarCall.car_CheckAckRxd ∈ (car_application_pass v a).2 → a.checkAckRxd = false →
            (car_application_pass v a).1.state = v.state)) ∧
      (∀ (v : RemoteApp) (a : CallAnswers),
        ((∃ b n, RemoteCall.remote_rxDataByte b n ∈ (remote_application_pass v a).2) →
            a.rxData = false → (remote_application_pass v a).1.state = v.state) ∧
          (RemoteCall.remote_checkAckRxd ∈ (remote_application_pass v a).2 →
            a.checkAckRxd = false → (remote_application_pass v a).1.state = v.state)) := by
  refine ⟨fun hz => ⟨fun s m n => ?_, fun s => car_CheckAckRxd_zero s rb hz, fun s m n => ?_,
    fun s => ?_⟩, fun hpos => ⟨fun s m n => ?_, fun s => ?_, fun s m n => ?_, fun s => ?_, ?_,
    fun hinv => ?_⟩, car_pass_retries, remote_pass_retries⟩
  · simp [car_rxData, read_of_zero _ _ hz]
  · simp [remote_rxDataByte, read_of_zero _ _ hz]
  · simp [remote_checkAckRxd, read_of_zero _ _ hz]
  · obtain ⟨i, c, st⟩ := s
    simp only [car_rxData, read_of_pos _ _ hpos, if_true, car_rxData_switch, true_and]
    cases st <;> simp only [] <;> split_ifs <;> rfl
  · rw [car_CheckAckRxd_pos s rb hpos]
    exact ⟨rfl, rfl⟩
  · obtain ⟨i, c, st⟩ := s
    simp only [remote_rxDataByte, read_of_pos _ _ hpos, if_true, remote_rxDataByte_switch,
      true_and]
    cases st <;> simp only [] <;> split_ifs <;> rfl
  · obtain ⟨c, st⟩ := s
    simp only [remote_checkAckRxd, read_of_pos _ _ hpos, if_true, true_and]
    cases st <;> simp only [] <;> split_ifs <;> exact ⟨rfl, rfl⟩
  · rw [read_of_pos _ _ hpos]
    show rb.m_fillLevel - 1 + 1 = rb.m_fillLevel
    omega
  · have h := (toList_read rb 0 hinv hpos).2
    rw [read_of_pos _ _ hpos] at h ⊢
    exact h

/-- Witness for C32: on the empty ring buffer a call of `car_rxData` changes
nothing; on the ring buffer that holds the three bytes of an ack a call of
`car_CheckAckRxd` takes the first byte and leaves fill level 2. -/
theorem underflow_is_no_op_witness :
    (emptyBuffer.m_fillLevel = 0 ∧ 0 < ackBuffer.m_fillLevel ∧ ackBuffer.Inv) ∧
      car_rxData CarRxStatics.init (fun _ => 0) 2 emptyBuffer =
        (false, CarRxStatics.init, fun _ => 0, emptyBuffer) ∧
      (car_CheckAckRxd CarAckStatics.init ackBuffer).2.2.m_fillLevel + 1 = 3 ∧
      ackBuffer.toList = 0x24 :: (car_CheckAckRxd CarAckStatics.init ackBuffer).2.2.toList :=
  ⟨⟨by decide, by decide, by decide⟩,
    ((underflow_is_no_op emptyBuffer).1 (by decide)).1 CarRxStatics.init (fun _ => 0) 2,
    by
      have h := (underflow_is_no_op ackBuffer).2.1 (by decide)
      rw [(h.2.1 CarAckStatics.init).1]
      exact h.2.2.2.2.1,
    by
      have h := (underflow_is_no_op ackBuffer).2.1 (by decide)
      rw [(h.2.1 CarAckStatics.init).1]
      exact h.2.2.2.2.2 (by decide)⟩

/-! ## Successive calls on one encryptMgr: results -/

theorem encrypt_leaves_no_init_success (m : encryptMgr) (ans : CipherAnswers) :
    (m.encryptUsingSymmetricCiphers ans).2.1.m_errorStatus ≠
      errorTypeEncrypt_t.ENCRYPT_INIT_SUCCESS := by
  unfold encryptMgr.encryptUsingSymmetricCiphers
  split_ifs <;> simp

theorem encrypt_without_init_success (m : encryptMgr) (ans : CipherAnswers)
    (h : m.m_errorStatus ≠ errorTypeEncrypt_t.ENCRYPT_INIT_SUCCESS) :
    m.encryptUsingSymmetricCiphers ans =
      (errorTypeEncrypt_t.ENCRYPT_INIT_FAIL,
        { m with m_errorStatus := errorTypeEncrypt_t.ENCRYPT_INIT_FAIL }, []) := by
  unfold encryptMgr.encryptUsingSymmetricCiphers
  rw [if_neg (fun e => h e.symm)]

theorem encryptMgr_calls_after_encrypt (cs : List EncryptMgrCall) :
    ∀ m : encryptMgr, m.m_errorStatus ≠ errorTypeEncrypt_t.ENCRYPT_INIT_SUCCESS →
      ∀ e ∈ (m.calls cs).2,
        e.1 = none ∨ e = (some errorTypeEncrypt_t.ENCRYPT_INIT_FAIL, []) := by
  induction cs with
  | nil => intro m _ e he; simp [encryptMgr.calls] at he
  | cons c t ih =>
    intro m hm e he
    simp only [encryptMgr.calls, List.mem_cons] at he
    rcases he with he | he
    · cases c with
      | encryptionDhKeyHandle imp =>
        left
        rw [he]
        rfl
      | encryptUsingSymmetricCiphers ans =>
        right
        rw [he]
        simp [encryptMgr.call, encrypt_without_init_success m ans hm]
    · refine ih _ ?_ e he
      cases c with
      | encryptionDhKeyHandle imp =>
        simp only [encryptMgr.call, encryptionDhKeyHandle_object]
        exact hm
      | encryptUsingSymmetricCiphers ans => exact encrypt_leaves_no_init_success m ans

theorem car_encrypt_pass_stuck (v : CarApp) (encryptObj : encryptMgr) (a : CallAnswers)
    (dh : ImportAnswer) (ans : CipherAnswers)
    (hv : v.state = carStates_t.CAR_ENCRYPT_MESSAGE)
    (hm : encryptObj.m_errorStatus ≠ errorTypeEncrypt_t.ENCRYPT_INIT_SUCCESS) :
    (car_application_pass_encryptObj v encryptObj a dh ans).1.state =
        carStates_t.CAR_ENCRYPT_MESSAGE ∧
      (car_application_pass_encryptObj v encryptObj a dh ans).2.1.m_errorStatus ≠
        errorTypeEncrypt_t.ENCRYPT_INIT_SUCCESS := by
  obtain ⟨st, lb, cl, cbl⟩ := v
  simp only [] at hv
  subst hv
  have hk : ((encryptObj.encryptionDhKeyHandle dh).2.1).m_errorStatus ≠
      errorTypeEncrypt_t.ENCRYPT_INIT_SUCCESS := by
    rw [encryptionDhKeyHandle_object]
    exact hm
  simp only [car_application_pass_encryptObj]
  by_cases h1 : (encryptObj.encryptionDhKeyHandle dh).1 = true
  · rw [if_pos h1, encrypt_without_init_success _ ans hk]
    simp [car_application_pass]
  · rw [if_neg h1]
    simp only [car_application_pass]
    exact ⟨by simp, hk⟩

theorem car_encrypt_run_stuck (ts : List (CallAnswers × ImportAnswer × CipherAnswers)) :
    ∀ (v : CarApp) (encryptObj : encryptMgr),
      v.state = carStates_t.CAR_ENCRYPT_MESSAGE →
      encryptObj.m_errorStatus ≠ errorTypeEncrypt_t.ENCRYPT_INIT_SUCCESS →
      (car_application_run_encryptObj v encryptObj ts).1.state =
        carStates_t.CAR_ENCRYPT_MESSAGE := by
  induction ts with
  | nil => intro v o hv _; exact hv
  | cons t ts ih =>
    intro v o hv hm
    obtain ⟨h1, h2⟩ := car_encrypt_pass_stuck v o t.1 t.2.1 t.2.2 hv hm
    exact ih _ _ h1 h2

/-- C33: encryption is one-shot. After one call of
`encryptUsingSymmetricCiphers` on an `encryptMgr`, whatever the state of the
object before it and whatever the provider answered, in every sequence of
later calls of `encryptionDhKeyHandle` and `encryptUsingSymmetricCiphers` on
the same object each call of `encryptUsingSymmetricCiphers` returns
`ENCRYPT_INIT_FAIL` and invokes no provider operation. Consequently, when a
pass of `car_application` in `CAR_ENCRYPT_MESSAGE` called
`encryptUsingSymmetricCiphers` and the state was not left (the encryption
failed), no sequence of later passes leaves `CAR_ENCRYPT_MESSAGE`, whatever
the provider answers. The remote does not retry: a failed encryption moves it
to `REMOTE_ENCRYPT_FAIL`. -/
theorem encryption_is_one_shot (m : encryptMgr) (ans : CipherAnswers)
    (later : List EncryptMgrCall) :
    (∀ e ∈ ((m.encryptUsingSymmetricCiphers ans).2.1.calls later).2, e.1.isSome = true →
        e = (some errorTypeEncrypt_t.ENCRYPT_INIT_FAIL, [])) ∧
      (∀ (v : CarApp) (a : CallAnswers) (dh : ImportAnswer)
          (ts : List (CallAnswers × ImportAnswer × CipherAnswers)),
        v.state = carStates_t.CAR_ENCRYPT_MESSAGE →
        CarCall.encryptUsingSymmetricCiphers ∈
          (car_application_pass_encryptObj v m a dh ans).2.2 →
        (car_application_pass_encryptObj v m a dh ans).1.state =
          carStates_t.CAR_ENCRYPT_MESSAGE →
        (car_application_run_encryptObj (car_application_pass_encryptObj v m a dh ans).1
            (car_application_pass_encryptObj v m a dh ans).2.1 ts).1.state =
          carStates_t.CAR_ENCRYPT_MESSAGE) ∧
      (∀ (v : RemoteApp) (a : CallAnswers),
        v.state = remoteStates_t.REMOTE_ENCRYPT_MESSAGE →
        RemoteCall.encryptUsingSymmetricCiphers ∈ (remote_application_pass v a).2 →
        a.encryptUsingSymmetricCiphers ≠ errorTypeEncrypt_t.ENCRYPT_SUCCESS →
        (remote_application_pass v a).1.state = remoteStates_t.REMOTE_ENCRYPT_FAIL) := by
  refine ⟨fun e he hs => ?_, fun v a dh ts hv hcall hstay => ?_, fun v a hv hcall hfail => ?_⟩
  · rcases encryptMgr_calls_after_encrypt later _ (encrypt_leaves_no_init_success m ans) e he
      with h | h
    · rw [h] at hs
      simp at hs
    · exact h
  · refine car_encrypt_run_stuck ts _ _ hstay ?_
    obtain ⟨st, lb, cl, cbl⟩ := v
    simp only [] at hv
    subst hv
    simp only [car_application_pass_encryptObj] at hcall ⊢
    by_cases h1 : (m.encryptionDhKeyHandle dh).1 = true
    · rw [if_pos h1]
      exact encrypt_leaves_no_init_success _ ans
    · rw [if_neg h1] at hcall
      simp [car_application_pass] at hcall
  · obtain ⟨st, lb, cl, cbl⟩ := v
    simp only [] at hv
    subst hv
    simp only [remote_application_pass] at hcall ⊢
    split_ifs at hcall ⊢ with h0 h1 h2
    · exact absurd h2.symm hfail
    · rfl
    · simp at hcall
    · simp at hcall

/-- Witness for C33: the `encryptObj` of `car_application` (20 bytes of plain
text, PKCS7 padding). In a first pass in `CAR_ENCRYPT_MESSAGE` the step
`psa_cipher_finish` fails; in the two passes that follow every provider step
would succeed, and the car is still in `CAR_ENCRYPT_MESSAGE`. On the object a
second call of `encryptUsingSymmetricCiphers` returns `ENCRYPT_INIT_FAIL`
without a provider operation. -/
theorem encryption_is_one_shot_witness :
    ((⟨carStates_t.CAR_ENCRYPT_MESSAGE, 32, 0, 0⟩ : CarApp).state =
          carStates_t.CAR_ENCRYPT_MESSAGE ∧
        CarCall.encryptUsingSymmetricCiphers ∈
          (car_application_pass_encryptObj ⟨carStates_t.CAR_ENCRYPT_MESSAGE, 32, 0, 0⟩
            (encryptMgr.ctor encryptMgr.raw0 20 typeOfEncryptAlgo_t.ENCRYPT_CBC_WITH_PADDING
              importOk).1 allSucceed importOk finishFails).2.2 ∧
        (car_application_pass_encryptObj ⟨carStates_t.CAR_ENCRYPT_MESSAGE, 32, 0, 0⟩
            (encryptMgr.ctor encryptMgr.raw0 20 typeOfEncryptAlgo_t.ENCRYPT_CBC_WITH_PADDING
              importOk).1 allSucceed importOk finishFails).1.state =
          carStates_t.CAR_ENCRYPT_MESSAGE) ∧
      (car_application_run_encryptObj
          (car_application_pass_encryptObj ⟨carStates_t.CAR_ENCRYPT_MESSAGE, 32, 0, 0⟩
            (encryptMgr.ctor encryptMgr.raw0 20 typeOfEncryptAlgo_t.ENCRYPT_CBC_WITH_PADDING
              importOk).1 allSucceed importOk finishFails).1
          (car_application_pass_encryptObj ⟨carStates_t.CAR_ENCRYPT_MESSAGE, 32, 0, 0⟩
            (encryptMgr.ctor encryptMgr.raw0 20 typeOfEncryptAlgo_t.ENCRYPT_CBC_WITH_PADDING
              importOk).1 allSucceed importOk finishFails).2.1
          [(allSucceed, importOk, cipherOk), (allSucceed, importOk, cipherOk)]).1.state =
        carStates_t.CAR_ENCRYPT_MESSAGE ∧
      (((encryptMgr.ctor encryptMgr.raw0 20 typeOfEncryptAlgo_t.ENCRYPT_CBC_WITH_PADDING
          importOk).1.encryptUsingSymmetricCiphers finishFails).2.1.calls
          [EncryptMgrCall.encryptionDhKeyHandle importOk,
            EncryptMgrCall.encryptUsingSymmetricCiphers cipherOk]).2 =
        [(none, [PsaCall.psa_import_key 1]),
          (some errorTypeEncrypt_t.ENCRYPT_INIT_FAIL, [])] :=
  ⟨⟨by decide, by decide, by decide⟩,
    (encryption_is_one_shot
      (encryptMgr.ctor encryptMgr.raw0 20 typeOfEncryptAlgo_t.ENCRYPT_CBC_WITH_PADDING
        importOk).1 finishFails []).2.1 ⟨carStates_t.CAR_ENCRYPT_MESSAGE, 32, 0, 0⟩ allSucceed
      importOk [(allSucceed, importOk, cipherOk), (allSucceed, importOk, cipherOk)]
      (by decide) (by decide) (by decide),
    by decide⟩

/-! ## What is handed to the provider to sign and to verify: results -/

/-- C34 (divergence): the length that `signhash` passes to
`psa_asymmetric_sign` and that `verifySignature` passes to
`psa_asymmetric_verify` is the size of a pointer, not the length of the data.
For every pointer size both sides pass that size as the length, and both hand
over the same bytes, the first ones of `"I am 01234567891"`; this is the whole
16-character string only for a pointer of 16 bytes. On the 32-bit target the
input of both calls is the four bytes `"I am"`, so that `signhash` for the
data `"I am plaintext."` of the signature test case hands over the same input
as for the identity string; with 8-byte pointers the input is `"I am 012"`. -/
theorem signed_input_is_pointer_sized :
    (∀ sizeofPointer : Nat,
        (car_generateSignAndPubKey_hash sizeofPointer).hash_length = sizeofPointer ∧
          (signVerifyMgr.verifySignature_hash sizeofPointer).hash_length = sizeofPointer ∧
          (car_generateSignAndPubKey_hash sizeofPointer).input.length = sizeofPointer ∧
          (car_generateSignAndPubKey_hash sizeofPointer).input =
            (signVerifyMgr.verifySignature_hash sizeofPointer).input ∧
          ((car_generateSignAndPubKey_hash sizeofPointer).input = remoteId.take 16 ↔
            sizeofPointer = 16)) ∧
      (car_generateSignAndPubKey_hash 4).input = [0x49, 0x20, 0x61, 0x6D] ∧
      (signVerifyMgr.verifySignature_hash 4).input = [0x49, 0x20, 0x61, 0x6D] ∧
      (car_generateSignAndPubKey_hash 4).hash_length ≠ 16 ∧
      (car_generateSignAndPubKey_hash 4).input ≠ remoteId.take 16 ∧
      ((signMgr.ctor (arrayMem signatureTestPlainText)).signhash 4).input =
        (signVerifyMgr.verifySignature_hash 4).input ∧
      signatureTestPlainText ≠ remoteId ∧
      (car_generateSignAndPubKey_hash 8).input =
        [0x49, 0x20, 0x61, 0x6D, 0x20, 0x30, 0x31, 0x32] := by
  refine ⟨fun ps => ⟨rfl, rfl,
      by simp [HashArgument.input, car_generateSignAndPubKey_hash, signMgr.signhash], rfl, ?_⟩, by decide, by decide,
    by decide, by decide, by decide, by decide, by decide⟩
  constructor
  · intro h
    have hl := congrArg List.length h
    simpa [HashArgument.input, remoteId, car_generateSignAndPubKey_hash, signMgr.signhash]
      using hl
  · intro h
    rw [h]
    decide

/-! ## Successive calls on one dhKeyExchangeMgr: results -/

theorem dh_call_returns_status (lib : EcdhLibrary) (m : dhKeyExchangeMgr) (c : DhCall) :
    (m.call lib c).1 = (m.call lib c).2.1.m_errorStatus := by
  cases c with
  | generateDhKey ans pub =>
    simp only [dhKeyExchangeMgr.call, dhKeyExchangeMgr.generateDhKey]
    split_ifs <;> rfl
  | computeSharedSecretDhKey ans peer key => rfl

theorem dh_call_stays_degraded (lib : EcdhLibrary) (m : dhKeyExchangeMgr) (c : DhCall)
    (h : m.m_errorStatus ≠ errorTypeKeyExchange_T.KEYEXCHANGE_INIT_SUCCESS) :
    (m.call lib c).2.1.m_errorStatus ≠ errorTypeKeyExchange_T.KEYEXCHANGE_INIT_SUCCESS := by
  cases c with
  | generateDhKey ans pub =>
    simp only [dhKeyExchangeMgr.call, dhKeyExchangeMgr.generateDhKey]
    rw [if_neg (fun e => h e.symm)]
    simp
  | computeSharedSecretDhKey ans peer key =>
    simp only [dhKeyExchangeMgr.call, dhKeyExchangeMgr.computeSharedSecretDhKey]
    split_ifs <;> first | exact h | simp

theorem dh_call_failure_degrades (lib : EcdhLibrary) (m : dhKeyExchangeMgr) (c : DhCall)
    (h : ∃ code ∈ (m.call lib c).2.2, code ≠ 0) :
    (m.call lib c).2.1.m_errorStatus ≠ errorTypeKeyExchange_T.KEYEXCHANGE_INIT_SUCCESS := by
  by_cases hm : m.m_errorStatus = errorTypeKeyExchange_T.KEYEXCHANGE_INIT_SUCCESS
  · obtain ⟨code, hmem, hne⟩ := h
    cases c with
    | generateDhKey ans pub =>
      simp only [dhKeyExchangeMgr.call, dhKeyExchangeMgr.generateDhKey_codes,
        if_pos hm.symm, List.mem_cons, List.mem_singleton, List.mem_nil_iff, or_false] at hmem
      simp only [dhKeyExchangeMgr.call, dhKeyExchangeMgr.generateDhKey, if_pos hm.symm]
        at hmem ⊢
      rcases hmem with hc | hc | hc
      · have h1 : ans.mbedtls_ecp_group_load ≠ 0 := by rw [← hc]; exact hne
        split_ifs <;> simp_all
      · have h2 : ans.mbedtls_ecdh_gen_public ≠ 0 := by rw [← hc]; exact hne
        split_ifs <;> simp_all
      · rw [hc] at hne
        split_ifs at hne ⊢ <;> simp_all
    | computeSharedSecretDhKey ans peer key =>
      simp only [dhKeyExchangeMgr.call, dhKeyExchangeMgr.computeSharedSecretDhKey_codes,
        List.mem_cons, List.mem_singleton, List.mem_nil_iff, or_false] at hmem
      simp only [dhKeyExchangeMgr.call, dhKeyExchangeMgr.computeSharedSecretDhKey]
      rcases hmem with hc | hc | hc
      · have h1 : ans.mbedtls_mpi_lset ≠ 0 := by rw [← hc]; exact hne
        split_ifs <;> simp_all
      · have h2 : ans.mbedtls_mpi_read_binary ≠ 0 := by rw [← hc]; exact hne
        split_ifs <;> simp_all
      · have h3 : ans.mbedtls_ecdh_compute_shared ≠ 0 := by rw [← hc]; exact hne
        split_ifs <;> simp_all
  · exact dh_call_stays_degraded lib m c hm

theorem dh_call_success_keeps (lib : EcdhLibrary) (m : dhKeyExchangeMgr) (c : DhCall)
    (hm : m.m_errorStatus = errorTypeKeyExchange_T.KEYEXCHANGE_INIT_SUCCESS)
    (h : ∀ code ∈ (m.call lib c).2.2, code = 0) :
    (m.call lib c).2.1.m_errorStatus = errorTypeKeyExchange_T.KEYEXCHANGE_INIT_SUCCESS := by
  cases c with
  | generateDhKey ans pub =>
    simp only [dhKeyExchangeMgr.call, dhKeyExchangeMgr.generateDhKey_codes,
      if_pos hm.symm, List.mem_cons, List.mem_singleton, List.mem_nil_iff, or_false,
      forall_eq_or_imp, forall_eq] at h
    obtain ⟨h1, h2, h3⟩ := h
    simp only [dhKeyExchangeMgr.call, dhKeyExchangeMgr.generateDhKey, if_pos hm.symm] at h3 ⊢
    simp only [h1, h2, ne_eq, not_true_eq_false, if_false] at h3 ⊢
    split_ifs at h3 ⊢ <;> simp_all
  | computeSharedSecretDhKey ans peer key =>
    simp only [dhKeyExchangeMgr.call, dhKeyExchangeMgr.computeSharedSecretDhKey_codes,
      List.mem_cons, List.mem_singleton, List.mem_nil_iff, or_false,
      forall_eq_or_imp, forall_eq] at h
    obtain ⟨h1, h2, h3⟩ := h
    simp [dhKeyExchangeMgr.call, dhKeyExchangeMgr.computeSharedSecretDhKey, h1, h2, h3, hm]

theorem dh_calls_degraded (lib : EcdhLibrary) (cs : List DhCall) :
    ∀ m : dhKeyExchangeMgr,
      m.m_errorStatus ≠ errorTypeKeyExchange_T.KEYEXCHANGE_INIT_SUCCESS →
      (m.calls lib cs).1.m_errorStatus ≠ errorTypeKeyExchange_T.KEYEXCHANGE_INIT_SUCCESS ∧
        ∀ e ∈ (m.calls lib cs).2, e.1 ≠ errorTypeKeyExchange_T.KEYEXCHANGE_INIT_SUCCESS := by
  induction cs with
  | nil => intro m hm; exact ⟨hm, fun e he => by simp [dhKeyExchangeMgr.calls] at he⟩
  | cons c t ih =>
    intro m hm
    have hs := dh_call_stays_degraded lib m c hm
    obtain ⟨i1, i2⟩ := ih _ hs
    refine ⟨i1, fun e he => ?_⟩
    simp only [dhKeyExchangeMgr.calls, List.mem_cons] at he
    rcases he with he | he
    · rw [he, dh_call_returns_status]
      exact hs
    · exact i2 e he

theorem dh_calls_failure (lib : EcdhLibrary) (cs : List DhCall) :
    ∀ m : dhKeyExchangeMgr,
      (∃ e ∈ (m.calls lib cs).2, ∃ code ∈ e.2, code ≠ 0) →
      (m.calls lib cs).1.m_errorStatus ≠ errorTypeKeyExchange_T.KEYEXCHANGE_INIT_SUCCESS := by
  induction cs with
  | nil => intro m h; simp [dhKeyExchangeMgr.calls] at h
  | cons c t ih =>
    intro m h
    obtain ⟨e, he, hcode⟩ := h
    simp only [dhKeyExchangeMgr.calls, List.mem_cons] at he
    rcases he with he | he
    · rw [he] at hcode
      exact (dh_calls_degraded lib t _ (dh_call_failure_degrades lib m c hcode)).1
    · exact ih _ ⟨e, he, hcode⟩

theorem dh_calls_success (lib : EcdhLibrary) (cs : List DhCall) :
    ∀ m : dhKeyExchangeMgr,
      m.m_errorStatus = errorTypeKeyExchange_T.KEYEXCHANGE_INIT_SUCCESS →
      (∀ e ∈ (m.calls lib cs).2, ∀ code ∈ e.2, code = 0) →
      ∀ e ∈ (m.calls lib cs).2, e.1 = errorTypeKeyExchange_T.KEYEXCHANGE_INIT_SUCCESS := by
  induction cs with
  | nil => intro m _ _ e he; simp [dhKeyExchangeMgr.calls] at he
  | cons c t ih =>
    intro m hm h e he
    simp only [dhKeyExchangeMgr.calls, List.mem_cons, forall_eq_or_imp] at h he
    have hk := dh_call_success_keeps lib m c hm h.1
    rcases he with he | he
    · rw [he, dh_call_returns_status]
      exact hk
    · exact ih _ hk h.2 e he

/-- C35: the status of a key-exchange manager only degrades. Take a
`dhKeyExchangeMgr` from its constructor through any sequence `earlier` of
`generateDhKey` and `computeSharedSecretDhKey` calls and then through any
sequence `later`. (1) If a library call returned a nonzero code in the
constructor or in one of the earlier calls, every later call returns a status
other than `KEYEXCHANGE_INIT_SUCCESS`, whatever the library answers to it, and
`remote_computeSharedSecretKey` reports false for it. (2) If no library call
returned a nonzero code in the constructor and in the earlier calls, every one
of these calls, `computeSharedSecretDhKey` included, returned
`KEYEXCHANGE_INIT_SUCCESS`. -/
theorem key_exchange_status_only_degrades (lib : EcdhLibrary) (raw : dhKeyExchangeMgr)
    (ans0 : EcdhAnswers) (earlier later : List DhCall) :
    ((ans0.mbedtls_ctr_drbg_seed ≠ 0 ∨
          ∃ e ∈ ((dhKeyExchangeMgr.ctor raw ans0).calls lib earlier).2,
            ∃ code ∈ e.2, code ≠ 0) →
        ∀ e ∈ (((dhKeyExchangeMgr.ctor raw ans0).calls lib earlier).1.calls lib later).2,
          e.1 ≠ errorTypeKeyExchange_T.KEYEXCHANGE_INIT_SUCCESS ∧
            remote_computeSharedSecretKey e.1 = false) ∧
      (ans0.mbedtls_ctr_drbg_seed = 0 →
        (∀ e ∈ ((dhKeyExchangeMgr.ctor raw ans0).calls lib earlier).2,
          ∀ code ∈ e.2, code = 0) →
        ∀ e ∈ ((dhKeyExchangeMgr.ctor raw ans0).calls lib earlier).2,
          e.1 = errorTypeKeyExchange_T.KEYEXCHANGE_INIT_SUCCESS) := by
  constructor
  · intro hfail e he
    have hdeg : ((dhKeyExchangeMgr.ctor raw ans0).calls lib earlier).1.m_errorStatus ≠
        errorTypeKeyExchange_T.KEYEXCHANGE_INIT_SUCCESS := by
      rcases hfail with h0 | h1
      · refine (dh_calls_degraded lib earlier _ ?_).1
        simp [dhKeyExchangeMgr.ctor, dhKeyExchangeMgr.intializeDhKeyExchangeServices, h0]
      · exact dh_calls_failure lib earlier _ h1
    have hne := (dh_calls_degraded lib later _ hdeg).2 e he
    refine ⟨hne, ?_⟩
    simp only [remote_computeSharedSecretKey]
    rw [if_neg (fun h => hne h.symm)]
  · intro h0 hall
    refine dh_calls_success lib earlier _ ?_ hall
    simp [dhKeyExchangeMgr.ctor, dhKeyExchangeMgr.intializeDhKeyExchangeServices, h0]

/-- Witness for C35, with the powers of 5 modulo 1009 in the place of the
curve: `mbedtls_ecp_group_load` fails in `generateDhKey`; the
`computeSharedSecretDhKey` that follows, in which every library call returns
0, returns `KEYEXCHANGE_EC_NOT_FOUND`. When nothing failed, `generateDhKey` and
`computeSharedSecretDhKey` return `KEYEXCHANGE_INIT_SUCCESS`. -/
theorem key_exchange_status_only_degrades_witness :
    ((∃ e ∈ ((dhKeyExchangeMgr.ctor dhKeyExchangeMgr.raw0 ecdhOk).calls toyEcdh
            [DhCall.generateDhKey ecdhGroupLoadFails (fun _ => 0)]).2,
          ∃ code ∈ e.2, code ≠ 0) ∧
        (∀ e ∈ ((dhKeyExchangeMgr.ctor dhKeyExchangeMgr.raw0 ecdhOk).calls toyEcdh
            [DhCall.generateDhKey ecdhOk (fun _ => 0),
              DhCall.computeSharedSecretDhKey ecdhOk (fun _ => 1) (fun _ => 0)]).2,
          ∀ code ∈ e.2, code = 0)) ∧
      (∀ e ∈ (((dhKeyExchangeMgr.ctor dhKeyExchangeMgr.raw0 ecdhOk).calls toyEcdh
            [DhCall.generateDhKey ecdhGroupLoadFails (fun _ => 0)]).1.calls toyEcdh
            [DhCall.computeSharedSecretDhKey ecdhOk (fun _ => 1) (fun _ => 0)]).2,
          e.1 ≠ errorTypeKeyExchange_T.KEYEXCHANGE_INIT_SUCCESS ∧
            remote_computeSharedSecretKey e.1 = false) ∧
      (((dhKeyExchangeMgr.ctor dhKeyExchangeMgr.raw0 ecdhOk).calls toyEcdh
            [DhCall.generateDhKey ecdhGroupLoadFails (fun _ => 0)]).1.calls toyEcdh
            [DhCall.computeSharedSecretDhKey ecdhOk (fun _ => 1) (fun _ => 0)]).2.map
          Prod.fst = [errorTypeKeyExchange_T.KEYEXCHANGE_EC_NOT_FOUND] ∧
      (∀ e ∈ ((dhKeyExchangeMgr.ctor dhKeyExchangeMgr.raw0 ecdhOk).calls toyEcdh
            [DhCall.generateDhKey ecdhOk (fun _ => 0),
              DhCall.computeSharedSecretDhKey ecdhOk (fun _ => 1) (fun _ => 0)]).2,
          e.1 = errorTypeKeyExchange_T.KEYEXCHANGE_INIT_SUCCESS) :=
  ⟨⟨by decide, by decide⟩,
    (key_exchange_status_only_degrades toyEcdh dhKeyExchangeMgr.raw0 ecdhOk
      [DhCall.generateDhKey ecdhGroupLoadFails (fun _ => 0)]
      [DhCall.computeSharedSecretDhKey ecdhOk (fun _ => 1) (fun _ => 0)]).1
      (Or.inr (by decide)),
    by decide,
    (key_exchange_status_only_degrades toyEcdh dhKeyExchangeMgr.raw0 ecdhOk
      [DhCall.generateDhKey ecdhOk (fun _ => 0),
        DhCall.computeSharedSecretDhKey ecdhOk (fun _ => 1) (fun _ => 0)] []).2
      (by decide) (by decide)⟩

/-! ## Byte layout of the shared secret: results -/

/-- C36: byte layout of the shared secret. With the shared-secret value `z`
that the context holds when `computeSharedSecretDhKey` runs its loop, and
`p[j]` its 32-bit limbs, the key buffer after the call satisfies
`key[4j+k] = (p[j] >> (24 - 8k)) mod 256` for all `j, k` in `0..3`; the bytes
from index 16 on are left as they were; and two calls that end with the same
`z` write the same 16 key bytes, whatever the managers, the library answers
and the previous contents of the key buffers. -/
theorem shared_secret_byte_layout (lib : EcdhLibrary) (ans : EcdhAnswers)
    (m : dhKeyExchangeMgr) (exchangedPublicKey encryptionKey : Mem) :
    (∀ j k : Fin 4,
        ((m.computeSharedSecretDhKey lib ans exchangedPublicKey encryptionKey).2.2
            (4 * j.val + k.val)).val =
          mpiLimb (m.computeSharedSecretDhKey lib ans exchangedPublicKey encryptionKey).2.1.z
              j.val / 2 ^ (24 - 8 * k.val) % 256) ∧
      (∀ i, 16 ≤ i →
        (m.computeSharedSecretDhKey lib ans exchangedPublicKey encryptionKey).2.2 i =
          encryptionKey i) ∧
      (∀ (lib2 : EcdhLibrary) (ans2 : EcdhAnswers) (m2 : dhKeyExchangeMgr)
          (exchangedPublicKey2 encryptionKey2 : Mem),
        (m2.computeSharedSecretDhKey lib2 ans2 exchangedPublicKey2 encryptionKey2).2.1.z =
          (m.computeSharedSecretDhKey lib ans exchangedPublicKey encryptionKey).2.1.z →
        (List.range 16).map
            (m2.computeSharedSecretDhKey lib2 ans2 exchangedPublicKey2 encryptionKey2).2.2 =
          (List.range 16).map
            (m.computeSharedSecretDhKey lib ans exchangedPublicKey encryptionKey).2.2) := by
  have hkey : (m.computeSharedSecretDhKey lib ans exchangedPublicKey encryptionKey).2.2 =
      dhKeyLoop (m.computeSharedSecretDhKey lib ans exchangedPublicKey encryptionKey).2.1.z
        encryptionKey 4 := rfl
  refine ⟨fun j k => ?_, fun i hi => ?_, fun lib2 ans2 m2 p2 k2 hz => ?_⟩
  · rw [hkey]
    generalize (m.computeSharedSecretDhKey lib ans exchangedPublicKey encryptionKey).2.1.z = z
    fin_cases j <;> fin_cases k <;> simp [dhKeyLoop, Function.update, byteOf]
  · rw [hkey]
    generalize (m.computeSharedSecretDhKey lib ans exchangedPublicKey encryptionKey).2.1.z = z
    have h0 : i ≠ 0 := by omega
    have h1 : i ≠ 1 := by omega
    have h2 : i ≠ 2 := by omega
    have h3 : i ≠ 3 := by omega
    have h4 : i ≠ 4 := by omega
    have h5 : i ≠ 5 := by omega
    have h6 : i ≠ 6 := by omega
    have h7 : i ≠ 7 := by omega
    have h8 : i ≠ 8 := by omega
    have h9 : i ≠ 9 := by omega
    have h10 : i ≠ 10 := by omega
    have h11 : i ≠ 11 := by omega
    have h12 : i ≠ 12 := by omega
    have h13 : i ≠ 13 := by omega
    have h14 : i ≠ 14 := by omega
    have h15 : i ≠ 15 := by omega
    simp [dhKeyLoop, Function.update, h0, h1, h2, h3, h4, h5, h6, h7, h8, h9, h10, h11, h12,
      h13, h14, h15]
  · have hkey2 : (m2.computeSharedSecretDhKey lib2 ans2 p2 k2).2.2 =
        dhKeyLoop (m2.computeSharedSecretDhKey lib2 ans2 p2 k2).2.1.z k2 4 := rfl
    rw [hkey, hkey2, hz]
    exact dhKeyLoop_key _ _ _

end Showcase
